import Mathlib

/-!
# Tic-tac-toe game domain: board, game aggregate, and their contracts

A shallow embedding of `services/game/domain` (`board.go`, `game.go`,
`player.go`).  Go methods that mutate their receiver and return an `error`
become functions returning the new receiver together with an `Outcome`.
Pointers to `Player` objects are addresses into an explicit heap; a nil
pointer is `none`, and dereferencing it is the outcome `nilDeref`.
-/

namespace domain

/-! ## Results of calls -/

/-- What a Go call of result type `error` does: it returns nil (`ok`), returns
`errors.New msg` (`error msg`), or stops with a nil-pointer dereference. -/
inductive Outcome where
  | ok : Outcome
  | error (msg : String) : Outcome
  | nilDeref : Outcome
  deriving DecidableEq

/-! ## board.go -/

/-- The `Board` value object: `cells [3][3]string`. -/
structure Board where
  cells : Fin 3 → Fin 3 → String

instance : DecidableEq Board := fun a b =>
  decidable_of_iff (∀ i j, a.cells i j = b.cells i j)
    ⟨fun h => by
      cases a; cases b
      congr
      funext i j
      exact h i j,
     fun h _ _ => by rw [h]⟩

/-- Go `NewBoard`: all nine cells hold the empty string. -/
def NewBoard : Board :=
  { cells := fun _ _ => "" }

/-- The loop range `for i := 0; i < 3; i++`. -/
def idx3 : List (Fin 3) := [0, 1, 2]

/-- Row index `position / 3` of Go (truncated division); the caller has
checked `0 ≤ position ≤ 8`, so the array access is in bounds. -/
def rowOf (position : Int) (h : ¬ (position < 0 ∨ position > 8)) : Fin 3 :=
  ⟨(Int.tdiv position 3).toNat, by
    have h0 : 0 ≤ position := by omega
    rw [Int.tdiv_eq_ediv h0 (by decide)]; omega⟩

/-- Column index `position % 3` of Go (truncated remainder). -/
def colOf (position : Int) (h : ¬ (position < 0 ∨ position > 8)) : Fin 3 :=
  ⟨(Int.tmod position 3).toNat, by
    have h0 : 0 ≤ position := by omega
    rw [Int.tmod_eq_emod h0 (by decide)]; omega⟩

/-- Go `Board.MakeMove`: the board after the call and the returned error. -/
def Board.MakeMove (b : Board) (position : Int) (symbol : String) : Board × Outcome :=
  if h : position < 0 ∨ position > 8 then
    (b, Outcome.error "invalid position")
  else if symbol ≠ "X" ∧ symbol ≠ "O" then
    (b, Outcome.error "invalid symbol")
  else
    let row := rowOf position h
    let col := colOf position h
    if b.cells row col ≠ "" then
      (b, Outcome.error "position already occupied")
    else
      ({ cells := fun i j => if i = row ∧ j = col then symbol else b.cells i j }, Outcome.ok)

/-- Go `Board.HasWinner`: rows, then columns, then the two diagonals, returning at
the first line found. -/
def Board.HasWinner (b : Board) : Bool :=
  if idx3.any (fun i =>
      b.cells i 0 != "" && b.cells i 0 == b.cells i 1 && b.cells i 1 == b.cells i 2) then
    true
  else if idx3.any (fun i =>
      b.cells 0 i != "" && b.cells 0 i == b.cells 1 i && b.cells 1 i == b.cells 2 i) then
    true
  else if b.cells 0 0 != "" && b.cells 0 0 == b.cells 1 1 && b.cells 1 1 == b.cells 2 2 then
    true
  else if b.cells 0 2 != "" && b.cells 0 2 == b.cells 1 1 && b.cells 1 1 == b.cells 2 0 then
    true
  else
    false

/-- Go `Board.IsFull`: false at the first empty cell met, true otherwise. -/
def Board.IsFull (b : Board) : Bool :=
  if idx3.any (fun i => idx3.any (fun j => b.cells i j == "")) then false else true

/-- Go `Board.GetCell`: the empty string for an index outside the grid. -/
def Board.GetCell (b : Board) (row col : Int) : String :=
  if h : row < 0 ∨ row > 2 ∨ col < 0 ∨ col > 2 then ""
  else b.cells ⟨row.toNat, by omega⟩ ⟨col.toNat, by omega⟩

/-- Go `Board.IsValidPosition`: in range and empty. -/
def Board.IsValidPosition (b : Board) (position : Int) : Bool :=
  if h : position < 0 ∨ position > 8 then false
  else b.cells (rowOf position h) (colOf position h) == ""

/-- The board after a sequence of `Board.MakeMove` calls, failing ones included. -/
def Board.run (b : Board) (calls : List (Int × String)) : Board :=
  calls.foldl (fun acc c => (acc.MakeMove c.1 c.2).1) b

/-- The eight lines of the grid as the specification lists them: rows 0-2,
columns 0-2, the main diagonal and the anti-diagonal. -/
def winLines : List ((Fin 3 × Fin 3) × (Fin 3 × Fin 3) × (Fin 3 × Fin 3)) :=
  [((0, 0), (0, 1), (0, 2)), ((1, 0), (1, 1), (1, 2)), ((2, 0), (2, 1), (2, 2)),
   ((0, 0), (1, 0), (2, 0)), ((0, 1), (1, 1), (2, 1)), ((0, 2), (1, 2), (2, 2)),
   ((0, 0), (1, 1), (2, 2)), ((0, 2), (1, 1), (2, 0))]

/-- A line of the specification is won: its three cells are equal to each other
and non-empty. -/
def Board.lineWon (b : Board) (l : (Fin 3 × Fin 3) × (Fin 3 × Fin 3) × (Fin 3 × Fin 3)) : Prop :=
  b.cells l.1.1 l.1.2 ≠ "" ∧
    b.cells l.1.1 l.1.2 = b.cells l.2.1.1 l.2.1.2 ∧
    b.cells l.2.1.1 l.2.1.2 = b.cells l.2.2.1 l.2.2.2

instance (b : Board) (l : (Fin 3 × Fin 3) × (Fin 3 × Fin 3) × (Fin 3 × Fin 3)) :
    Decidable (b.lineWon l) := by
  unfold Board.lineWon; infer_instance

/-! ## player.go -/

/-- The `Player` entity; `CreatedAt` is a clock reading. -/
structure Player where
  ID : String
  Username : String
  Email : String
  Symbol : String
  CreatedAt : Nat
  deriving DecidableEq

/-- The address of a `Player` object. A `*Player` is an `Option PlayerRef`,
`none` being nil. -/
abbrev PlayerRef := Nat

/-- The `Player` objects in memory, by address. -/
abbrev Heap := PlayerRef → Player

/-- Go `Player.IsValidSymbol`. -/
def Player.IsValidSymbol (p : Player) : Bool :=
  p.Symbol == "X" || p.Symbol == "O"

/-! ## game.go -/

/-- Go `type GameStatus string`. -/
abbrev GameStatus := String

def GameStatusWaiting : GameStatus := "waiting"

def GameStatusActive : GameStatus := "active"

def GameStatusFinished : GameStatus := "finished"

/-- The `Game` aggregate. The board is owned by the game (allocated by
`NewGame`, never reassigned); the four player fields are pointers; the three
time fields are clock readings, the last two nil until set. -/
structure Game where
  ID : String
  Player1 : Option PlayerRef
  Player2 : Option PlayerRef
  Board : Board
  Status : GameStatus
  CurrentTurn : Option PlayerRef
  Winner : Option PlayerRef
  CreatedAt : Nat
  StartedAt : Option Nat
  FinishedAt : Option Nat
  deriving DecidableEq

/-- Go `generateGameID`: `stamp` is the clock reading in the layout
`20060102150405`. -/
def generateGameID (stamp : String) : String :=
  "game_" ++ stamp

/-- Go `NewGame`, reading the clock as `stamp` (formatted) and `now`. -/
def NewGame (stamp : String) (now : Nat) (player1 : Option PlayerRef) : Game :=
  { ID := generateGameID stamp
    Player1 := player1
    Player2 := none
    Board := NewBoard
    Status := GameStatusWaiting
    CurrentTurn := none
    Winner := none
    CreatedAt := now
    StartedAt := none
    FinishedAt := none }

/-- Go `Game.JoinGame`: the game after the call and the returned error. -/
def Game.JoinGame (h : Heap) (now : Nat) (g : Game) (player2 : Option PlayerRef) :
    Game × Outcome :=
  if g.Status ≠ GameStatusWaiting then
    (g, Outcome.error "game is not in waiting status")
  else
    match g.Player1, player2 with
    | some a, some b =>
      if (h a).ID = (h b).ID then
        (g, Outcome.error "player cannot join their own game")
      else
        ({ g with
            Player2 := some b
            Status := GameStatusActive
            CurrentTurn := g.Player1
            StartedAt := some now }, Outcome.ok)
    | _, _ => (g, Outcome.nilDeref)

/-- Go `Game.isPlayerInGame`; its caller has already read `player.ID`, so `player`
is not nil here. -/
def Game.isPlayerInGame (h : Heap) (g : Game) (player : PlayerRef) : Bool :=
  (match g.Player1 with
    | some a => (h a).ID == (h player).ID
    | none => false) ||
  (match g.Player2 with
    | some b => (h b).ID == (h player).ID
    | none => false)

/-- Go `Game.switchTurn`; `none` when `g.CurrentTurn` or `g.Player1` is nil, whose
`ID` the comparison reads. -/
def Game.switchTurn (h : Heap) (g : Game) : Option Game :=
  match g.CurrentTurn, g.Player1 with
  | some c, some a =>
    if (h c).ID = (h a).ID then
      some { g with CurrentTurn := g.Player2 }
    else
      some { g with CurrentTurn := g.Player1 }
  | _, _ => none

/-- Go `Game.MakeMove`: the game after the call and the returned error. -/
def Game.MakeMove (h : Heap) (now : Nat) (g : Game) (player : Option PlayerRef)
    (position : Int) : Game × Outcome :=
  if g.Status ≠ GameStatusActive then
    (g, Outcome.error "game is not active")
  else
    match g.CurrentTurn, player with
    | some c, some p =>
      if (h c).ID ≠ (h p).ID then
        (g, Outcome.error "not your turn")
      else if ¬ g.isPlayerInGame h p then
        (g, Outcome.error "player is not in this game")
      else
        match g.Board.MakeMove position (h p).Symbol with
        | (b, Outcome.ok) =>
          if b.HasWinner then
            ({ g with
                Board := b
                Status := GameStatusFinished
                Winner := some p
                FinishedAt := some now }, Outcome.ok)
          else if b.IsFull then
            ({ g with
                Board := b
                Status := GameStatusFinished
                FinishedAt := some now }, Outcome.ok)
          else
            match Game.switchTurn h { g with Board := b } with
            | some g2 => (g2, Outcome.ok)
            | none => ({ g with Board := b }, Outcome.nilDeref)
        | (b, e) => ({ g with Board := b }, e)
    | _, _ => (g, Outcome.nilDeref)

/-- One call on a game: `Game.JoinGame` or `Game.MakeMove`, with the clock
reading the call would take. -/
inductive Call where
  | JoinGame (player2 : Option PlayerRef) (now : Nat) : Call
  | MakeMove (player : Option PlayerRef) (position : Int) (now : Nat) : Call
  deriving DecidableEq

/-- The game and the result after one call. -/
def Game.step (h : Heap) (g : Game) : Call → Game × Outcome
  | Call.JoinGame player2 now => g.JoinGame h now player2
  | Call.MakeMove player position now => g.MakeMove h now player position

/-- The game after a sequence of calls, failing ones included. -/
def Game.run (h : Heap) (g : Game) (calls : List Call) : Game :=
  calls.foldl (fun acc c => (acc.step h c).1) g

/-! ## Sample data -/

/-- Three players in memory: alice at address 0, bob at 1, carol at every
other address; alice holds X, bob holds O. -/
def sampleHeap : Heap := fun a =>
  if a = 0 then { ID := "alice", Username := "Alice", Email := "", Symbol := "X", CreatedAt := 0 }
  else if a = 1 then { ID := "bob", Username := "Bob", Email := "", Symbol := "O", CreatedAt := 0 }
  else { ID := "carol", Username := "Carol", Email := "", Symbol := "X", CreatedAt := 0 }

/-- The game alice created and bob joined. -/
def sampleActive : Game :=
  (NewGame "20240101120000" 10 (some 0)).run sampleHeap [Call.JoinGame (some 1) 11]

/-- The moves of alice (address 0) and bob (address 1) at the given positions,
alice first, taking turns. -/
def alternate : List Int → List Call
  | [] => []
  | [x] => [Call.MakeMove (some 0) x 12]
  | x :: y :: rest => Call.MakeMove (some 0) x 12 :: Call.MakeMove (some 1) y 12 :: alternate rest

/-! ## Coherence of a game -/

/-- What the calls maintain of a game created by `NewGame`: while Waiting nobody
has joined, no turn is set and there is no winner; once Active or Finished both
players are set with different ids and the turn is one of them, with no winner
while Active. -/
def Game.Coherent (h : Heap) (g : Game) : Prop :=
  (g.Status = GameStatusWaiting ∧ g.Player2 = none ∧ g.CurrentTurn = none ∧
      g.Winner = none) ∨
    ((g.Status = GameStatusActive ∨ g.Status = GameStatusFinished) ∧
      ∃ a b, g.Player1 = some a ∧ g.Player2 = some b ∧ (h a).ID ≠ (h b).ID ∧
        (g.CurrentTurn = some a ∨ g.CurrentTurn = some b) ∧
        (g.Status = GameStatusActive → g.Winner = none))

/-! ## move.go -/

/-- The `Move` value object; `Timestamp` is a clock reading. -/
structure Move where
  Position : Int
  Symbol : String
  PlayerID : String
  Timestamp : Nat
  deriving DecidableEq

/-- Go `validateMove`. -/
def validateMove (position : Int) (symbol : String) : Outcome :=
  if position < 0 ∨ position > 8 then
    Outcome.error "position must be between 0 and 8"
  else if symbol ≠ "X" ∧ symbol ≠ "O" then
    Outcome.error "symbol must be X or O"
  else
    Outcome.ok

/-- Go `NewMove`: nil and the error, or the move and nil. -/
def NewMove (now : Nat) (position : Int) (symbol playerID : String) : Option Move × Outcome :=
  match validateMove position symbol with
  | Outcome.ok =>
    (some { Position := position, Symbol := symbol, PlayerID := playerID, Timestamp := now },
      Outcome.ok)
  | err => (none, err)

/-- Go `Move.IsValid`. -/
def Move.IsValid (m : Move) : Bool :=
  decide (m.Position ≥ 0) && decide (m.Position ≤ 8) &&
    (m.Symbol == "X" || m.Symbol == "O") && m.PlayerID != ""

/-! ## logic.go: the game service -/

/-- Go `Player.AssignSymbol` through a pointer: the object at that address gets
the symbol; `none` when the pointer is nil. -/
def Player.AssignSymbol (h : Heap) (p : Option PlayerRef) (symbol : String) : Option Heap :=
  match p with
  | some a => some (Function.update h a { h a with Symbol := symbol })
  | none => none

/-- Go `GameService.CreateGame`: the memory after the call and the new game;
`none` when `player1` is nil. -/
def GameService.CreateGame (h : Heap) (stamp : String) (now : Nat)
    (player1 : Option PlayerRef) : Option (Heap × Game) :=
  match Player.AssignSymbol h player1 "X" with
  | some h1 => some (h1, NewGame stamp now player1)
  | none => none

/-- Go `GameService.JoinGame`: the memory and the game after the call, and the
returned error. -/
def GameService.JoinGame (h : Heap) (now : Nat) (game : Game) (player2 : Option PlayerRef) :
    Heap × Game × Outcome :=
  if game.Player2 ≠ none then
    (h, game, Outcome.error "game is already full")
  else
    match Player.AssignSymbol h player2 "O" with
    | some h1 => (h1, game.JoinGame h1 now player2)
    | none => (h, game, Outcome.nilDeref)

/-- Go `GameService.MakeMove`: the game after the call and the returned error;
`stamped` is the clock reading `NewMove` takes, `now` the one `Game.MakeMove`
takes. -/
def GameService.MakeMove (h : Heap) (stamped now : Nat) (game : Game)
    (player : Option PlayerRef) (position : Int) : Game × Outcome :=
  match player with
  | none => (game, Outcome.nilDeref)
  | some p =>
    match NewMove stamped position (h p).Symbol (h p).ID with
    | (some move, _) => game.MakeMove h now player move.Position
    | (none, err) => (game, err)

/-- Go `GameService.GetGameStatistics`, the `TotalMoves` count: the number of
non-empty cells. -/
def GameService.TotalMoves (game : Game) : Nat :=
  (idx3.map (fun i => (idx3.filter (fun j => game.Board.GetCell i.val j.val != "")).length)).sum

/-- One call on the game service, with the clock readings it would take. -/
inductive ServiceCall where
  | JoinGame (player2 : Option PlayerRef) (now : Nat) : ServiceCall
  | MakeMove (player : Option PlayerRef) (position : Int) (stamped now : Nat) : ServiceCall
  deriving DecidableEq

/-- The memory, the game and the result after one service call. -/
def GameService.step (h : Heap) (game : Game) : ServiceCall → Heap × Game × Outcome
  | ServiceCall.JoinGame player2 now => GameService.JoinGame h now game player2
  | ServiceCall.MakeMove player position stamped now =>
    (h, GameService.MakeMove h stamped now game player position)

/-- The memory and the game after a sequence of service calls, failing ones
included, with the results of the calls in order. -/
def GameService.run (h : Heap) (game : Game) : List ServiceCall → (Heap × Game) × List Outcome
  | [] => ((h, game), [])
  | c :: rest =>
    let r := GameService.step h game c
    let s := GameService.run r.1 r.2.1 rest
    (s.1, r.2.2 :: s.2)

/-- What the calls maintain of the end of a game: a winner is set only on a
Finished game whose board has a line, and a Finished game without a winner has a
full board without a line. -/
def Game.Settled (g : Game) : Prop :=
  (g.Winner ≠ none → g.Status = GameStatusFinished ∧ g.Board.HasWinner = true) ∧
    (g.Status = GameStatusFinished → g.Winner = none →
      g.Board.IsFull = true ∧ g.Board.HasWinner = false)

/-- The opening of the scenario of the specification after A has created the
game: B joins, A plays 4, B plays 0, A plays 8. -/
def scenarioCalls (a b : PlayerRef) : List ServiceCall :=
  [ServiceCall.JoinGame (some b) 11, ServiceCall.MakeMove (some a) 4 12 12,
    ServiceCall.MakeMove (some b) 0 13 13, ServiceCall.MakeMove (some a) 8 14 14]

/-! ## websocket/message.go -/

/-- Go `type MessageType string`. -/
abbrev MessageType := String

def MessageTypeChat : MessageType := "chat"

def MessageTypeJoin : MessageType := "join"

def MessageTypeLeave : MessageType := "leave"

def MessageTypeGameMove : MessageType := "game_move"

def MessageTypeSystem : MessageType := "system"

def MessageTypeError : MessageType := "error"

/-- A `[]byte`, as text. -/
abbrev Bytes := String

/-- The `Message` structure. `MsgType` is the Go field `Type`; `Timestamp` is a
clock reading; `Data` is nil or the value of the free-form payload. -/
structure Message where
  MsgType : MessageType
  Content : String
  Username : String
  GameID : String
  Timestamp : Nat
  Data : Option String
  deriving DecidableEq

/-- Go `NewMessage`, reading the clock as `now`. -/
def NewMessage (now : Nat) (msgType : MessageType) (content username gameID : String) :
    Message :=
  { MsgType := msgType
    Content := content
    Username := username
    GameID := gameID
    Timestamp := now
    Data := none }

/-- Go `ChatMessage`: a `Message` embedded, and `IsPrivate`. -/
structure ChatMessage extends Message where
  IsPrivate : Bool
  deriving DecidableEq

/-- Go `NewChatMessage`. -/
def NewChatMessage (now : Nat) (content username gameID : String) (isPrivate : Bool) :
    ChatMessage :=
  { toMessage := NewMessage now MessageTypeChat content username gameID
    IsPrivate := isPrivate }

/-- Go `GameMoveMessage`. -/
structure GameMoveMessage extends Message where
  Position : Int
  Symbol : String
  deriving DecidableEq

/-- Go `NewGameMoveMessage`. -/
def NewGameMoveMessage (now : Nat) (position : Int) (symbol username gameID : String) :
    GameMoveMessage :=
  { toMessage := NewMessage now MessageTypeGameMove "" username gameID
    Position := position
    Symbol := symbol }

/-- Go `SystemMessage`. -/
structure SystemMessage extends Message where
  Action : String
  deriving DecidableEq

/-- Go `NewSystemMessage`. -/
def NewSystemMessage (now : Nat) (action content gameID : String) : SystemMessage :=
  { toMessage := NewMessage now MessageTypeSystem content "System" gameID
    Action := action }

/-- Go `ErrorMessage`. -/
structure ErrorMessage extends Message where
  ErrorCode : String
  deriving DecidableEq

/-- Go `NewErrorMessage`. -/
def NewErrorMessage (now : Nat) (errorCode content gameID : String) : ErrorMessage :=
  { toMessage := NewMessage now MessageTypeError content "System" gameID
    ErrorCode := errorCode }

/-- Go `JoinMessage`. -/
structure JoinMessage extends Message where
  PlayerCount : Int
  deriving DecidableEq

/-- Go `NewJoinMessage`. -/
def NewJoinMessage (now : Nat) (username gameID : String) (playerCount : Int) : JoinMessage :=
  { toMessage := NewMessage now MessageTypeJoin (username ++ " joined the game") username gameID
    PlayerCount := playerCount }

/-- Go `LeaveMessage`. -/
structure LeaveMessage extends Message where
  PlayerCount : Int
  deriving DecidableEq

/-- Go `NewLeaveMessage`. -/
def NewLeaveMessage (now : Nat) (username gameID : String) (playerCount : Int) :
    LeaveMessage :=
  { toMessage := NewMessage now MessageTypeLeave (username ++ " left the game") username gameID
    PlayerCount := playerCount }

/-- A value handed to `json.Marshal` as an `interface{}`, with its dynamic type:
a `*Message` or one of the structures that embed it. -/
inductive Payload where
  | message (m : Message) : Payload
  | chat (m : ChatMessage) : Payload
  | gameMove (m : GameMoveMessage) : Payload
  | system (m : SystemMessage) : Payload
  | error (m : ErrorMessage) : Payload
  | join (m : JoinMessage) : Payload
  | leave (m : LeaveMessage) : Payload
  deriving DecidableEq

/-- The two functions of the library `encoding/json` the package calls, taken as
given: `Marshal` of a value and `Unmarshal` of bytes into a `Message`, `none`
standing for a returned error. -/
structure Codec where
  Marshal : Payload → Option Bytes
  Unmarshal : Bytes → Option Message

/-- Go `Message.ToJSON`. Its receiver is the `Message`; called on a structure
that embeds a `Message` it is the promoted method, and encodes the embedded
`Message` alone. -/
def Message.ToJSON (j : Codec) (m : Message) : Option Bytes :=
  j.Marshal (Payload.message m)

/-- Go `FromJSON`. -/
def FromJSON (j : Codec) (data : Bytes) : Option Message :=
  j.Unmarshal data

/-! ## websocket/clients.go and websocket/hub.go: the state -/

/-- The fields of a `Client` that never change: `ID`, `Username`, `GameID`. Its
`Send` channel is kept in `World.Send`; its connection is not part of the
model. -/
structure Client where
  ID : String
  Username : String
  GameID : String
  deriving DecidableEq

/-- The address of a `Client` object. -/
abbrev ClientRef := Nat

/-- The capacity `NewClient` gives the `Send` channel: `make(chan []byte, 256)`. -/
def sendCapacity : Nat := 256

/-- The state of a buffered channel of capacity `sendCapacity`: the values
queued, oldest first, and whether it has been closed. -/
structure Chan where
  buf : List Bytes
  closed : Bool
  deriving DecidableEq

/-- Go `NewClient`: the fields and the fresh, empty, open `Send` channel. -/
def NewClient (id username gameID : String) : Client × Chan :=
  ({ ID := id, Username := username, GameID := gameID }, { buf := [], closed := false })

/-- Go `Client.GetGameID`. -/
def Client.GetGameID (c : Client) : String := c.GameID

/-- Go `Client.GetUsername`. -/
def Client.GetUsername (c : Client) : String := c.Username

/-- The state of a `sync.RWMutex`: whether the write lock is held, and how many
read locks are held. -/
structure RWMutex where
  writer : Bool
  readers : Nat
  deriving DecidableEq

/-- Go `RWMutex.Lock`: granted when nobody holds the mutex; `none` when the
caller must wait. -/
def RWMutex.Lock (m : RWMutex) : Option RWMutex :=
  if m.writer = true ∨ m.readers ≠ 0 then none else some { m with writer := true }

/-- Go `RWMutex.Unlock`. -/
def RWMutex.Unlock (m : RWMutex) : RWMutex :=
  { m with writer := false }

/-- Go `RWMutex.RLock`: granted unless the write lock is held; `none` when the
caller must wait. The mutex is not reentrant: a goroutine that holds the write
lock and asks for a read lock waits for itself. -/
def RWMutex.RLock (m : RWMutex) : Option RWMutex :=
  if m.writer = true then none else some { m with readers := m.readers + 1 }

/-- Go `RWMutex.RUnlock`. -/
def RWMutex.RUnlock (m : RWMutex) : RWMutex :=
  { m with readers := m.readers - 1 }

/-- A `map[*Client]bool`. -/
abbrev ClientSet := AList (fun _ : ClientRef => Bool)

/-- The `Hub`: `clients`, a `map[string]map[*Client]bool`; the clients whose send
on the `Unregister` channel has not been received yet; and the mutex `mu`. The
`Register` and `Broadcast` channels are read by `Run` alone. -/
structure Hub where
  clients : AList (fun _ : String => ClientSet)
  Unregister : List ClientRef
  mu : RWMutex
  deriving DecidableEq

/-- Go `NewHub`. -/
def NewHub : Hub :=
  { clients := ∅, Unregister := [], mu := { writer := false, readers := 0 } }

/-- The hub, the client objects in memory, and the state of each client's `Send`
channel. -/
structure World where
  hub : Hub
  client : ClientRef → Client
  Send : ClientRef → Chan

/-- How a call ends: it returns; or it waits for ever on a mutex that will not be
released; or it panics. -/
inductive Exit where
  | returned : Exit
  | blocked : Exit
  | panicked (msg : String) : Exit
  deriving DecidableEq

/-- The clients registered under a session id, in the order a `range` over the
inner map would visit them; empty when the session has no entry. -/
def World.members (w : World) (gameID : String) : List ClientRef :=
  match w.hub.clients.lookup gameID with
  | some clients => clients.keys
  | none => []

/-- The world with the hub mutex replaced. -/
def World.withMu (w : World) (mu : RWMutex) : World :=
  { w with hub := { w.hub with mu := mu } }

/-- The world with one `Send` channel replaced. -/
def World.withSend (w : World) (c : ClientRef) (ch : Chan) : World :=
  { w with Send := Function.update w.Send c ch }

/-- Go `delete(clients, client)` on the inner map registered under `gameID`. -/
def World.deleteClient (w : World) (gameID : String) (c : ClientRef) : World :=
  match w.hub.clients.lookup gameID with
  | some clients =>
    { w with hub := { w.hub with clients := w.hub.clients.insert gameID (clients.erase c) } }
  | none => w

/-! ## websocket/clients.go and websocket/hub.go: the operations -/

/-- Go `Client.SendMessage`: a `select` that sends on `c.Send` when the buffer has
room, and otherwise closes `c.Send` and sends `c` on the hub's `Unregister`
channel, where it waits to be received. A send on a closed channel panics. The
client's own mutex is taken and released within the call. -/
def Client.SendMessage (w : World) (c : ClientRef) (message : Bytes) : World × Exit :=
  if (w.Send c).closed = true then
    (w, Exit.panicked "send on closed channel")
  else if (w.Send c).buf.length < sendCapacity then
    (w.withSend c { w.Send c with buf := (w.Send c).buf ++ [message] }, Exit.returned)
  else
    ({ w.withSend c { w.Send c with closed := true } with
        hub := { w.hub with Unregister := w.hub.Unregister ++ [c] } }, Exit.returned)

/-- The loop of `Hub.broadcastToGame` over the clients of the session, in the
order given: each gets `jsonData` when its buffer has room, and is otherwise
closed and deleted from the session. A send on a closed channel panics. -/
def Hub.broadcastLoop (gameID : String) (jsonData : Bytes) :
    List ClientRef → World → World × Exit
  | [], w => (w, Exit.returned)
  | c :: rest, w =>
    if (w.Send c).closed = true then
      (w, Exit.panicked "send on closed channel")
    else if (w.Send c).buf.length < sendCapacity then
      Hub.broadcastLoop gameID jsonData rest
        (w.withSend c { w.Send c with buf := (w.Send c).buf ++ [jsonData] })
    else
      Hub.broadcastLoop gameID jsonData rest
        ((w.withSend c { w.Send c with closed := true }).deleteClient gameID c)

/-- Go `Hub.broadcastToGame`: takes the read lock, releases it on the way out
(also when the loop panics). -/
def Hub.broadcastToGame (j : Codec) (w : World) (gameID : String) (message : Payload) :
    World × Exit :=
  match w.hub.mu.RLock with
  | none => (w, Exit.blocked)
  | some mu =>
    match w.hub.clients.lookup gameID with
    | none => ((w.withMu mu).withMu mu.RUnlock, Exit.returned)
    | some clients =>
      match j.Marshal message with
      | none => ((w.withMu mu).withMu mu.RUnlock, Exit.returned)
      | some jsonData =>
        let r := Hub.broadcastLoop gameID jsonData clients.keys (w.withMu mu)
        (r.1.withMu r.1.hub.mu.RUnlock, r.2)

/-- Go `Hub.broadcastMessage`. -/
def Hub.broadcastMessage (j : Codec) (w : World) (message : Message) : World × Exit :=
  Hub.broadcastToGame j w message.GameID (Payload.message message)

/-- Go `Hub.registerClient`: takes the write lock, puts the client under its
game id, and calls `broadcastToGame` while still holding the write lock. -/
def Hub.registerClient (j : Codec) (now : Nat) (w : World) (client : ClientRef) :
    World × Exit :=
  match w.hub.mu.Lock with
  | none => (w, Exit.blocked)
  | some mu =>
    let gameID := (w.client client).GetGameID
    let inner : ClientSet :=
      match w.hub.clients.lookup gameID with
      | some clients => clients
      | none => ∅
    let w1 : World :=
      { w with
          hub := { w.hub with
            clients := w.hub.clients.insert gameID (inner.insert client true)
            mu := mu } }
    let joinMsg := NewJoinMessage now (w.client client).GetUsername gameID
      (w1.members gameID).length
    match Hub.broadcastToGame j w1 gameID (Payload.join joinMsg) with
    | (w2, Exit.blocked) => (w2, Exit.blocked)
    | (w2, e) => (w2.withMu w2.hub.mu.Unlock, e)

/-- Go `Hub.unregisterClient`: takes the write lock; for a registered client it
deletes the client, closes its channel (a panic when it is closed already), and
calls `broadcastToGame` while still holding the write lock. -/
def Hub.unregisterClient (j : Codec) (now : Nat) (w : World) (client : ClientRef) :
    World × Exit :=
  match w.hub.mu.Lock with
  | none => (w, Exit.blocked)
  | some mu =>
    let gameID := (w.client client).GetGameID
    match w.hub.clients.lookup gameID with
    | none => ((w.withMu mu).withMu mu.Unlock, Exit.returned)
    | some clients =>
      if client ∈ clients.keys then
        let w1 : World := (w.withMu mu).deleteClient gameID client
        if (w1.Send client).closed = true then
          (w1.withMu w1.hub.mu.Unlock, Exit.panicked "close of closed channel")
        else
          let w2 := w1.withSend client { w1.Send client with closed := true }
          let leaveMsg := NewLeaveMessage now (w.client client).GetUsername gameID
            (w2.members gameID).length
          match Hub.broadcastToGame j w2 gameID (Payload.leave leaveMsg) with
          | (w3, Exit.blocked) => (w3, Exit.blocked)
          | (w3, Exit.returned) =>
            let w4 : World :=
              if (w3.members gameID).length = 0 then
                { w3 with hub := { w3.hub with clients := w3.hub.clients.erase gameID } }
              else w3
            (w4.withMu w4.hub.mu.Unlock, Exit.returned)
          | (w3, e) => (w3.withMu w3.hub.mu.Unlock, e)
      else
        ((w.withMu mu).withMu mu.Unlock, Exit.returned)

/-- The reply to the sender alone, as `HandleMessage` and `handleChatMessage`
write it: `NewErrorMessage`, then `errorMsg.ToJSON()`, then `SendMessage` when
the encoding succeeded. -/
def Hub.replyError (j : Codec) (now : Nat) (w : World) (client : ClientRef)
    (errorCode content : String) : World × Exit :=
  let errorMsg := NewErrorMessage now errorCode content (w.client client).GetGameID
  match errorMsg.toMessage.ToJSON j with
  | some jsonData => Client.SendMessage w client jsonData
  | none => (w, Exit.returned)

/-- Go `Hub.handleChatMessage`; `len(msg.Content)` is the length in bytes. -/
def Hub.handleChatMessage (j : Codec) (now : Nat) (w : World) (client : ClientRef)
    (msg : Message) : World × Exit :=
  if msg.Content.utf8ByteSize > 200 then
    Hub.replyError j now w client "MESSAGE_TOO_LONG" "Message too long"
  else
    let chatMsg := NewChatMessage now msg.Content (w.client client).GetUsername
      (w.client client).GetGameID false
    Hub.broadcastToGame j w (w.client client).GetGameID (Payload.chat chatMsg)

/-- Go `Hub.handleGameMoveMessage`. -/
def Hub.handleGameMoveMessage (j : Codec) (now : Nat) (w : World) (client : ClientRef)
    (_msg : Message) : World × Exit :=
  let gameMoveMsg := NewGameMoveMessage now 0 "X" (w.client client).GetUsername
    (w.client client).GetGameID
  Hub.broadcastToGame j w (w.client client).GetGameID (Payload.gameMove gameMoveMsg)

/-- Go `Hub.handleJoinMessage`: reads the count under the read lock, releases
it, then broadcasts. -/
def Hub.handleJoinMessage (j : Codec) (now : Nat) (w : World) (client : ClientRef)
    (_msg : Message) : World × Exit :=
  match w.hub.mu.RLock with
  | none => (w, Exit.blocked)
  | some mu =>
    let playerCount := ((w.withMu mu).members (w.client client).GetGameID).length
    let w1 := (w.withMu mu).withMu mu.RUnlock
    let joinMsg := NewJoinMessage now (w.client client).GetUsername
      (w.client client).GetGameID playerCount
    Hub.broadcastToGame j w1 (w.client client).GetGameID (Payload.join joinMsg)

/-- Go `Hub.handleLeaveMessage`. -/
def Hub.handleLeaveMessage (j : Codec) (now : Nat) (w : World) (client : ClientRef)
    (_msg : Message) : World × Exit :=
  match w.hub.mu.RLock with
  | none => (w, Exit.blocked)
  | some mu =>
    let playerCount := ((w.withMu mu).members (w.client client).GetGameID).length
    let w1 := (w.withMu mu).withMu mu.RUnlock
    let leaveMsg := NewLeaveMessage now (w.client client).GetUsername
      (w.client client).GetGameID playerCount
    Hub.broadcastToGame j w1 (w.client client).GetGameID (Payload.leave leaveMsg)

/-- Go `Hub.HandleMessage`; `now` is the clock reading. -/
def Hub.HandleMessage (j : Codec) (now : Nat) (w : World) (client : ClientRef)
    (message : Bytes) : World × Exit :=
  match j.Unmarshal message with
  | none => Hub.replyError j now w client "INVALID_JSON" "Invalid message format"
  | some decoded =>
    let msg : Message :=
      { decoded with
          Username := (w.client client).GetUsername
          GameID := (w.client client).GetGameID
          Timestamp := now }
    if msg.MsgType = MessageTypeChat then
      Hub.handleChatMessage j now w client msg
    else if msg.MsgType = MessageTypeGameMove then
      Hub.handleGameMoveMessage j now w client msg
    else if msg.MsgType = MessageTypeJoin then
      Hub.handleJoinMessage j now w client msg
    else if msg.MsgType = MessageTypeLeave then
      Hub.handleLeaveMessage j now w client msg
    else
      Hub.replyError j now w client "UNKNOWN_TYPE" "Unknown message type"

/-- Go `Hub.GetClientCount`; `none` when the call waits on the mutex. -/
def Hub.GetClientCount (w : World) (gameID : String) : Option Int :=
  match w.hub.mu.RLock with
  | none => none
  | some _ =>
    match w.hub.clients.lookup gameID with
    | some clients => some clients.keys.length
    | none => some 0

/-- Go `Hub.GetActiveGames`; `none` when the call waits on the mutex. -/
def Hub.GetActiveGames (w : World) : Option (List String) :=
  match w.hub.mu.RLock with
  | none => none
  | some _ => some w.hub.clients.keys

/-! ## Sample data for the hub -/

/-- Three clients in memory: ann at address 0 and ben at address 1, both of
session "g1", and cat at every other address, of session "g2". -/
def sampleClients : ClientRef → Client := fun c =>
  if c = 0 then { ID := "c0", Username := "ann", GameID := "g1" }
  else if c = 1 then { ID := "c1", Username := "ben", GameID := "g1" }
  else { ID := "c2", Username := "cat", GameID := "g2" }

/-- A stand-in for `encoding/json`: every value is encoded, as a short text that
names its dynamic type and shows its content and, when it has one, its count,
position or code; bytes decode to a chat message with forged identity fields
whose content is the bytes, except "{" which does not decode. -/
def sampleCodec : Codec where
  Marshal := fun p =>
    match p with
    | Payload.message m => some ("message/" ++ m.MsgType ++ "/" ++ m.Content)
    | Payload.chat m => some ("chat/" ++ m.Content)
    | Payload.gameMove m => some ("game_move/" ++ m.Symbol)
    | Payload.system m => some ("system/" ++ m.Action)
    | Payload.error m => some ("error/" ++ m.ErrorCode)
    | Payload.join m => some ("join/" ++ m.Username ++ "/" ++ toString m.PlayerCount.toNat)
    | Payload.leave m => some ("leave/" ++ m.Username ++ "/" ++ toString m.PlayerCount.toNat)
  Unmarshal := fun b =>
    if b = "\x7b" then none
    else some
      { MsgType := "chat", Content := b, Username := "forged", GameID := "forged",
        Timestamp := 0, Data := none }

/-- An empty open channel. -/
def emptyChan : Chan := { buf := [], closed := false }

/-- The world at start: the hub of `NewHub`, the sample clients, every `Send`
channel empty and open. -/
def sampleStart : World :=
  { hub := NewHub, client := sampleClients, Send := fun _ => emptyChan }

/-- A world in which ann and ben are registered under "g1" and cat under "g2",
nobody holds the mutex, and every `Send` channel is empty and open. -/
def sampleRegistered : World :=
  { hub :=
      { clients :=
          (AList.insert "g2" ((∅ : ClientSet).insert 2 true)
            (AList.insert "g1" (((∅ : ClientSet).insert 0 true).insert 1 true) ∅))
        Unregister := []
        mu := { writer := false, readers := 0 } }
    client := sampleClients
    Send := fun _ => emptyChan }

/-- A channel holding `sendCapacity` values. -/
def fullChan : Chan := { buf := List.replicate sendCapacity "x", closed := false }

/-- Every client is registered under its own game id, as `registerClient` puts
it. -/
def World.RegisteredByGameID (w : World) : Prop :=
  ∀ s c, c ∈ w.members s → (w.client c).GameID = s

/-- The sample memory with one more player object, at address 3: it carries
alice's id and the symbol "O". -/
def forgedHeap : Heap :=
  Function.update sampleHeap 3 { sampleHeap 0 with Symbol := "O" }

/-! ## Counting cells and results -/

/-- The number of cells of the board that hold `s`. -/
def Board.count (b : Board) (s : String) : Nat :=
  (idx3.map (fun i => (idx3.map (fun j => if b.cells i j = s then 1 else 0)).sum)).sum

/-- The results of a sequence of calls on a game, in order. -/
def Game.outcomes (h : Heap) (g : Game) : List Call → List Outcome
  | [] => []
  | c :: rest => (g.step h c).2 :: Game.outcomes h (g.step h c).1 rest

/-- The number of calls that succeeded among the results. -/
def successes (results : List Outcome) : Nat :=
  results.count Outcome.ok

/-- The game of players `a` (Player1) and `b` (Player2) as their alternate moves
keep it: while Active, it is `a`'s turn with as many "X" as "O" on the board, or
`b`'s turn with one more "X"; once Finished, "X" equals "O" or leads by one. -/
def Game.Alternating (a b : PlayerRef) (g : Game) : Prop :=
  g.Player1 = some a ∧ g.Player2 = some b ∧
    ((g.Status = GameStatusActive ∧
        ((g.CurrentTurn = some a ∧ g.Board.count "X" = g.Board.count "O") ∨
          (g.CurrentTurn = some b ∧ g.Board.count "X" = g.Board.count "O" + 1))) ∨
      (g.Status = GameStatusFinished ∧
        (g.Board.count "X" = g.Board.count "O" ∨
          g.Board.count "X" = g.Board.count "O" + 1)))

/-- A second stand-in for `encoding/json`, encoding as `sampleCodec` does. It
decodes six inputs: "move/ann" and "move/eve" to game_move messages, "chat/ann"
and "chat/eve" to chat messages, the two of a pair with the same content and
different username, game id and timestamp; "join/eve" to a join message; and
"sys/eve" to a message of type system. Nothing else decodes. -/
def forgingCodec : Codec where
  Marshal := sampleCodec.Marshal
  Unmarshal := fun b =>
    if b = "move/ann" then
      some { MsgType := MessageTypeGameMove, Content := "b2", Username := "ann", GameID := "g1",
             Timestamp := 1, Data := none }
    else if b = "move/eve" then
      some { MsgType := MessageTypeGameMove, Content := "b2", Username := "eve", GameID := "g9",
             Timestamp := 99, Data := none }
    else if b = "chat/ann" then
      some { MsgType := MessageTypeChat, Content := "hi", Username := "ann", GameID := "g1",
             Timestamp := 1, Data := none }
    else if b = "chat/eve" then
      some { MsgType := MessageTypeChat, Content := "hi", Username := "eve", GameID := "g9",
             Timestamp := 99, Data := none }
    else if b = "join/eve" then
      some { MsgType := MessageTypeJoin, Content := "", Username := "eve", GameID := "g9",
             Timestamp := 99, Data := none }
    else if b = "sys/eve" then
      some { MsgType := MessageTypeSystem, Content := "hi", Username := "eve", GameID := "g9",
             Timestamp := 99, Data := none }
    else none

/-- One step on the hub: the three events of the control loop (`registerClient`,
`unregisterClient`, `broadcastMessage`), the dispatch of an input of a client
(`HandleMessage`), or a `Client.SendMessage` call; with the clock reading the
step would take. -/
inductive HubStep where
  | register (client : ClientRef) (now : Nat) : HubStep
  | unregister (client : ClientRef) (now : Nat) : HubStep
  | broadcast (message : Message) : HubStep
  | dispatch (client : ClientRef) (message : Bytes) (now : Nat) : HubStep
  | send (client : ClientRef) (message : Bytes) : HubStep

/-- The world after one step and how the step ends. -/
def World.step (j : Codec) (w : World) : HubStep → World × Exit
  | HubStep.register client now => Hub.registerClient j now w client
  | HubStep.unregister client now => Hub.unregisterClient j now w client
  | HubStep.broadcast message => Hub.broadcastMessage j w message
  | HubStep.dispatch client message now => Hub.HandleMessage j now w client message
  | HubStep.send client message => Client.SendMessage w client message

/-- The world after a sequence of steps, however each of them ends. -/
def World.run (j : Codec) (w : World) (steps : List HubStep) : World :=
  steps.foldl (fun acc s => (acc.step j s).1) w

/-- How the steps of a sequence end, in order. -/
def World.exits (j : Codec) (w : World) : List HubStep → List Exit
  | [] => []
  | s :: rest => (w.step j s).2 :: World.exits j (w.step j s).1 rest

/-- Every session id in the mapping has at least one client. -/
def World.Populated (w : World) : Prop :=
  ∀ s ∈ w.hub.clients.keys, w.members s ≠ []

/-- Either nobody holds the mutex and the mapping is empty, or the write lock is
held and every session id in the mapping has at least one client. -/
def World.Held (w : World) : Prop :=
  (w.hub.mu.writer = false ∧ w.hub.mu.readers = 0 ∧ w.hub.clients = ∅) ∨
    (w.hub.mu.writer = true ∧ w.Populated)

/-! ## Properties of `Board.MakeMove` -/

theorem rowOf_val (p : Int) (h : ¬ (p < 0 ∨ p > 8)) : (((rowOf p h).val : Nat) : Int) = Int.tdiv p 3 := by
  have h0 : 0 ≤ p := by omega
  simp only [rowOf]
  rw [Int.tdiv_eq_ediv h0 (by decide)]
  omega

theorem colOf_val (p : Int) (h : ¬ (p < 0 ∨ p > 8)) : (((colOf p h).val : Nat) : Int) = Int.tmod p 3 := by
  have h0 : 0 ≤ p := by omega
  simp only [colOf]
  rw [Int.tmod_eq_emod h0 (by decide)]
  omega

theorem Board.GetCell_coe (b : Board) (i j : Fin 3) :
    b.GetCell ((i.val : Nat) : Int) ((j.val : Nat) : Int) = b.cells i j := by
  have hi := i.isLt
  have hj := j.isLt
  unfold Board.GetCell
  rw [dif_neg (by omega)]
  congr

theorem Board.GetCell_target (b : Board) (p : Int) (h : ¬ (p < 0 ∨ p > 8)) :
    b.GetCell (Int.tdiv p 3) (Int.tmod p 3) = b.cells (rowOf p h) (colOf p h) := by
  rw [← rowOf_val p h, ← colOf_val p h, Board.GetCell_coe]

theorem Board.MakeMove_out_of_range (b : Board) (p : Int) (s : String) (h : p < 0 ∨ p > 8) :
    b.MakeMove p s = (b, Outcome.error "invalid position") := by
  unfold Board.MakeMove
  rw [dif_pos h]

theorem Board.MakeMove_bad_symbol (b : Board) (p : Int) (s : String) (h : ¬ (p < 0 ∨ p > 8))
    (hs : s ≠ "X" ∧ s ≠ "O") :
    b.MakeMove p s = (b, Outcome.error "invalid symbol") := by
  unfold Board.MakeMove
  rw [dif_neg h, if_pos hs]

theorem Board.MakeMove_occupied (b : Board) (p : Int) (s : String) (h : ¬ (p < 0 ∨ p > 8))
    (hs : ¬ (s ≠ "X" ∧ s ≠ "O")) (hc : b.cells (rowOf p h) (colOf p h) ≠ "") :
    b.MakeMove p s = (b, Outcome.error "position already occupied") := by
  unfold Board.MakeMove
  rw [dif_neg h, if_neg hs]
  simp only []
  rw [if_pos hc]

theorem Board.MakeMove_free (b : Board) (p : Int) (s : String) (h : ¬ (p < 0 ∨ p > 8))
    (hs : ¬ (s ≠ "X" ∧ s ≠ "O")) (hc : b.cells (rowOf p h) (colOf p h) = "") :
    b.MakeMove p s =
      ({ cells := fun i j => if i = rowOf p h ∧ j = colOf p h then s else b.cells i j },
        Outcome.ok) := by
  unfold Board.MakeMove
  rw [dif_neg h, if_neg hs]
  simp only []
  rw [if_neg (by simpa using hc)]

theorem Board.MakeMove_fst_of_not_ok (b : Board) (p : Int) (s : String)
    (hfail : (b.MakeMove p s).2 ≠ Outcome.ok) : (b.MakeMove p s).1 = b := by
  by_cases h : p < 0 ∨ p > 8
  · rw [Board.MakeMove_out_of_range b p s h]
  · by_cases hs : s ≠ "X" ∧ s ≠ "O"
    · rw [Board.MakeMove_bad_symbol b p s h hs]
    · by_cases hc : b.cells (rowOf p h) (colOf p h) = ""
      · rw [Board.MakeMove_free b p s h hs hc] at hfail
        exact absurd rfl hfail
      · rw [Board.MakeMove_occupied b p s h hs hc]

/-! ## Properties of `Board.HasWinner` and `Board.IsFull` -/

theorem winLines_exists (b : Board) :
    (∃ l ∈ winLines, b.lineWon l) ↔
      (b.cells 0 0 ≠ "" ∧ b.cells 0 0 = b.cells 0 1 ∧ b.cells 0 1 = b.cells 0 2) ∨
      (b.cells 1 0 ≠ "" ∧ b.cells 1 0 = b.cells 1 1 ∧ b.cells 1 1 = b.cells 1 2) ∨
      (b.cells 2 0 ≠ "" ∧ b.cells 2 0 = b.cells 2 1 ∧ b.cells 2 1 = b.cells 2 2) ∨
      (b.cells 0 0 ≠ "" ∧ b.cells 0 0 = b.cells 1 0 ∧ b.cells 1 0 = b.cells 2 0) ∨
      (b.cells 0 1 ≠ "" ∧ b.cells 0 1 = b.cells 1 1 ∧ b.cells 1 1 = b.cells 2 1) ∨
      (b.cells 0 2 ≠ "" ∧ b.cells 0 2 = b.cells 1 2 ∧ b.cells 1 2 = b.cells 2 2) ∨
      (b.cells 0 0 ≠ "" ∧ b.cells 0 0 = b.cells 1 1 ∧ b.cells 1 1 = b.cells 2 2) ∨
      (b.cells 0 2 ≠ "" ∧ b.cells 0 2 = b.cells 1 1 ∧ b.cells 1 1 = b.cells 2 0) := by
  simp only [winLines, List.mem_cons, List.mem_singleton, exists_eq_or_imp, exists_eq_left,
    Board.lineWon, List.not_mem_nil, false_and, exists_false, or_false]

theorem Board.HasWinner_eq_true (b : Board) :
    b.HasWinner = true ↔
      (b.cells 0 0 ≠ "" ∧ b.cells 0 0 = b.cells 0 1 ∧ b.cells 0 1 = b.cells 0 2) ∨
      (b.cells 1 0 ≠ "" ∧ b.cells 1 0 = b.cells 1 1 ∧ b.cells 1 1 = b.cells 1 2) ∨
      (b.cells 2 0 ≠ "" ∧ b.cells 2 0 = b.cells 2 1 ∧ b.cells 2 1 = b.cells 2 2) ∨
      (b.cells 0 0 ≠ "" ∧ b.cells 0 0 = b.cells 1 0 ∧ b.cells 1 0 = b.cells 2 0) ∨
      (b.cells 0 1 ≠ "" ∧ b.cells 0 1 = b.cells 1 1 ∧ b.cells 1 1 = b.cells 2 1) ∨
      (b.cells 0 2 ≠ "" ∧ b.cells 0 2 = b.cells 1 2 ∧ b.cells 1 2 = b.cells 2 2) ∨
      (b.cells 0 0 ≠ "" ∧ b.cells 0 0 = b.cells 1 1 ∧ b.cells 1 1 = b.cells 2 2) ∨
      (b.cells 0 2 ≠ "" ∧ b.cells 0 2 = b.cells 1 1 ∧ b.cells 1 1 = b.cells 2 0) := by
  unfold Board.HasWinner
  simp only [idx3, List.any_cons, List.any_nil, Bool.or_false]
  generalize b.cells 0 0 = a00
  generalize b.cells 0 1 = a01
  generalize b.cells 0 2 = a02
  generalize b.cells 1 0 = a10
  generalize b.cells 1 1 = a11
  generalize b.cells 1 2 = a12
  generalize b.cells 2 0 = a20
  generalize b.cells 2 1 = a21
  generalize b.cells 2 2 = a22
  simp only [Bool.if_true_left, Bool.if_false_right, Bool.and_true, Bool.or_eq_true,
    Bool.and_eq_true, bne_iff_ne, beq_iff_eq, ne_eq, Bool.decide_eq_true, and_assoc, or_assoc,
    decide_eq_true_eq]

theorem Board.HasWinner_iff (b : Board) :
    b.HasWinner = true ↔ ∃ l ∈ winLines, b.lineWon l := by
  rw [winLines_exists, Board.HasWinner_eq_true]

/-! ## The claims -/

/-- C1: `Board.MakeMove(p, s)` is decided in this order. It returns the
invalid-position error iff `p < 0` or `p > 8`; otherwise it returns the
invalid-symbol error iff `s` is neither "X" nor "O"; otherwise it returns the
cell-occupied error iff cell `(p / 3, p % 3)` is non-empty; otherwise it
succeeds, and then cell `(p / 3, p % 3)` holds `s` and every other cell holds
what it held before. -/
theorem C1_Board_MakeMove_decided_in_order (b : Board) (p : Int) (s : String) :
    ((b.MakeMove p s).2 = Outcome.error "invalid position" ↔ (p < 0 ∨ p > 8)) ∧
    (¬ (p < 0 ∨ p > 8) →
      ((b.MakeMove p s).2 = Outcome.error "invalid symbol" ↔ (s ≠ "X" ∧ s ≠ "O")) ∧
      (¬ (s ≠ "X" ∧ s ≠ "O") →
        ((b.MakeMove p s).2 = Outcome.error "position already occupied" ↔
          b.GetCell (Int.tdiv p 3) (Int.tmod p 3) ≠ "") ∧
        (b.GetCell (Int.tdiv p 3) (Int.tmod p 3) = "" →
          (b.MakeMove p s).2 = Outcome.ok ∧
          ∀ i j : Fin 3, (b.MakeMove p s).1.cells i j =
            if ((i.val : Nat) : Int) = Int.tdiv p 3 ∧ ((j.val : Nat) : Int) = Int.tmod p 3
            then s else b.cells i j))) := by
  refine ⟨?_, fun h => ⟨?_, fun hs => ⟨?_, fun hc => ?_⟩⟩⟩
  · constructor
    · intro he
      by_contra h
      by_cases hs : s ≠ "X" ∧ s ≠ "O"
      · rw [Board.MakeMove_bad_symbol b p s h hs] at he
        exact absurd he (by simp)
      · by_cases hc : b.cells (rowOf p h) (colOf p h) = ""
        · rw [Board.MakeMove_free b p s h hs hc] at he
          exact absurd he (by simp)
        · rw [Board.MakeMove_occupied b p s h hs hc] at he
          exact absurd he (by simp)
    · intro h
      rw [Board.MakeMove_out_of_range b p s h]
  · constructor
    · intro he
      by_contra hs
      by_cases hc : b.cells (rowOf p h) (colOf p h) = ""
      · rw [Board.MakeMove_free b p s h hs hc] at he
        exact absurd he (by simp)
      · rw [Board.MakeMove_occupied b p s h hs hc] at he
        exact absurd he (by simp)
    · intro hs
      rw [Board.MakeMove_bad_symbol b p s h hs]
  · rw [Board.GetCell_target b p h]
    constructor
    · intro he hc
      rw [Board.MakeMove_free b p s h hs hc] at he
      exact absurd he (by simp)
    · intro hc
      rw [Board.MakeMove_occupied b p s h hs hc]
  · rw [Board.GetCell_target b p h] at hc
    rw [Board.MakeMove_free b p s h hs hc]
    refine ⟨rfl, fun i j => ?_⟩
    have hi : (((i.val : Nat) : Int) = Int.tdiv p 3) ↔ i = rowOf p h := by
      rw [← rowOf_val p h, Fin.ext_iff]; omega
    have hj : (((j.val : Nat) : Int) = Int.tmod p 3) ↔ j = colOf p h := by
      rw [← colOf_val p h, Fin.ext_iff]; omega
    simp only [hi, hj]

/-- Witness for C1: on the empty board the move (4, "X") passes the three
checks, succeeds and writes "X" in the centre cell, leaving cell (0, 0) empty. -/
theorem C1_Board_MakeMove_decided_in_order_witness :
    ¬ ((4 : Int) < 0 ∨ (4 : Int) > 8) ∧ ¬ ("X" ≠ "X" ∧ "X" ≠ "O") ∧
    NewBoard.GetCell (Int.tdiv 4 3) (Int.tmod 4 3) = "" ∧
    (NewBoard.MakeMove 4 "X").2 = Outcome.ok ∧
    (NewBoard.MakeMove 4 "X").1.cells 1 1 = "X" ∧
    (NewBoard.MakeMove 4 "X").1.cells 0 0 = "" :=
  ⟨by decide, by decide, by decide,
    ((((C1_Board_MakeMove_decided_in_order NewBoard 4 "X").2 (by decide)).2 (by decide)).2
      (by decide)).1,
    (((((C1_Board_MakeMove_decided_in_order NewBoard 4 "X").2 (by decide)).2 (by decide)).2
      (by decide)).2 1 1).trans (by decide),
    (((((C1_Board_MakeMove_decided_in_order NewBoard 4 "X").2 (by decide)).2 (by decide)).2
      (by decide)).2 0 0).trans (by decide)⟩

/-- C2: on every board reached from the empty board by `Board.MakeMove` calls,
a move with a position in 0..8 whose cell is occupied and a symbol in {X, O}
returns the cell-occupied error and leaves the whole board as it was; and every
`Board.MakeMove` call that does not succeed leaves the board unchanged. -/
theorem C2_Board_MakeMove_occupied_rejected (calls : List (Int × String)) (p : Int)
    (s : String) (hp : 0 ≤ p ∧ p ≤ 8) (hs : s = "X" ∨ s = "O")
    (hocc : (NewBoard.run calls).GetCell (Int.tdiv p 3) (Int.tmod p 3) ≠ "") :
    (NewBoard.run calls).MakeMove p s =
      (NewBoard.run calls, Outcome.error "position already occupied") ∧
    ∀ (b : Board) (q : Int) (t : String),
      (b.MakeMove q t).2 ≠ Outcome.ok → (b.MakeMove q t).1 = b := by
  have h : ¬ (p < 0 ∨ p > 8) := by omega
  have hs2 : ¬ (s ≠ "X" ∧ s ≠ "O") := by
    rcases hs with hs | hs <;> simp [hs]
  rw [Board.GetCell_target _ p h] at hocc
  exact ⟨Board.MakeMove_occupied _ p s h hs2 hocc, Board.MakeMove_fst_of_not_ok⟩

/-- Witness for C2: after X has played the centre, O playing the centre is
rejected and the board is unchanged. -/
theorem C2_Board_MakeMove_occupied_rejected_witness :
    (NewBoard.run [(4, "X")]).MakeMove 4 "O" =
      (NewBoard.run [(4, "X")], Outcome.error "position already occupied") :=
  (C2_Board_MakeMove_occupied_rejected [(4, "X")] 4 "O" (by decide) (by decide)
    (by decide)).1

/-- C3: `Board.HasWinner` returns true iff at least one of the eight lines
(three rows, three columns, main diagonal, anti-diagonal) has three cells that
are equal to each other and non-empty. -/
theorem C3_Board_HasWinner_iff_line (b : Board) :
    b.HasWinner = true ↔ ∃ l ∈ winLines, b.lineWon l :=
  Board.HasWinner_iff b

/-! ## Branches of `Game.JoinGame` and `Game.MakeMove` -/

theorem Game.JoinGame_not_waiting (h : Heap) (now : Nat) (g : Game) (player2 : Option PlayerRef)
    (hs : g.Status ≠ GameStatusWaiting) :
    g.JoinGame h now player2 = (g, Outcome.error "game is not in waiting status") := by
  unfold Game.JoinGame
  rw [if_pos hs]

theorem Game.JoinGame_nil (h : Heap) (now : Nat) (g : Game) (player2 : Option PlayerRef)
    (hs : g.Status = GameStatusWaiting) (hn : g.Player1 = none ∨ player2 = none) :
    g.JoinGame h now player2 = (g, Outcome.nilDeref) := by
  unfold Game.JoinGame
  rw [if_neg (by simp [hs])]
  rcases hn with hn | hn
  · rw [hn]
  · rw [hn]; cases g.Player1 <;> rfl

theorem Game.JoinGame_self (h : Heap) (now : Nat) (g : Game) (a b : PlayerRef)
    (hs : g.Status = GameStatusWaiting) (h1 : g.Player1 = some a)
    (hid : (h a).ID = (h b).ID) :
    g.JoinGame h now (some b) = (g, Outcome.error "player cannot join their own game") := by
  unfold Game.JoinGame
  rw [if_neg (by simp [hs]), h1]
  simp only []
  rw [if_pos hid]

theorem Game.JoinGame_ok (h : Heap) (now : Nat) (g : Game) (a b : PlayerRef)
    (hs : g.Status = GameStatusWaiting) (h1 : g.Player1 = some a)
    (hid : (h a).ID ≠ (h b).ID) :
    g.JoinGame h now (some b) =
      ({ g with
          Player2 := some b
          Status := GameStatusActive
          CurrentTurn := g.Player1
          StartedAt := some now }, Outcome.ok) := by
  unfold Game.JoinGame
  rw [if_neg (by simp [hs]), h1]
  simp only []
  rw [if_neg hid]

theorem Game.MakeMove_not_active (h : Heap) (now : Nat) (g : Game) (player : Option PlayerRef)
    (position : Int) (hs : g.Status ≠ GameStatusActive) :
    g.MakeMove h now player position = (g, Outcome.error "game is not active") := by
  unfold Game.MakeMove
  rw [if_pos hs]

theorem Game.MakeMove_nil (h : Heap) (now : Nat) (g : Game) (player : Option PlayerRef)
    (position : Int) (hs : g.Status = GameStatusActive)
    (hn : g.CurrentTurn = none ∨ player = none) :
    g.MakeMove h now player position = (g, Outcome.nilDeref) := by
  unfold Game.MakeMove
  rw [if_neg (by simp [hs])]
  rcases hn with hn | hn
  · rw [hn]
  · rw [hn]; cases g.CurrentTurn <;> rfl

theorem Game.MakeMove_wrong_turn (h : Heap) (now : Nat) (g : Game) (c p : PlayerRef)
    (position : Int) (hs : g.Status = GameStatusActive) (hc : g.CurrentTurn = some c)
    (hid : (h c).ID ≠ (h p).ID) :
    g.MakeMove h now (some p) position = (g, Outcome.error "not your turn") := by
  unfold Game.MakeMove
  rw [if_neg (by simp [hs]), hc]
  simp only []
  rw [if_pos hid]

theorem Game.MakeMove_outsider (h : Heap) (now : Nat) (g : Game) (c p : PlayerRef)
    (position : Int) (hs : g.Status = GameStatusActive) (hc : g.CurrentTurn = some c)
    (hid : (h c).ID = (h p).ID) (hin : g.isPlayerInGame h p = false) :
    g.MakeMove h now (some p) position = (g, Outcome.error "player is not in this game") := by
  unfold Game.MakeMove
  rw [if_neg (by simp [hs]), hc]
  simp only []
  rw [if_neg (by simp [hid]), if_pos (by simp [hin])]

theorem Game.MakeMove_played (h : Heap) (now : Nat) (g : Game) (c p : PlayerRef)
    (position : Int) (hs : g.Status = GameStatusActive) (hc : g.CurrentTurn = some c)
    (hid : (h c).ID = (h p).ID) (hin : g.isPlayerInGame h p = true) :
    g.MakeMove h now (some p) position =
      match g.Board.MakeMove position (h p).Symbol with
      | (b, Outcome.ok) =>
        if b.HasWinner then
          ({ g with
              Board := b
              Status := GameStatusFinished
              Winner := some p
              FinishedAt := some now }, Outcome.ok)
        else if b.IsFull then
          ({ g with
              Board := b
              Status := GameStatusFinished
              FinishedAt := some now }, Outcome.ok)
        else
          match Game.switchTurn h { g with Board := b } with
          | some g2 => (g2, Outcome.ok)
          | none => ({ g with Board := b }, Outcome.nilDeref)
      | (b, e) => ({ g with Board := b }, e) := by
  conv_lhs => unfold Game.MakeMove
  rw [if_neg (by simp [hs]), hc]
  simp only []
  rw [if_neg (by simp [hid]), if_neg (by simp [hin])]

theorem Game.MakeMove_board_not_ok (h : Heap) (now : Nat) (g : Game) (c p : PlayerRef)
    (position : Int) (hs : g.Status = GameStatusActive) (hc : g.CurrentTurn = some c)
    (hid : (h c).ID = (h p).ID) (hin : g.isPlayerInGame h p = true)
    (hb : (g.Board.MakeMove position (h p).Symbol).2 ≠ Outcome.ok) :
    g.MakeMove h now (some p) position =
      (g, (g.Board.MakeMove position (h p).Symbol).2) := by
  rw [Game.MakeMove_played h now g c p position hs hc hid hin]
  have hfst := Board.MakeMove_fst_of_not_ok g.Board position (h p).Symbol hb
  rcases hr : g.Board.MakeMove position (h p).Symbol with ⟨b, e⟩
  rw [hr] at hb hfst
  simp only [] at hb hfst
  subst hfst
  cases e with
  | ok => exact absurd rfl hb
  | error msg => rfl
  | nilDeref => rfl

theorem Game.MakeMove_win (h : Heap) (now : Nat) (g : Game) (c p : PlayerRef)
    (position : Int) (b : domain.Board) (hs : g.Status = GameStatusActive)
    (hc : g.CurrentTurn = some c) (hid : (h c).ID = (h p).ID)
    (hin : g.isPlayerInGame h p = true)
    (hb : g.Board.MakeMove position (h p).Symbol = (b, Outcome.ok))
    (hw : b.HasWinner = true) :
    g.MakeMove h now (some p) position =
      ({ g with
          Board := b
          Status := GameStatusFinished
          Winner := some p
          FinishedAt := some now }, Outcome.ok) := by
  rw [Game.MakeMove_played h now g c p position hs hc hid hin, hb]
  simp only []
  rw [if_pos hw]

theorem Game.MakeMove_draw (h : Heap) (now : Nat) (g : Game) (c p : PlayerRef)
    (position : Int) (b : domain.Board) (hs : g.Status = GameStatusActive)
    (hc : g.CurrentTurn = some c) (hid : (h c).ID = (h p).ID)
    (hin : g.isPlayerInGame h p = true)
    (hb : g.Board.MakeMove position (h p).Symbol = (b, Outcome.ok))
    (hw : b.HasWinner = false) (hf : b.IsFull = true) :
    g.MakeMove h now (some p) position =
      ({ g with
          Board := b
          Status := GameStatusFinished
          FinishedAt := some now }, Outcome.ok) := by
  rw [Game.MakeMove_played h now g c p position hs hc hid hin, hb]
  simp only []
  rw [if_neg (by simp [hw]), if_pos hf]

theorem Game.MakeMove_continue (h : Heap) (now : Nat) (g : Game) (c p a : PlayerRef)
    (position : Int) (b : domain.Board) (hs : g.Status = GameStatusActive)
    (hc : g.CurrentTurn = some c) (hid : (h c).ID = (h p).ID)
    (hin : g.isPlayerInGame h p = true)
    (hb : g.Board.MakeMove position (h p).Symbol = (b, Outcome.ok))
    (hw : b.HasWinner = false) (hf : b.IsFull = false) (h1 : g.Player1 = some a) :
    g.MakeMove h now (some p) position =
      ({ g with
          Board := b
          CurrentTurn := if (h c).ID = (h a).ID then g.Player2 else g.Player1 },
        Outcome.ok) := by
  rw [Game.MakeMove_played h now g c p position hs hc hid hin, hb]
  simp only []
  rw [if_neg (by simp [hw]), if_neg (by simp [hf])]
  unfold Game.switchTurn
  simp only [hc, h1]
  by_cases hca : (h c).ID = (h a).ID
  · rw [if_pos hca, if_pos hca]
  · rw [if_neg hca, if_neg hca]

theorem Game.MakeMove_continue_nil (h : Heap) (now : Nat) (g : Game) (c p : PlayerRef)
    (position : Int) (b : domain.Board) (hs : g.Status = GameStatusActive)
    (hc : g.CurrentTurn = some c) (hid : (h c).ID = (h p).ID)
    (hin : g.isPlayerInGame h p = true)
    (hb : g.Board.MakeMove position (h p).Symbol = (b, Outcome.ok))
    (hw : b.HasWinner = false) (hf : b.IsFull = false) (h1 : g.Player1 = none) :
    g.MakeMove h now (some p) position = ({ g with Board := b }, Outcome.nilDeref) := by
  rw [Game.MakeMove_played h now g c p position hs hc hid hin, hb]
  simp only []
  rw [if_neg (by simp [hw]), if_neg (by simp [hf])]
  unfold Game.switchTurn
  simp only [hc, h1]

/-- Every way `Game.MakeMove` can end, with the game it leaves. -/
theorem Game.MakeMove_cases (h : Heap) (now : Nat) (g : Game) (player : Option PlayerRef)
    (position : Int) :
    (g.MakeMove h now player position).1 = g ∧
        (g.MakeMove h now player position).2 ≠ Outcome.ok ∨
      ∃ c p b, g.Status = GameStatusActive ∧ g.CurrentTurn = some c ∧ player = some p ∧
        (h c).ID = (h p).ID ∧ g.isPlayerInGame h p = true ∧
        g.Board.MakeMove position (h p).Symbol = (b, Outcome.ok) ∧
        ((b.HasWinner = true ∧
            g.MakeMove h now player position =
              ({ g with
                  Board := b
                  Status := GameStatusFinished
                  Winner := some p
                  FinishedAt := some now }, Outcome.ok)) ∨
          (b.HasWinner = false ∧ b.IsFull = true ∧
            g.MakeMove h now player position =
              ({ g with
                  Board := b
                  Status := GameStatusFinished
                  FinishedAt := some now }, Outcome.ok)) ∨
          (b.HasWinner = false ∧ b.IsFull = false ∧ ∃ a, g.Player1 = some a ∧
            g.MakeMove h now player position =
              ({ g with
                  Board := b
                  CurrentTurn := if (h c).ID = (h a).ID then g.Player2 else g.Player1 },
                Outcome.ok)) ∨
          (b.HasWinner = false ∧ b.IsFull = false ∧ g.Player1 = none ∧
            g.MakeMove h now player position = ({ g with Board := b }, Outcome.nilDeref))) := by
  by_cases hs : g.Status = GameStatusActive
  swap
  · left; rw [Game.MakeMove_not_active h now g player position hs]; simp
  have hct : g.CurrentTurn = none ∨ ∃ c, g.CurrentTurn = some c := by
    cases g.CurrentTurn <;> simp
  rcases hct with hc | ⟨c, hc⟩
  · left; rw [Game.MakeMove_nil h now g player position hs (Or.inl hc)]; simp
  cases player with
  | none => left; rw [Game.MakeMove_nil h now g none position hs (Or.inr rfl)]; simp
  | some p =>
  by_cases hid : (h c).ID = (h p).ID
  swap
  · left; rw [Game.MakeMove_wrong_turn h now g c p position hs hc hid]; simp
  cases hin : g.isPlayerInGame h p with
  | false => left; rw [Game.MakeMove_outsider h now g c p position hs hc hid hin]; simp
  | true =>
  by_cases hbo : (g.Board.MakeMove position (h p).Symbol).2 = Outcome.ok
  swap
  · left; rw [Game.MakeMove_board_not_ok h now g c p position hs hc hid hin hbo]
    exact ⟨rfl, hbo⟩
  right
  have hb : g.Board.MakeMove position (h p).Symbol =
      ((g.Board.MakeMove position (h p).Symbol).1, Outcome.ok) := by
    rw [← hbo]
  refine ⟨c, p, _, hs, hc, rfl, hid, hin, hb, ?_⟩
  cases hw : (g.Board.MakeMove position (h p).Symbol).1.HasWinner with
  | true => left; exact ⟨rfl, Game.MakeMove_win h now g c p position _ hs hc hid hin hb hw⟩
  | false =>
  right
  cases hf : (g.Board.MakeMove position (h p).Symbol).1.IsFull with
  | true => left; exact ⟨rfl, rfl, Game.MakeMove_draw h now g c p position _ hs hc hid hin hb hw hf⟩
  | false =>
  right
  have hp1 : g.Player1 = none ∨ ∃ a, g.Player1 = some a := by
    cases g.Player1 <;> simp
  rcases hp1 with h1 | ⟨a, h1⟩
  · right
    exact ⟨rfl, rfl, h1,
      Game.MakeMove_continue_nil h now g c p position _ hs hc hid hin hb hw hf h1⟩
  · left
    exact ⟨rfl, rfl, a, h1,
      Game.MakeMove_continue h now g c p a position _ hs hc hid hin hb hw hf h1⟩

/-- C4: for every successful `Game.MakeMove(player, position)` on an Active game,
the new board being the old one after `Board.MakeMove(position, player.Symbol)`:
if the new board has a winning line then Status is Finished, Winner is the moving
player and CurrentTurn is unchanged (whether or not the board is now full);
otherwise if the new board is full then Status is Finished, Winner is left as it
was and CurrentTurn is unchanged; otherwise Status is still Active, Winner is
left as it was, and CurrentTurn becomes Player2 if it was Player1, and Player1
if it was Player2 (the two players having different ids). -/
theorem C4_Game_MakeMove_success_outcome (h : Heap) (now : Nat) (g : Game)
    (player : Option PlayerRef) (position : Int)
    (hact : g.Status = GameStatusActive)
    (hok : (g.MakeMove h now player position).2 = Outcome.ok) :
    (∃ p, player = some p ∧
      (g.MakeMove h now player position).1.Board =
        (g.Board.MakeMove position (h p).Symbol).1) ∧
    ((g.MakeMove h now player position).1.Board.HasWinner = true →
      (g.MakeMove h now player position).1.Status = GameStatusFinished ∧
      (g.MakeMove h now player position).1.Winner = player ∧
      (g.MakeMove h now player position).1.CurrentTurn = g.CurrentTurn) ∧
    ((g.MakeMove h now player position).1.Board.HasWinner = false →
      (g.MakeMove h now player position).1.Board.IsFull = true →
      (g.MakeMove h now player position).1.Status = GameStatusFinished ∧
      (g.MakeMove h now player position).1.Winner = g.Winner ∧
      (g.MakeMove h now player position).1.CurrentTurn = g.CurrentTurn) ∧
    ((g.MakeMove h now player position).1.Board.HasWinner = false →
      (g.MakeMove h now player position).1.Board.IsFull = false →
      (g.MakeMove h now player position).1.Status = GameStatusActive ∧
      (g.MakeMove h now player position).1.Winner = g.Winner ∧
      (g.CurrentTurn = g.Player1 →
        (g.MakeMove h now player position).1.CurrentTurn = g.Player2) ∧
      (g.CurrentTurn = g.Player2 →
        (∀ a b, g.Player1 = some a → g.Player2 = some b → (h a).ID ≠ (h b).ID) →
        (g.MakeMove h now player position).1.CurrentTurn = g.Player1)) := by
  rcases Game.MakeMove_cases h now g player position with ⟨_, hne⟩ |
    ⟨c, p, b, _, hc, hp, _, _, hb, hcase⟩
  · exact absurd hok hne
  have hbf : (g.Board.MakeMove position (h p).Symbol).1 = b := by rw [hb]
  rcases hcase with ⟨hw, hr⟩ | ⟨hw, hf, hr⟩ | ⟨hw, hf, a, h1, hr⟩ | ⟨_, _, _, hr⟩
  · rw [hr]
    refine ⟨⟨p, hp, hbf.symm⟩, fun _ => ⟨rfl, hp.symm, rfl⟩, fun hw2 => ?_, fun hw2 => ?_⟩
    · simp only [hw] at hw2; exact absurd hw2 (by decide)
    · simp only [hw] at hw2; exact absurd hw2 (by decide)
  · rw [hr]
    refine ⟨⟨p, hp, hbf.symm⟩, fun hw2 => ?_, fun _ _ => ⟨rfl, rfl, rfl⟩, fun _ hf2 => ?_⟩
    · simp only [hw] at hw2; exact absurd hw2 (by decide)
    · simp only [hf] at hf2; exact absurd hf2 (by decide)
  · rw [hr]
    refine ⟨⟨p, hp, hbf.symm⟩, fun hw2 => ?_, fun _ hf2 => ?_,
      fun _ _ => ⟨hact, rfl, fun ht => ?_, fun ht hd => ?_⟩⟩
    · simp only [hw] at hw2; exact absurd hw2 (by decide)
    · simp only [hf] at hf2; exact absurd hf2 (by decide)
    · have hca : c = a := by
        rw [hc, h1] at ht
        exact Option.some.inj ht
      simp only [hca, if_true]
    · have hne : (h c).ID ≠ (h a).ID := fun he =>
        hd a c h1 (ht ▸ hc) he.symm
      simp only [if_neg hne]
  · rw [hr] at hok
    exact absurd hok (by simp)

/-- Witness for C4, three successful moves. The ninth move of a game, by alice on
the centre, fills the board and completes the main diagonal: the game is
Finished with alice as Winner, CurrentTurn unchanged. The ninth move of another
game fills the board without a line: Finished, no Winner. The first move of a
game: still Active, CurrentTurn passes from Player1 to Player2. -/
theorem C4_Game_MakeMove_success_outcome_witness :
    (((sampleActive.run sampleHeap (alternate [0, 1, 2, 5, 3, 6, 8, 7])).MakeMove
        sampleHeap 13 (some 0) 4).1.Board.IsFull = true ∧
      ((sampleActive.run sampleHeap (alternate [0, 1, 2, 5, 3, 6, 8, 7])).MakeMove
        sampleHeap 13 (some 0) 4).1.Status = GameStatusFinished ∧
      ((sampleActive.run sampleHeap (alternate [0, 1, 2, 5, 3, 6, 8, 7])).MakeMove
        sampleHeap 13 (some 0) 4).1.Winner = some 0 ∧
      ((sampleActive.run sampleHeap (alternate [0, 1, 2, 5, 3, 6, 8, 7])).MakeMove
        sampleHeap 13 (some 0) 4).1.CurrentTurn = some 0) ∧
    (((sampleActive.run sampleHeap (alternate [0, 1, 2, 4, 3, 5, 7, 6])).MakeMove
        sampleHeap 13 (some 0) 8).1.Status = GameStatusFinished ∧
      ((sampleActive.run sampleHeap (alternate [0, 1, 2, 4, 3, 5, 7, 6])).MakeMove
        sampleHeap 13 (some 0) 8).1.Winner = none ∧
      ((sampleActive.run sampleHeap (alternate [0, 1, 2, 4, 3, 5, 7, 6])).MakeMove
        sampleHeap 13 (some 0) 8).1.CurrentTurn = some 0) ∧
    ((sampleActive.MakeMove sampleHeap 13 (some 0) 4).1.Status = GameStatusActive ∧
      (sampleActive.MakeMove sampleHeap 13 (some 0) 4).1.Winner = none ∧
      (sampleActive.MakeMove sampleHeap 13 (some 0) 4).1.CurrentTurn = some 1) :=
  ⟨⟨by decide,
      (C4_Game_MakeMove_success_outcome sampleHeap 13
        (sampleActive.run sampleHeap (alternate [0, 1, 2, 5, 3, 6, 8, 7])) (some 0) 4
        (by decide) (by decide)).2.1 (by decide)⟩,
    (C4_Game_MakeMove_success_outcome sampleHeap 13
      (sampleActive.run sampleHeap (alternate [0, 1, 2, 4, 3, 5, 7, 6])) (some 0) 8
      (by decide) (by decide)).2.2.1 (by decide) (by decide),
    ⟨(C4_Game_MakeMove_success_outcome sampleHeap 13 sampleActive (some 0) 4
        (by decide) (by decide)).2.2.2 (by decide) (by decide) |>.1,
      (C4_Game_MakeMove_success_outcome sampleHeap 13 sampleActive (some 0) 4
        (by decide) (by decide)).2.2.2 (by decide) (by decide) |>.2.1,
      (C4_Game_MakeMove_success_outcome sampleHeap 13 sampleActive (some 0) 4
        (by decide) (by decide)).2.2.2 (by decide) (by decide) |>.2.2.1 (by decide)⟩⟩

/-- C5: for a game whose Player1 is `a` and a player `b`, `Game.JoinGame(b)`
returns the not-waiting error iff Status is not Waiting; otherwise it returns
the self-join error iff `b.ID` equals `Player1.ID`; otherwise it succeeds with
Player2 = `b`, Status = Active and CurrentTurn = Player1, the board and Player1
unchanged. A call that does not succeed leaves the whole game unchanged, and
after a successful join every further join returns the not-waiting error and
leaves the game (Player2 = `b`, Status = Active) as it was. -/
theorem C5_Game_JoinGame_contract (h : Heap) (now : Nat) (g : Game) (a b : PlayerRef)
    (h1 : g.Player1 = some a) :
    ((g.JoinGame h now (some b)).2 = Outcome.error "game is not in waiting status" ↔
      g.Status ≠ GameStatusWaiting) ∧
    (g.Status = GameStatusWaiting →
      ((g.JoinGame h now (some b)).2 = Outcome.error "player cannot join their own game" ↔
        (h b).ID = (h a).ID) ∧
      ((h b).ID ≠ (h a).ID →
        (g.JoinGame h now (some b)).2 = Outcome.ok ∧
        (g.JoinGame h now (some b)).1.Player2 = some b ∧
        (g.JoinGame h now (some b)).1.Status = GameStatusActive ∧
        (g.JoinGame h now (some b)).1.CurrentTurn = g.Player1 ∧
        (g.JoinGame h now (some b)).1.Board = g.Board ∧
        (g.JoinGame h now (some b)).1.Player1 = g.Player1)) ∧
    ((g.JoinGame h now (some b)).2 ≠ Outcome.ok → (g.JoinGame h now (some b)).1 = g) ∧
    ((g.JoinGame h now (some b)).2 = Outcome.ok →
      ∀ (later : Nat) (third : Option PlayerRef),
        (g.JoinGame h now (some b)).1.JoinGame h later third =
          ((g.JoinGame h now (some b)).1, Outcome.error "game is not in waiting status") ∧
        ((g.JoinGame h now (some b)).1.JoinGame h later third).1.Player2 = some b ∧
        ((g.JoinGame h now (some b)).1.JoinGame h later third).1.Status =
          GameStatusActive) := by
  by_cases hs : g.Status = GameStatusWaiting
  swap
  · rw [Game.JoinGame_not_waiting h now g (some b) hs]
    refine ⟨⟨fun _ => hs, fun _ => rfl⟩, fun hw => absurd hw hs, fun _ => rfl, fun hok => ?_⟩
    exact absurd hok (by simp)
  by_cases hid : (h a).ID = (h b).ID
  · rw [Game.JoinGame_self h now g a b hs h1 hid]
    refine ⟨⟨fun he => absurd he (by simp), fun hn => absurd hs hn⟩,
      fun _ => ⟨⟨fun _ => hid.symm, fun _ => rfl⟩, fun hne => absurd hid.symm hne⟩,
      fun _ => rfl, fun hok => absurd hok (by simp)⟩
  · rw [Game.JoinGame_ok h now g a b hs h1 hid]
    refine ⟨⟨fun he => absurd he (by simp), fun hn => absurd hs hn⟩,
      fun _ => ⟨⟨fun he => absurd he (by simp), fun he => absurd he.symm hid⟩,
        fun _ => ⟨rfl, rfl, rfl, rfl, rfl, rfl⟩⟩,
      fun hn => absurd rfl hn, fun _ later third => ?_⟩
    have hstep := Game.JoinGame_not_waiting h later
      { g with
          Player2 := some b
          Status := GameStatusActive
          CurrentTurn := g.Player1
          StartedAt := some now } third (by simp [GameStatusActive, GameStatusWaiting])
    rw [hstep]
    exact ⟨rfl, rfl, rfl⟩

/-- Witness for C5: bob joins the game alice created; a later join by carol is
rejected and bob stays Player2 of an Active game. -/
theorem C5_Game_JoinGame_contract_witness :
    ((NewGame "20240101120000" 10 (some 0)).JoinGame sampleHeap 11 (some 1)).2 = Outcome.ok ∧
    ((NewGame "20240101120000" 10 (some 0)).JoinGame sampleHeap 11 (some 1)).1.Player2 =
      some 1 ∧
    ((NewGame "20240101120000" 10 (some 0)).JoinGame sampleHeap 11 (some 1)).1.Status =
      GameStatusActive ∧
    ((NewGame "20240101120000" 10 (some 0)).JoinGame sampleHeap 11 (some 1)).1.CurrentTurn =
      some 0 ∧
    ((((NewGame "20240101120000" 10 (some 0)).JoinGame sampleHeap 11 (some 1)).1.JoinGame
        sampleHeap 12 (some 2)).2 = Outcome.error "game is not in waiting status" ∧
      (((NewGame "20240101120000" 10 (some 0)).JoinGame sampleHeap 11 (some 1)).1.JoinGame
        sampleHeap 12 (some 2)).1.Player2 = some 1) :=
  ⟨((C5_Game_JoinGame_contract sampleHeap 11 (NewGame "20240101120000" 10 (some 0)) 0 1
      rfl).2.1 (by decide)).2 (by decide) |>.1,
    ((C5_Game_JoinGame_contract sampleHeap 11 (NewGame "20240101120000" 10 (some 0)) 0 1
      rfl).2.1 (by decide)).2 (by decide) |>.2.1,
    ((C5_Game_JoinGame_contract sampleHeap 11 (NewGame "20240101120000" 10 (some 0)) 0 1
      rfl).2.1 (by decide)).2 (by decide) |>.2.2.1,
    ((C5_Game_JoinGame_contract sampleHeap 11 (NewGame "20240101120000" 10 (some 0)) 0 1
      rfl).2.1 (by decide)).2 (by decide) |>.2.2.2.1,
    by
      have hj := (C5_Game_JoinGame_contract sampleHeap 11
        (NewGame "20240101120000" 10 (some 0)) 0 1 rfl).2.2.2 (by decide) 12 (some 2)
      exact ⟨by rw [hj.1], hj.2.1⟩⟩

/-! ## Participants -/

theorem Game.isPlayerInGame_of_turn (h : Heap) (g : Game) (c p : PlayerRef)
    (hmem : g.Player1 = some c ∨ g.Player2 = some c) (hid : (h c).ID = (h p).ID) :
    g.isPlayerInGame h p = true := by
  unfold Game.isPlayerInGame
  rcases hmem with hm | hm
  · rw [hm]; simp [hid]
  · rw [hm]; simp [hid]

theorem Game.isPlayerInGame_of_stranger (h : Heap) (g : Game) (p : PlayerRef)
    (hp1 : ∀ a, g.Player1 = some a → (h p).ID ≠ (h a).ID)
    (hp2 : ∀ b, g.Player2 = some b → (h p).ID ≠ (h b).ID) :
    g.isPlayerInGame h p = false := by
  unfold Game.isPlayerInGame
  have e1 : (match g.Player1 with
      | some a => (h a).ID == (h p).ID
      | none => false) = false := by
    cases h1 : g.Player1 with
    | none => rfl
    | some a =>
      have := hp1 a h1
      simp only [beq_eq_false_iff_ne, ne_eq]
      exact fun he => this he.symm
  have e2 : (match g.Player2 with
      | some b => (h b).ID == (h p).ID
      | none => false) = false := by
    cases h2 : g.Player2 with
    | none => rfl
    | some b =>
      have := hp2 b h2
      simp only [beq_eq_false_iff_ne, ne_eq]
      exact fun he => this he.symm
  rw [e1, e2]; rfl

theorem Game.MakeMove_snd_of_board_ok (h : Heap) (now : Nat) (g : Game) (c p : PlayerRef)
    (position : Int) (hs : g.Status = GameStatusActive) (hc : g.CurrentTurn = some c)
    (hid : (h c).ID = (h p).ID) (hin : g.isPlayerInGame h p = true)
    (hb : (g.Board.MakeMove position (h p).Symbol).2 = Outcome.ok) :
    (g.MakeMove h now (some p) position).2 = Outcome.ok ∨
      (g.MakeMove h now (some p) position).2 = Outcome.nilDeref := by
  have hbo : g.Board.MakeMove position (h p).Symbol =
      ((g.Board.MakeMove position (h p).Symbol).1, Outcome.ok) := by
    rw [← hb]
  by_cases hw : (g.Board.MakeMove position (h p).Symbol).1.HasWinner = true
  · left
    rw [Game.MakeMove_win h now g c p position _ hs hc hid hin hbo hw]
  · by_cases hf : (g.Board.MakeMove position (h p).Symbol).1.IsFull = true
    · left
      rw [Game.MakeMove_draw h now g c p position _ hs hc hid hin hbo (by simpa using hw) hf]
    · have hp1 : g.Player1 = none ∨ ∃ a, g.Player1 = some a := by
        cases g.Player1 <;> simp
      rcases hp1 with h1 | ⟨a, h1⟩
      · right
        rw [Game.MakeMove_continue_nil h now g c p position _ hs hc hid hin hbo
          (by simpa using hw) (by simpa using hf) h1]
      · left
        rw [Game.MakeMove_continue h now g c p a position _ hs hc hid hin hbo
          (by simpa using hw) (by simpa using hf) h1]

/-- C6 as stated fails: in the Active game of alice and bob, alice to move,
carol (whose id is neither alice's nor bob's) is turned away with the
not-your-turn error, not with the not-a-participant error. -/
theorem C6_outsider_gets_not_your_turn :
    sampleActive.Status = GameStatusActive ∧
    sampleActive.Player1 = some 0 ∧ sampleActive.Player2 = some 1 ∧
    (sampleHeap 2).ID ≠ (sampleHeap 0).ID ∧ (sampleHeap 2).ID ≠ (sampleHeap 1).ID ∧
    (sampleActive.MakeMove sampleHeap 13 (some 2) 4).2 = Outcome.error "not your turn" ∧
    (sampleActive.MakeMove sampleHeap 13 (some 2) 4).2 ≠
      Outcome.error "player is not in this game" := by
  decide

/-- C6, amended: in an Active game whose CurrentTurn is set, a player whose id
equals neither Player1.ID nor Player2.ID is rejected at every position and the
game is unchanged. The error is the not-your-turn error when the player's id
differs from CurrentTurn.ID, which is always so when CurrentTurn is Player1 or
Player2; it is the not-a-participant error when the player's id equals
CurrentTurn.ID. -/
theorem C6_Game_MakeMove_outsider_rejected (h : Heap) (now : Nat) (g : Game)
    (c p : PlayerRef) (position : Int)
    (hact : g.Status = GameStatusActive) (hc : g.CurrentTurn = some c)
    (hp1 : ∀ a, g.Player1 = some a → (h p).ID ≠ (h a).ID)
    (hp2 : ∀ b, g.Player2 = some b → (h p).ID ≠ (h b).ID) :
    ((h p).ID ≠ (h c).ID →
      g.MakeMove h now (some p) position = (g, Outcome.error "not your turn")) ∧
    ((h p).ID = (h c).ID →
      g.MakeMove h now (some p) position =
        (g, Outcome.error "player is not in this game")) ∧
    ((g.CurrentTurn = g.Player1 ∨ g.CurrentTurn = g.Player2) →
      g.MakeMove h now (some p) position = (g, Outcome.error "not your turn")) := by
  refine ⟨fun hne => ?_, fun he => ?_, fun hmem => ?_⟩
  · exact Game.MakeMove_wrong_turn h now g c p position hact hc (fun e => hne e.symm)
  · exact Game.MakeMove_outsider h now g c p position hact hc he.symm
      (Game.isPlayerInGame_of_stranger h g p hp1 hp2)
  · have hne : (h p).ID ≠ (h c).ID := by
      rcases hmem with hm | hm
      · exact hp1 c (hm ▸ hc)
      · exact hp2 c (hm ▸ hc)
    exact Game.MakeMove_wrong_turn h now g c p position hact hc (fun e => hne e.symm)

/-- Witness for C6 amended: carol is turned away with "not your turn" from the
game of alice and bob; and were CurrentTurn to point at a player object with
carol's id, a second object with that id would get "player is not in this
game". -/
theorem C6_Game_MakeMove_outsider_rejected_witness :
    sampleActive.MakeMove sampleHeap 13 (some 2) 4 =
      (sampleActive, Outcome.error "not your turn") ∧
    { sampleActive with CurrentTurn := some 2 }.MakeMove sampleHeap 13 (some 3) 4 =
      ({ sampleActive with CurrentTurn := some 2 },
        Outcome.error "player is not in this game") :=
  ⟨(C6_Game_MakeMove_outsider_rejected sampleHeap 13 sampleActive 0 2 4 (by decide)
      (by decide) (by decide) (by decide)).2.2 (by decide),
    (C6_Game_MakeMove_outsider_rejected sampleHeap 13
      { sampleActive with CurrentTurn := some 2 } 2 3 4 (by decide)
      (by decide) (by decide) (by decide)).2.1 (by decide)⟩

/-- C7: every `Game.MakeMove` call that returns an error leaves the game as it
was (Status, Board, CurrentTurn, Winner, Player1, Player2 and the rest); and
when the caller has the id of CurrentTurn, CurrentTurn being one of the two
players of an Active game, the call returns an error exactly when
`Board.MakeMove` does for that position and the caller's symbol, and it is the
same error. -/
theorem C7_Game_MakeMove_failure_leaves_game (h : Heap) (now : Nat) (g : Game)
    (player : Option PlayerRef) (position : Int) :
    (∀ e, (g.MakeMove h now player position).2 = Outcome.error e →
      (g.MakeMove h now player position).1 = g) ∧
    (∀ c p, g.Status = GameStatusActive → g.CurrentTurn = some c → player = some p →
      (h p).ID = (h c).ID → (g.Player1 = some c ∨ g.Player2 = some c) →
      ∀ e, (g.MakeMove h now player position).2 = Outcome.error e ↔
        (g.Board.MakeMove position (h p).Symbol).2 = Outcome.error e) := by
  constructor
  · intro e he
    rcases Game.MakeMove_cases h now g player position with ⟨hg, _⟩ |
      ⟨c, p, b, _, _, _, _, _, _, hcase⟩
    · exact hg
    · rcases hcase with ⟨_, hr⟩ | ⟨_, _, hr⟩ | ⟨_, _, _, _, hr⟩ | ⟨_, _, _, hr⟩ <;>
        (rw [hr] at he; exact absurd he (by simp))
  · intro c p hs hc hp hid hmem e
    subst hp
    have hin := Game.isPlayerInGame_of_turn h g c p hmem hid.symm
    by_cases hb : (g.Board.MakeMove position (h p).Symbol).2 = Outcome.ok
    · rcases Game.MakeMove_snd_of_board_ok h now g c p position hs hc hid.symm hin hb with
        hr | hr
      · rw [hr, hb]
      · rw [hr, hb]; simp
    · rw [Game.MakeMove_board_not_ok h now g c p position hs hc hid.symm hin hb]

/-- Witness for C7: with alice on the centre and bob to move, bob playing the
centre gets the board's cell-occupied error and the game is unchanged. -/
theorem C7_Game_MakeMove_failure_leaves_game_witness :
    ((sampleActive.run sampleHeap (alternate [4])).MakeMove sampleHeap 13 (some 1) 4).1 =
      sampleActive.run sampleHeap (alternate [4]) ∧
    (((sampleActive.run sampleHeap (alternate [4])).MakeMove sampleHeap 13 (some 1) 4).2 =
        Outcome.error "position already occupied" ↔
      ((sampleActive.run sampleHeap (alternate [4])).Board.MakeMove 4
        (sampleHeap 1).Symbol).2 = Outcome.error "position already occupied") :=
  ⟨(C7_Game_MakeMove_failure_leaves_game sampleHeap 13
      (sampleActive.run sampleHeap (alternate [4])) (some 1) 4).1
      "position already occupied" (by decide),
    (C7_Game_MakeMove_failure_leaves_game sampleHeap 13
      (sampleActive.run sampleHeap (alternate [4])) (some 1) 4).2 1 1 (by decide) (by decide)
      rfl rfl (by decide) "position already occupied"⟩

/-- C8: on a Finished game, and likewise on a Waiting game, `Game.MakeMove`
returns the not-active error for every player and every position, and the game
(board, Winner, Status and every other field) stays as it was. -/
theorem C8_Game_MakeMove_only_when_active (h : Heap) (now : Nat) (g : Game)
    (player : Option PlayerRef) (position : Int)
    (hs : g.Status = GameStatusFinished ∨ g.Status = GameStatusWaiting) :
    g.MakeMove h now player position = (g, Outcome.error "game is not active") := by
  apply Game.MakeMove_not_active
  rcases hs with hs | hs <;> rw [hs] <;> decide

/-- Witness for C8: after alice has won on the top row, bob's move on a free
cell is rejected; and a move before anyone has joined is rejected. -/
theorem C8_Game_MakeMove_only_when_active_witness :
    (sampleActive.run sampleHeap (alternate [0, 3, 1, 4, 2])).MakeMove sampleHeap 13
        (some 1) 8 =
      (sampleActive.run sampleHeap (alternate [0, 3, 1, 4, 2]),
        Outcome.error "game is not active") ∧
    (NewGame "20240101120000" 10 (some 0)).MakeMove sampleHeap 13 (some 0) 4 =
      (NewGame "20240101120000" 10 (some 0), Outcome.error "game is not active") :=
  ⟨C8_Game_MakeMove_only_when_active sampleHeap 13
      (sampleActive.run sampleHeap (alternate [0, 3, 1, 4, 2])) (some 1) 8
      (Or.inl (by decide)),
    C8_Game_MakeMove_only_when_active sampleHeap 13 (NewGame "20240101120000" 10 (some 0))
      (some 0) 4 (Or.inr (by decide))⟩

/-! ## Sequences of calls -/

theorem Game.run_nil (h : Heap) (g : Game) : g.run h [] = g := rfl

theorem Game.run_cons (h : Heap) (g : Game) (c : Call) (calls : List Call) :
    g.run h (c :: calls) = (g.step h c).1.run h calls := rfl

theorem Game.run_append (h : Heap) (g : Game) (calls later : List Call) :
    g.run h (calls ++ later) = (g.run h calls).run h later := by
  unfold Game.run
  rw [List.foldl_append]

theorem Game.run_snoc (h : Heap) (g : Game) (calls : List Call) (c : Call) :
    g.run h (calls ++ [c]) = ((g.run h calls).step h c).1 := by
  rw [Game.run_append]; rfl

/-- One call moves Status by at most one step of Waiting, Active, Finished. -/
theorem Game.step_status (h : Heap) (g : Game) (c : Call) :
    (g.step h c).1.Status = g.Status ∨
      (g.Status = GameStatusWaiting ∧ (g.step h c).1.Status = GameStatusActive ∧
        (g.step h c).2 = Outcome.ok ∧ ∃ p t, c = Call.JoinGame p t) ∨
      (g.Status = GameStatusActive ∧ (g.step h c).1.Status = GameStatusFinished ∧
        (g.step h c).2 = Outcome.ok ∧ ∃ p pos t, c = Call.MakeMove p pos t) := by
  cases c with
  | JoinGame player2 now =>
    simp only [Game.step]
    by_cases hs : g.Status = GameStatusWaiting
    swap
    · left; rw [Game.JoinGame_not_waiting h now g player2 hs]
    have hp1 : g.Player1 = none ∨ ∃ a, g.Player1 = some a := by
      cases g.Player1 <;> simp
    rcases hp1 with h1 | ⟨a, h1⟩
    · left; rw [Game.JoinGame_nil h now g player2 hs (Or.inl h1)]
    cases player2 with
    | none => left; rw [Game.JoinGame_nil h now g none hs (Or.inr rfl)]
    | some b =>
      by_cases hid : (h a).ID = (h b).ID
      · left; rw [Game.JoinGame_self h now g a b hs h1 hid]
      · right; left
        rw [Game.JoinGame_ok h now g a b hs h1 hid]
        exact ⟨hs, rfl, rfl, some b, now, rfl⟩
  | MakeMove player position now =>
    simp only [Game.step]
    rcases Game.MakeMove_cases h now g player position with ⟨hg, _⟩ |
      ⟨c, p, b, hs, _, _, _, _, _, hcase⟩
    · left; rw [hg]
    · rcases hcase with ⟨_, hr⟩ | ⟨_, _, hr⟩ | ⟨_, _, _, _, hr⟩ | ⟨_, _, _, hr⟩
      · right; right; rw [hr]; exact ⟨hs, rfl, rfl, player, position, now, rfl⟩
      · right; right; rw [hr]; exact ⟨hs, rfl, rfl, player, position, now, rfl⟩
      · left; rw [hr]
      · left; rw [hr]

/-- A Finished game is left as it is by every call. -/
theorem Game.step_of_finished (h : Heap) (g : Game) (c : Call)
    (hs : g.Status = GameStatusFinished) : (g.step h c).1 = g := by
  cases c with
  | JoinGame player2 now =>
    simp only [Game.step]
    rw [Game.JoinGame_not_waiting h now g player2 (by rw [hs]; decide)]
  | MakeMove player position now =>
    simp only [Game.step]
    rw [Game.MakeMove_not_active h now g player position (by rw [hs]; decide)]

theorem Game.run_of_finished (h : Heap) (g : Game) (calls : List Call)
    (hs : g.Status = GameStatusFinished) : g.run h calls = g := by
  induction calls with
  | nil => rfl
  | cons c rest ih => rw [Game.run_cons, Game.step_of_finished h g c hs, ih]

theorem Game.run_of_joined (h : Heap) (g : Game) (calls : List Call)
    (hs : g.Status = GameStatusActive ∨ g.Status = GameStatusFinished) :
    (g.run h calls).Status = GameStatusActive ∨
      (g.run h calls).Status = GameStatusFinished := by
  induction calls generalizing g with
  | nil => exact hs
  | cons c rest ih =>
    rw [Game.run_cons]
    apply ih
    rcases Game.step_status h g c with he | ⟨hw, _⟩ | ⟨_, hf, _⟩
    · rw [he]; exact hs
    · rcases hs with hs | hs <;> rw [hs] at hw <;> exact absurd hw (by decide)
    · exact Or.inr hf

/-! ## Coherence is maintained -/

theorem Game.Coherent_NewGame (h : Heap) (stamp : String) (now : Nat)
    (player1 : Option PlayerRef) : (NewGame stamp now player1).Coherent h :=
  Or.inl ⟨rfl, rfl, rfl, rfl⟩

theorem Game.Coherent_step (h : Heap) (g : Game) (c : Call) (hg : g.Coherent h) :
    (g.step h c).1.Coherent h := by
  cases c with
  | JoinGame player2 now =>
    simp only [Game.step]
    by_cases hs : g.Status = GameStatusWaiting
    swap
    · rw [Game.JoinGame_not_waiting h now g player2 hs]; exact hg
    have hp1 : g.Player1 = none ∨ ∃ a, g.Player1 = some a := by
      cases g.Player1 <;> simp
    rcases hp1 with h1 | ⟨a, h1⟩
    · rw [Game.JoinGame_nil h now g player2 hs (Or.inl h1)]; exact hg
    cases player2 with
    | none => rw [Game.JoinGame_nil h now g none hs (Or.inr rfl)]; exact hg
    | some b =>
      by_cases hid : (h a).ID = (h b).ID
      · rw [Game.JoinGame_self h now g a b hs h1 hid]; exact hg
      · rw [Game.JoinGame_ok h now g a b hs h1 hid]
        rcases hg with ⟨_, _, _, hw⟩ | ⟨hs2, _⟩
        · exact Or.inr ⟨Or.inl rfl, a, b, h1, rfl, hid, Or.inl h1, fun _ => hw⟩
        · rcases hs2 with hs2 | hs2 <;> rw [hs2] at hs <;> exact absurd hs (by decide)
  | MakeMove player position now =>
    simp only [Game.step]
    rcases Game.MakeMove_cases h now g player position with ⟨hsame, _⟩ |
      ⟨c, p, b, hs, hc, _, _, _, _, hcase⟩
    · rw [hsame]; exact hg
    rcases hg with ⟨hw, _⟩ | ⟨_, a, b2, h1, h2, hd, hturn, hwin⟩
    · rw [hw] at hs; exact absurd hs (by decide)
    rcases hcase with ⟨_, hr⟩ | ⟨_, _, hr⟩ | ⟨_, _, a2, h12, hr⟩ | ⟨_, _, h1n, _⟩
    · rw [hr]
      exact Or.inr ⟨Or.inr rfl, a, b2, h1, h2, hd, hturn,
        fun hx => absurd hx (by simp [GameStatusFinished, GameStatusActive])⟩
    · rw [hr]
      exact Or.inr ⟨Or.inr rfl, a, b2, h1, h2, hd, hturn,
        fun hx => absurd hx (by simp [GameStatusFinished, GameStatusActive])⟩
    · rw [hr]
      refine Or.inr ⟨Or.inl hs, a, b2, h1, h2, hd, ?_, fun _ => hwin hs⟩
      by_cases hca : (h c).ID = (h a2).ID
      · simp only [if_pos hca]; exact Or.inr h2
      · simp only [if_neg hca]; exact Or.inl h1
    · rw [h1n] at h1; exact absurd h1 (by simp)

theorem Game.Coherent_run (h : Heap) (g : Game) (calls : List Call) (hg : g.Coherent h) :
    (g.run h calls).Coherent h := by
  induction calls generalizing g with
  | nil => exact hg
  | cons c rest ih =>
    rw [Game.run_cons]
    exact ih _ (Game.Coherent_step h g c hg)

/-- C9: along every sequence of `Game.JoinGame` and `Game.MakeMove` calls
(successful or not) on a game created by `NewGame`, which starts Waiting, the
Status is always Waiting, Active or Finished, and each call either leaves it as
it is, or takes it from Waiting to Active (a successful join), or from Active to
Finished (a successful move). It never goes from Waiting straight to Finished,
never goes back from Active to Waiting, whatever calls follow, and never leaves
Finished. -/
theorem C9_Game_status_steps (h : Heap) (stamp : String) (created : Nat)
    (player1 : Option PlayerRef) (calls : List Call) (c : Call) :
    (NewGame stamp created player1).Status = GameStatusWaiting ∧
    (((NewGame stamp created player1).run h calls).Status = GameStatusWaiting ∨
      ((NewGame stamp created player1).run h calls).Status = GameStatusActive ∨
      ((NewGame stamp created player1).run h calls).Status = GameStatusFinished) ∧
    ((((NewGame stamp created player1).run h calls).step h c).1.Status =
        ((NewGame stamp created player1).run h calls).Status ∨
      (((NewGame stamp created player1).run h calls).Status = GameStatusWaiting ∧
        (((NewGame stamp created player1).run h calls).step h c).1.Status =
          GameStatusActive ∧
        (((NewGame stamp created player1).run h calls).step h c).2 = Outcome.ok ∧
        ∃ p t, c = Call.JoinGame p t) ∨
      (((NewGame stamp created player1).run h calls).Status = GameStatusActive ∧
        (((NewGame stamp created player1).run h calls).step h c).1.Status =
          GameStatusFinished ∧
        (((NewGame stamp created player1).run h calls).step h c).2 = Outcome.ok ∧
        ∃ p pos t, c = Call.MakeMove p pos t)) ∧
    ¬ (((NewGame stamp created player1).run h calls).Status = GameStatusWaiting ∧
      (((NewGame stamp created player1).run h calls).step h c).1.Status =
        GameStatusFinished) ∧
    (∀ later : List Call,
      ((NewGame stamp created player1).run h calls).Status = GameStatusActive →
      (((NewGame stamp created player1).run h calls).run h later).Status ≠
        GameStatusWaiting) ∧
    (∀ later : List Call,
      ((NewGame stamp created player1).run h calls).Status = GameStatusFinished →
      (((NewGame stamp created player1).run h calls).run h later).Status =
        GameStatusFinished) := by
  have hstep := Game.step_status h ((NewGame stamp created player1).run h calls) c
  refine ⟨rfl, ?_, hstep, ?_, ?_, ?_⟩
  · rcases Game.Coherent_run h _ calls (Game.Coherent_NewGame h stamp created player1) with
      ⟨hw, _⟩ | ⟨hs, _⟩
    · exact Or.inl hw
    · exact Or.inr hs
  · rintro ⟨hw, hf⟩
    rcases hstep with he | ⟨_, ha, _⟩ | ⟨ha, _⟩
    · rw [he, hw] at hf; exact absurd hf (by decide)
    · rw [ha] at hf; exact absurd hf (by decide)
    · rw [ha] at hw; exact absurd hw (by decide)
  · intro later ha hw
    rcases Game.run_of_joined h _ later (Or.inl ha) with hs | hs <;>
      (rw [hs] at hw; exact absurd hw (by decide))
  · intro later hf
    rw [Game.run_of_finished h _ later hf]
    exact hf

/-- Witness for C9: the game alice created becomes Active when bob joins, and
once alice has won on the top row the Status stays Finished through a further
join and a further move. -/
theorem C9_Game_status_steps_witness :
    (((NewGame "20240101120000" 10 (some 0)).run sampleHeap []).step sampleHeap
        (Call.JoinGame (some 1) 11)).1.Status = GameStatusActive ∧
    (((NewGame "20240101120000" 10 (some 0)).run sampleHeap
        (Call.JoinGame (some 1) 11 :: alternate [0, 3, 1, 4, 2])).run sampleHeap
        [Call.JoinGame (some 2) 14, Call.MakeMove (some 1) 8 15]).Status =
      GameStatusFinished :=
  ⟨by decide,
    (C9_Game_status_steps sampleHeap "20240101120000" 10 (some 0)
      (Call.JoinGame (some 1) 11 :: alternate [0, 3, 1, 4, 2])
      (Call.MakeMove (some 1) 8 15)).2.2.2.2.2
      [Call.JoinGame (some 2) 14, Call.MakeMove (some 1) 8 15] (by decide)⟩

/-- C10 as stated fails: after alice has won on the top row the game is
Finished and CurrentTurn still points at alice, so it is non-null although
Status is not Active. -/
theorem C10_finished_game_keeps_CurrentTurn :
    ((NewGame "20240101120000" 10 (some 0)).run sampleHeap
        (Call.JoinGame (some 1) 11 :: alternate [0, 3, 1, 4, 2])).Status =
      GameStatusFinished ∧
    ((NewGame "20240101120000" 10 (some 0)).run sampleHeap
        (Call.JoinGame (some 1) 11 :: alternate [0, 3, 1, 4, 2])).CurrentTurn = some 0 ∧
    ¬ (((NewGame "20240101120000" 10 (some 0)).run sampleHeap
          (Call.JoinGame (some 1) 11 :: alternate [0, 3, 1, 4, 2])).CurrentTurn ≠ none ↔
        ((NewGame "20240101120000" 10 (some 0)).run sampleHeap
          (Call.JoinGame (some 1) 11 :: alternate [0, 3, 1, 4, 2])).Status =
          GameStatusActive) := by
  decide

/-- C10, amended: in every game state reached from `NewGame` by `Game.JoinGame`
and `Game.MakeMove` calls, CurrentTurn is non-null iff Status is Active or
Finished: it is null while Waiting, non-null while Active, and still non-null
once the game is Finished, where no later call changes it. -/
theorem C10_Game_CurrentTurn_set_iff_joined (h : Heap) (stamp : String) (created : Nat)
    (player1 : Option PlayerRef) (calls : List Call) :
    (((NewGame stamp created player1).run h calls).CurrentTurn ≠ none ↔
      (((NewGame stamp created player1).run h calls).Status = GameStatusActive ∨
        ((NewGame stamp created player1).run h calls).Status = GameStatusFinished)) ∧
    (((NewGame stamp created player1).run h calls).CurrentTurn = none ↔
      ((NewGame stamp created player1).run h calls).Status = GameStatusWaiting) ∧
    (∀ later : List Call,
      ((NewGame stamp created player1).run h calls).Status = GameStatusFinished →
      (((NewGame stamp created player1).run h calls).run h later).CurrentTurn =
        ((NewGame stamp created player1).run h calls).CurrentTurn) := by
  have hco := Game.Coherent_run h _ calls (Game.Coherent_NewGame h stamp created player1)
  refine ⟨?_, ?_, fun later hf => by rw [Game.run_of_finished h _ later hf]⟩
  · rcases hco with ⟨hw, _, hc, _⟩ | ⟨hs, a, b, _, _, _, hturn, _⟩
    · rw [hc, hw]
      constructor
      · intro hn; exact absurd rfl hn
      · intro hs; rcases hs with hs | hs <;> exact absurd hs (by decide)
    · constructor
      · intro _; exact hs
      · intro _
        rcases hturn with ht | ht <;> rw [ht] <;> simp
  · rcases hco with ⟨hw, _, hc, _⟩ | ⟨hs, a, b, _, _, _, hturn, _⟩
    · rw [hc, hw]
      exact ⟨fun _ => rfl, fun _ => rfl⟩
    · constructor
      · intro hn
        rcases hturn with ht | ht <;> rw [ht] at hn <;> exact absurd hn (by simp)
      · intro hw
        rcases hs with hs | hs <;> rw [hs] at hw <;> exact absurd hw (by decide)

/-- Witness for C10 amended: CurrentTurn of the game alice won is unchanged by
the calls that follow. -/
theorem C10_Game_CurrentTurn_set_iff_joined_witness :
    (((NewGame "20240101120000" 10 (some 0)).run sampleHeap
        (Call.JoinGame (some 1) 11 :: alternate [0, 3, 1, 4, 2])).run sampleHeap
        [Call.JoinGame (some 2) 14, Call.MakeMove (some 1) 8 15]).CurrentTurn =
      ((NewGame "20240101120000" 10 (some 0)).run sampleHeap
        (Call.JoinGame (some 1) 11 :: alternate [0, 3, 1, 4, 2])).CurrentTurn :=
  (C10_Game_CurrentTurn_set_iff_joined sampleHeap "20240101120000" 10 (some 0)
    (Call.JoinGame (some 1) 11 :: alternate [0, 3, 1, 4, 2])).2.2
    [Call.JoinGame (some 2) 14, Call.MakeMove (some 1) 8 15] (by decide)

/-! ## How a game ends -/

theorem Game.Settled_NewGame (stamp : String) (now : Nat) (player1 : Option PlayerRef) :
    (NewGame stamp now player1).Settled :=
  ⟨fun hw => absurd rfl hw,
    fun hs => absurd hs (by simp [NewGame, GameStatusWaiting, GameStatusFinished])⟩

theorem Game.Coherent_winner_none (h : Heap) (g : Game) (hg : g.Coherent h)
    (hs : g.Status ≠ GameStatusFinished) : g.Winner = none := by
  rcases hg with ⟨_, _, _, hw⟩ | ⟨hst, _, _, _, _, _, _, hw⟩
  · exact hw
  · rcases hst with ha | hf
    · exact hw ha
    · exact absurd hf hs

theorem Game.Settled_step (h : Heap) (g : Game) (c : Call) (hco : g.Coherent h)
    (hg : g.Settled) : (g.step h c).1.Settled := by
  cases c with
  | JoinGame player2 now =>
    simp only [Game.step]
    by_cases hs : g.Status = GameStatusWaiting
    swap
    · rw [Game.JoinGame_not_waiting h now g player2 hs]; exact hg
    have hwn : g.Winner = none :=
      Game.Coherent_winner_none h g hco (by rw [hs]; decide)
    have hp1 : g.Player1 = none ∨ ∃ a, g.Player1 = some a := by
      cases g.Player1 <;> simp
    rcases hp1 with h1 | ⟨a, h1⟩
    · rw [Game.JoinGame_nil h now g player2 hs (Or.inl h1)]; exact hg
    cases player2 with
    | none => rw [Game.JoinGame_nil h now g none hs (Or.inr rfl)]; exact hg
    | some b =>
      by_cases hid : (h a).ID = (h b).ID
      · rw [Game.JoinGame_self h now g a b hs h1 hid]; exact hg
      · rw [Game.JoinGame_ok h now g a b hs h1 hid]
        exact ⟨fun hw => absurd hwn hw,
          fun hf => absurd hf (by simp [GameStatusActive, GameStatusFinished])⟩
  | MakeMove player position now =>
    simp only [Game.step]
    rcases Game.MakeMove_cases h now g player position with ⟨hsame, _⟩ |
      ⟨c, p, b, hs, hc, _, _, _, _, hcase⟩
    · rw [hsame]; exact hg
    have hwn : g.Winner = none :=
      Game.Coherent_winner_none h g hco (by rw [hs]; decide)
    rcases hcase with ⟨hw, hr⟩ | ⟨hw, hf, hr⟩ | ⟨_, _, a2, _, hr⟩ | ⟨_, _, _, hr⟩
    · rw [hr]
      exact ⟨fun _ => ⟨rfl, hw⟩, fun _ hn => absurd hn (by simp)⟩
    · rw [hr]
      exact ⟨fun hn => absurd hwn hn, fun _ _ => ⟨hf, hw⟩⟩
    · rw [hr]
      exact ⟨fun hn => absurd hwn hn,
        fun hfin => absurd (hs.symm.trans hfin) (by decide)⟩
    · rw [hr]
      exact ⟨fun hn => absurd hwn hn,
        fun hfin => absurd (hs.symm.trans hfin) (by decide)⟩

theorem Game.Settled_run (h : Heap) (g : Game) (calls : List Call) (hco : g.Coherent h)
    (hg : g.Settled) : (g.run h calls).Settled := by
  induction calls generalizing g with
  | nil => exact hg
  | cons c rest ih =>
    rw [Game.run_cons]
    exact ih _ (Game.Coherent_step h g c hco) (Game.Settled_step h g c hco hg)

/-- C11: in every game state reached from `NewGame` by `Game.JoinGame` and
`Game.MakeMove` calls, if Winner is non-null then Status is Finished and
`Board.HasWinner` is true; and if Status is Finished and Winner is null then
`Board.IsFull` is true and `Board.HasWinner` is false (a draw). -/
theorem C11_Game_winner_and_draw (h : Heap) (stamp : String) (created : Nat)
    (player1 : Option PlayerRef) (calls : List Call) :
    (((NewGame stamp created player1).run h calls).Winner ≠ none →
      ((NewGame stamp created player1).run h calls).Status = GameStatusFinished ∧
      ((NewGame stamp created player1).run h calls).Board.HasWinner = true) ∧
    (((NewGame stamp created player1).run h calls).Status = GameStatusFinished →
      ((NewGame stamp created player1).run h calls).Winner = none →
      ((NewGame stamp created player1).run h calls).Board.IsFull = true ∧
      ((NewGame stamp created player1).run h calls).Board.HasWinner = false) :=
  Game.Settled_run h _ calls (Game.Coherent_NewGame h stamp created player1)
    (Game.Settled_NewGame stamp created player1)

/-- Witness for C11: the game alice won on the top row is Finished with a line
on the board; the game played to a full board without a line is Finished with
no winner. -/
theorem C11_Game_winner_and_draw_witness :
    (((NewGame "20240101120000" 10 (some 0)).run sampleHeap
        (Call.JoinGame (some 1) 11 :: alternate [0, 3, 1, 4, 2])).Status =
        GameStatusFinished ∧
      ((NewGame "20240101120000" 10 (some 0)).run sampleHeap
        (Call.JoinGame (some 1) 11 :: alternate [0, 3, 1, 4, 2])).Board.HasWinner = true) ∧
    (((NewGame "20240101120000" 10 (some 0)).run sampleHeap
        (Call.JoinGame (some 1) 11 :: alternate [0, 1, 2, 4, 3, 5, 7, 6, 8])).Board.IsFull =
        true ∧
      ((NewGame "20240101120000" 10 (some 0)).run sampleHeap
        (Call.JoinGame (some 1) 11 :: alternate [0, 1, 2, 4, 3, 5, 7, 6, 8])).Board.HasWinner =
        false) :=
  ⟨(C11_Game_winner_and_draw sampleHeap "20240101120000" 10 (some 0)
      (Call.JoinGame (some 1) 11 :: alternate [0, 3, 1, 4, 2])).1 (by decide),
    (C11_Game_winner_and_draw sampleHeap "20240101120000" 10 (some 0)
      (Call.JoinGame (some 1) 11 :: alternate [0, 1, 2, 4, 3, 5, 7, 6, 8])).2 (by decide)
      (by decide)⟩

/-! ## The game service -/

theorem validateMove_out_of_range (position : Int) (symbol : String)
    (hp : position < 0 ∨ position > 8) :
    validateMove position symbol = Outcome.error "position must be between 0 and 8" := by
  unfold validateMove
  rw [if_pos hp]

theorem validateMove_bad_symbol (position : Int) (symbol : String)
    (hp : ¬ (position < 0 ∨ position > 8)) (hs : symbol ≠ "X" ∧ symbol ≠ "O") :
    validateMove position symbol = Outcome.error "symbol must be X or O" := by
  unfold validateMove
  rw [if_neg hp, if_pos hs]

theorem validateMove_ok (position : Int) (symbol : String)
    (hp : ¬ (position < 0 ∨ position > 8)) (hs : ¬ (symbol ≠ "X" ∧ symbol ≠ "O")) :
    validateMove position symbol = Outcome.ok := by
  unfold validateMove
  rw [if_neg hp, if_neg hs]

theorem NewMove_of_not_ok (now : Nat) (position : Int) (symbol playerID : String)
    (hv : validateMove position symbol ≠ Outcome.ok) :
    NewMove now position symbol playerID = (none, validateMove position symbol) := by
  unfold NewMove
  cases hval : validateMove position symbol with
  | ok => exact absurd hval hv
  | error msg => rfl
  | nilDeref => rfl

theorem NewMove_of_ok (now : Nat) (position : Int) (symbol playerID : String)
    (hv : validateMove position symbol = Outcome.ok) :
    NewMove now position symbol playerID =
      (some { Position := position, Symbol := symbol, PlayerID := playerID, Timestamp := now },
        Outcome.ok) := by
  unfold NewMove
  rw [hv]

theorem GameService.MakeMove_rejected (h : Heap) (stamped now : Nat) (game : Game)
    (p : PlayerRef) (position : Int)
    (hv : validateMove position (h p).Symbol ≠ Outcome.ok) :
    GameService.MakeMove h stamped now game (some p) position =
      (game, validateMove position (h p).Symbol) := by
  unfold GameService.MakeMove
  simp only []
  rw [NewMove_of_not_ok stamped position (h p).Symbol (h p).ID hv]

theorem GameService.MakeMove_passed (h : Heap) (stamped now : Nat) (game : Game)
    (p : PlayerRef) (position : Int)
    (hv : validateMove position (h p).Symbol = Outcome.ok) :
    GameService.MakeMove h stamped now game (some p) position =
      game.MakeMove h now (some p) position := by
  unfold GameService.MakeMove
  simp only []
  rw [NewMove_of_ok stamped position (h p).Symbol (h p).ID hv]

/-- What `Game.JoinGame` returns depends on the memory only through the ids. -/
theorem Game.JoinGame_congr (h h1 : Heap) (now : Nat) (g : Game) (player2 : Option PlayerRef)
    (hid : ∀ a, (h1 a).ID = (h a).ID) :
    g.JoinGame h1 now player2 = g.JoinGame h now player2 := by
  unfold Game.JoinGame
  by_cases hs : g.Status ≠ GameStatusWaiting
  · rw [if_pos hs, if_pos hs]
  · rw [if_neg hs, if_neg hs]
    cases g.Player1 with
    | none => rfl
    | some a =>
      cases player2 with
      | none => rfl
      | some b => simp only [hid a, hid b]

theorem assign_ID (h : Heap) (p a : PlayerRef) (symbol : String) :
    (Function.update h p { h p with Symbol := symbol } a).ID = (h a).ID := by
  by_cases hpa : a = p
  · subst hpa; simp
  · rw [Function.update_noteq hpa]

theorem assign_Symbol (h : Heap) (p : PlayerRef) (symbol : String) :
    (Function.update h p { h p with Symbol := symbol } p).Symbol = symbol := by
  simp

theorem GameService.JoinGame_full (h : Heap) (now : Nat) (game : Game)
    (player2 : Option PlayerRef) (hfull : game.Player2 ≠ none) :
    GameService.JoinGame h now game player2 =
      (h, game, Outcome.error "game is already full") := by
  unfold GameService.JoinGame
  rw [if_pos hfull]

theorem GameService.JoinGame_open (h : Heap) (now : Nat) (game : Game) (p2 : PlayerRef)
    (hopen : game.Player2 = none) :
    GameService.JoinGame h now game (some p2) =
      (Function.update h p2 { h p2 with Symbol := "O" },
        game.JoinGame (Function.update h p2 { h p2 with Symbol := "O" }) now (some p2)) := by
  unfold GameService.JoinGame
  rw [if_neg (by simp [hopen])]
  rfl

/-- The error of `Game.JoinGame` is never the game-full error. -/
theorem Game.JoinGame_not_full_error (h : Heap) (now : Nat) (g : Game)
    (player2 : Option PlayerRef) :
    (g.JoinGame h now player2).2 ≠ Outcome.error "game is already full" := by
  by_cases hs : g.Status = GameStatusWaiting
  swap
  · rw [Game.JoinGame_not_waiting h now g player2 hs]; simp
  have hp1 : g.Player1 = none ∨ ∃ a, g.Player1 = some a := by
    cases g.Player1 <;> simp
  rcases hp1 with h1 | ⟨a, h1⟩
  · rw [Game.JoinGame_nil h now g player2 hs (Or.inl h1)]; simp
  cases player2 with
  | none => rw [Game.JoinGame_nil h now g none hs (Or.inr rfl)]; simp
  | some b =>
    by_cases hid : (h a).ID = (h b).ID
    · rw [Game.JoinGame_self h now g a b hs h1 hid]; simp
    · rw [Game.JoinGame_ok h now g a b hs h1 hid]; simp

/-- A successful `Game.JoinGame` sets Player2, Status and CurrentTurn. -/
theorem Game.JoinGame_of_ok (h : Heap) (now : Nat) (g : Game) (b : PlayerRef)
    (hok : (g.JoinGame h now (some b)).2 = Outcome.ok) :
    (g.JoinGame h now (some b)).1.Player2 = some b ∧
      (g.JoinGame h now (some b)).1.Status = GameStatusActive ∧
      (g.JoinGame h now (some b)).1.CurrentTurn = g.Player1 := by
  by_cases hs : g.Status = GameStatusWaiting
  swap
  · rw [Game.JoinGame_not_waiting h now g (some b) hs] at hok; exact absurd hok (by simp)
  have hp1 : g.Player1 = none ∨ ∃ a, g.Player1 = some a := by
    cases g.Player1 <;> simp
  rcases hp1 with h1 | ⟨a, h1⟩
  · rw [Game.JoinGame_nil h now g (some b) hs (Or.inl h1)] at hok; exact absurd hok (by simp)
  by_cases hid : (h a).ID = (h b).ID
  · rw [Game.JoinGame_self h now g a b hs h1 hid] at hok; exact absurd hok (by simp)
  · rw [Game.JoinGame_ok h now g a b hs h1 hid]
    exact ⟨rfl, rfl, rfl⟩

/-- C13: `GameService.MakeMove(game, p, position)` applies the check of the Move
factory first. If the position is outside 0..8 it returns the factory's position
error, otherwise if `p.Symbol` is neither "X" nor "O" it returns the factory's
symbol error, in both cases for any game, whatever its Status, and leaving the
game unchanged; when the check passes, the returned error and the resulting game
are exactly those of `Game.MakeMove(p, position)`. -/
theorem C13_GameService_MakeMove_checks_then_delegates (h : Heap) (stamped now : Nat)
    (game : Game) (p : PlayerRef) (position : Int) :
    ((position < 0 ∨ position > 8) →
      (NewMove stamped position (h p).Symbol (h p).ID).2 =
        Outcome.error "position must be between 0 and 8" ∧
      GameService.MakeMove h stamped now game (some p) position =
        (game, Outcome.error "position must be between 0 and 8")) ∧
    (¬ (position < 0 ∨ position > 8) → ((h p).Symbol ≠ "X" ∧ (h p).Symbol ≠ "O") →
      (NewMove stamped position (h p).Symbol (h p).ID).2 =
        Outcome.error "symbol must be X or O" ∧
      GameService.MakeMove h stamped now game (some p) position =
        (game, Outcome.error "symbol must be X or O")) ∧
    (¬ (position < 0 ∨ position > 8) → ¬ ((h p).Symbol ≠ "X" ∧ (h p).Symbol ≠ "O") →
      (NewMove stamped position (h p).Symbol (h p).ID).2 = Outcome.ok ∧
      GameService.MakeMove h stamped now game (some p) position =
        game.MakeMove h now (some p) position) := by
  refine ⟨fun hp => ?_, fun hp hs => ?_, fun hp hs => ?_⟩
  · have hv := validateMove_out_of_range position (h p).Symbol hp
    have hne : validateMove position (h p).Symbol ≠ Outcome.ok := by rw [hv]; simp
    rw [GameService.MakeMove_rejected h stamped now game p position hne,
      NewMove_of_not_ok stamped position (h p).Symbol (h p).ID hne, hv]
    exact ⟨rfl, rfl⟩
  · have hv := validateMove_bad_symbol position (h p).Symbol hp hs
    have hne : validateMove position (h p).Symbol ≠ Outcome.ok := by rw [hv]; simp
    rw [GameService.MakeMove_rejected h stamped now game p position hne,
      NewMove_of_not_ok stamped position (h p).Symbol (h p).ID hne, hv]
    exact ⟨rfl, rfl⟩
  · have hv := validateMove_ok position (h p).Symbol hp hs
    rw [GameService.MakeMove_passed h stamped now game p position hv,
      NewMove_of_ok stamped position (h p).Symbol (h p).ID hv]
    exact ⟨rfl, rfl⟩

/-- Witness for C13: on the game alice has already won, her move at position 9
gets the factory's position error, not the not-active error; carol, whose
symbol is set to "Z", gets the factory's symbol error on a Waiting game; and
alice's first move through the service is the move of `Game.MakeMove`. -/
theorem C13_GameService_MakeMove_checks_then_delegates_witness :
    GameService.MakeMove sampleHeap 12 13
        (sampleActive.run sampleHeap (alternate [0, 3, 1, 4, 2])) (some 0) 9 =
      (sampleActive.run sampleHeap (alternate [0, 3, 1, 4, 2]),
        Outcome.error "position must be between 0 and 8") ∧
    GameService.MakeMove (Function.update sampleHeap 2 { sampleHeap 2 with Symbol := "Z" })
        12 13 (NewGame "20240101120000" 10 (some 0)) (some 2) 4 =
      (NewGame "20240101120000" 10 (some 0), Outcome.error "symbol must be X or O") ∧
    GameService.MakeMove sampleHeap 12 13 sampleActive (some 0) 4 =
      sampleActive.MakeMove sampleHeap 13 (some 0) 4 :=
  ⟨((C13_GameService_MakeMove_checks_then_delegates sampleHeap 12 13
      (sampleActive.run sampleHeap (alternate [0, 3, 1, 4, 2])) 0 9).1 (by decide)).2,
    ((C13_GameService_MakeMove_checks_then_delegates
      (Function.update sampleHeap 2 { sampleHeap 2 with Symbol := "Z" }) 12 13
      (NewGame "20240101120000" 10 (some 0)) 2 4).2.1 (by decide) (by decide)).2,
    ((C13_GameService_MakeMove_checks_then_delegates sampleHeap 12 13 sampleActive 0 4).2.2
      (by decide) (by decide)).2⟩

/-- C14: `GameService.JoinGame(game, p2)` returns the game-full error iff
`game.Player2` is already set, and then the game and the players are unchanged;
otherwise it sets `p2.Symbol` to "O", touching no other player object and no id,
and returns exactly what `Game.JoinGame(p2)` returns, so that on success
`game.Player2` is `p2` with symbol "O", Status is Active and CurrentTurn is
Player1. -/
theorem C14_GameService_JoinGame_contract (h : Heap) (now : Nat) (game : Game)
    (p2 : PlayerRef) :
    ((GameService.JoinGame h now game (some p2)).2.2 = Outcome.error "game is already full" ↔
      game.Player2 ≠ none) ∧
    (game.Player2 ≠ none →
      GameService.JoinGame h now game (some p2) =
        (h, game, Outcome.error "game is already full")) ∧
    (game.Player2 = none →
      ((GameService.JoinGame h now game (some p2)).1 p2).Symbol = "O" ∧
      (∀ q, q ≠ p2 → (GameService.JoinGame h now game (some p2)).1 q = h q) ∧
      (∀ q, ((GameService.JoinGame h now game (some p2)).1 q).ID = (h q).ID) ∧
      (GameService.JoinGame h now game (some p2)).2 =
        game.JoinGame (GameService.JoinGame h now game (some p2)).1 now (some p2) ∧
      (GameService.JoinGame h now game (some p2)).2 = game.JoinGame h now (some p2) ∧
      ((GameService.JoinGame h now game (some p2)).2.2 = Outcome.ok →
        (GameService.JoinGame h now game (some p2)).2.1.Player2 = some p2 ∧
        (GameService.JoinGame h now game (some p2)).2.1.Status = GameStatusActive ∧
        (GameService.JoinGame h now game (some p2)).2.1.CurrentTurn = game.Player1)) := by
  by_cases hfull : game.Player2 ≠ none
  · rw [GameService.JoinGame_full h now game (some p2) hfull]
    exact ⟨⟨fun _ => hfull, fun _ => rfl⟩, fun _ => rfl, fun hn => absurd hn hfull⟩
  · have hopen : game.Player2 = none := by simpa using hfull
    have hcongr := Game.JoinGame_congr h (Function.update h p2 { h p2 with Symbol := "O" })
      now game (some p2) (fun a => assign_ID h p2 a "O")
    rw [GameService.JoinGame_open h now game p2 hopen]
    refine ⟨⟨fun he => ?_, fun hn => absurd hn hfull⟩, fun hn => absurd hn hfull,
      fun _ => ⟨assign_Symbol h p2 "O", fun q hq => Function.update_noteq hq _ _,
        fun q => assign_ID h p2 q "O", rfl, hcongr, fun hok => ?_⟩⟩
    · exact absurd he (Game.JoinGame_not_full_error _ now game (some p2))
    · exact Game.JoinGame_of_ok _ now game p2 hok

/-- Witness for C14: bob joins the game alice created and is Player2 with
symbol "O" in an Active game; a further join by carol is turned away with the
game-full error and nothing changes. -/
theorem C14_GameService_JoinGame_contract_witness :
    ((GameService.JoinGame sampleHeap 11 (NewGame "20240101120000" 10 (some 0))
        (some 1)).2.1.Player2 = some 1 ∧
      (GameService.JoinGame sampleHeap 11 (NewGame "20240101120000" 10 (some 0))
        (some 1)).2.1.Status = GameStatusActive ∧
      (GameService.JoinGame sampleHeap 11 (NewGame "20240101120000" 10 (some 0))
        (some 1)).2.1.CurrentTurn = some 0) ∧
    ((GameService.JoinGame sampleHeap 11 (NewGame "20240101120000" 10 (some 0))
        (some 1)).1 1).Symbol = "O" ∧
    GameService.JoinGame sampleHeap 12 sampleActive (some 2) =
      (sampleHeap, sampleActive, Outcome.error "game is already full") :=
  ⟨((C14_GameService_JoinGame_contract sampleHeap 11 (NewGame "20240101120000" 10 (some 0))
      1).2.2 (by decide)).2.2.2.2.2 (by decide),
    ((C14_GameService_JoinGame_contract sampleHeap 11 (NewGame "20240101120000" 10 (some 0))
      1).2.2 (by decide)).1,
    (C14_GameService_JoinGame_contract sampleHeap 12 sampleActive 2).2.1 (by decide)⟩

/-! ## The scenario of the specification -/

/-- C12 as stated fails: after alice created the game, bob joined, alice played
4, bob played 0 and alice played 8 (four successful calls), alice's attempt at
position 0 is turned away with the not-your-turn error, not with the
cell-occupied error: it is bob's turn. -/
theorem C12_attempt_by_A_is_out_of_turn :
    (sampleHeap 0).ID ≠ (sampleHeap 1).ID ∧
    (GameService.CreateGame sampleHeap "20240101120000" 10 (some 0)).map
        (fun s => (GameService.run s.1 s.2
          (scenarioCalls 0 1 ++ [ServiceCall.MakeMove (some 0) 0 15 15])).2) =
      some [Outcome.ok, Outcome.ok, Outcome.ok, Outcome.ok, Outcome.error "not your turn"] ∧
    Outcome.error "not your turn" ≠ Outcome.error "position already occupied" := by
  decide

/-- C12, amended: for any two players A and B with different ids, after A
creates a game through `GameService.CreateGame`, B joins through
`GameService.JoinGame`, A plays 4, B plays 0 and A plays 8, all four calls
succeed, the game is Active and it is B's turn; a further attempt by A to play
position 0 is rejected with the not-your-turn error and leaves the game
unchanged, and the same attempt by B is rejected with the cell-occupied
error. -/
theorem C12_scenario_occupied_cell (h : Heap) (a b : PlayerRef) (stamp : String)
    (created stamped now : Nat) (hab : (h a).ID ≠ (h b).ID) :
    GameService.CreateGame h stamp created (some a) =
      some (Function.update h a { h a with Symbol := "X" }, NewGame stamp created (some a)) ∧
    (GameService.run (Function.update h a { h a with Symbol := "X" })
      (NewGame stamp created (some a)) (scenarioCalls a b)).2 =
      [Outcome.ok, Outcome.ok, Outcome.ok, Outcome.ok] ∧
    (GameService.run (Function.update h a { h a with Symbol := "X" })
      (NewGame stamp created (some a)) (scenarioCalls a b)).1.2.Status = GameStatusActive ∧
    (GameService.run (Function.update h a { h a with Symbol := "X" })
      (NewGame stamp created (some a)) (scenarioCalls a b)).1.2.CurrentTurn = some b ∧
    GameService.MakeMove
        (GameService.run (Function.update h a { h a with Symbol := "X" })
          (NewGame stamp created (some a)) (scenarioCalls a b)).1.1 stamped now
        (GameService.run (Function.update h a { h a with Symbol := "X" })
          (NewGame stamp created (some a)) (scenarioCalls a b)).1.2 (some a) 0 =
      ((GameService.run (Function.update h a { h a with Symbol := "X" })
          (NewGame stamp created (some a)) (scenarioCalls a b)).1.2,
        Outcome.error "not your turn") ∧
    GameService.MakeMove
        (GameService.run (Function.update h a { h a with Symbol := "X" })
          (NewGame stamp created (some a)) (scenarioCalls a b)).1.1 stamped now
        (GameService.run (Function.update h a { h a with Symbol := "X" })
          (NewGame stamp created (some a)) (scenarioCalls a b)).1.2 (some b) 0 =
      ((GameService.run (Function.update h a { h a with Symbol := "X" })
          (NewGame stamp created (some a)) (scenarioCalls a b)).1.2,
        Outcome.error "position already occupied") := by
  have hne : a ≠ b := fun e => hab (by rw [e])
  -- the memory after the two symbol assignments
  generalize hh1 : Function.update h a { h a with Symbol := "X" } = h1
  generalize hh2 : Function.update h1 b { h1 b with Symbol := "O" } = h2
  have hid1 : ∀ q, (h1 q).ID = (h q).ID := fun q => by rw [← hh1]; exact assign_ID h a q "X"
  have hid2 : ∀ q, (h2 q).ID = (h q).ID := fun q => by
    rw [← hh2, assign_ID h1 b q "O"]; exact hid1 q
  have hsa : (h2 a).Symbol = "X" := by
    rw [← hh2, Function.update_noteq hne, ← hh1]; exact assign_Symbol h a "X"
  have hsb : (h2 b).Symbol = "O" := by rw [← hh2]; exact assign_Symbol h1 b "O"
  have hab2 : (h2 a).ID ≠ (h2 b).ID := by rw [hid2 a, hid2 b]; exact hab
  have hba2 : (h2 b).ID ≠ (h2 a).ID := fun e => hab2 e.symm
  -- B joins
  have e1 : GameService.JoinGame h1 11 (NewGame stamp created (some a)) (some b) =
      (h2, { NewGame stamp created (some a) with
              Player2 := some b
              Status := GameStatusActive
              CurrentTurn := some a
              StartedAt := some 11 }, Outcome.ok) := by
    rw [GameService.JoinGame_open h1 11 _ b rfl, hh2,
      Game.JoinGame_ok h2 11 (NewGame stamp created (some a)) a b rfl rfl hab2]
    rfl
  generalize hg1 : ({ NewGame stamp created (some a) with
      Player2 := some b
      Status := GameStatusActive
      CurrentTurn := some a
      StartedAt := some 11 } : Game) = g1 at e1
  have g1s : g1.Status = GameStatusActive := by rw [← hg1]
  have g1p1 : g1.Player1 = some a := by rw [← hg1]; rfl
  have g1p2 : g1.Player2 = some b := by rw [← hg1]
  have g1t : g1.CurrentTurn = some a := by rw [← hg1]
  have g1b : g1.Board = NewBoard := by rw [← hg1]; rfl
  -- A plays 4
  have e2 : GameService.MakeMove h2 12 12 g1 (some a) 4 =
      ({ g1 with Board := (NewBoard.MakeMove 4 "X").1, CurrentTurn := some b },
        Outcome.ok) := by
    rw [GameService.MakeMove_passed h2 12 12 g1 a 4 (by rw [hsa]; decide),
      Game.MakeMove_continue h2 12 g1 a a a 4 (NewBoard.MakeMove 4 "X").1 g1s g1t rfl
        (Game.isPlayerInGame_of_turn h2 g1 a a (Or.inl g1p1) rfl)
        (by rw [hsa, g1b]; decide) (by decide) (by decide) g1p1]
    simp only [if_true, g1p2]
  generalize hg2 : ({ g1 with Board := (NewBoard.MakeMove 4 "X").1, CurrentTurn := some b } :
      Game) = g2 at e2
  have g2s : g2.Status = GameStatusActive := by rw [← hg2]; exact g1s
  have g2p1 : g2.Player1 = some a := by rw [← hg2]; exact g1p1
  have g2p2 : g2.Player2 = some b := by rw [← hg2]; exact g1p2
  have g2t : g2.CurrentTurn = some b := by rw [← hg2]
  have g2b : g2.Board = (NewBoard.MakeMove 4 "X").1 := by rw [← hg2]
  -- B plays 0
  have e3 : GameService.MakeMove h2 13 13 g2 (some b) 0 =
      ({ g2 with
          Board := ((NewBoard.MakeMove 4 "X").1.MakeMove 0 "O").1
          CurrentTurn := some a }, Outcome.ok) := by
    rw [GameService.MakeMove_passed h2 13 13 g2 b 0 (by rw [hsb]; decide),
      Game.MakeMove_continue h2 13 g2 b b a 0 ((NewBoard.MakeMove 4 "X").1.MakeMove 0 "O").1
        g2s g2t rfl (Game.isPlayerInGame_of_turn h2 g2 b b (Or.inr g2p2) rfl)
        (by rw [hsb, g2b]; decide) (by decide) (by decide) g2p1]
    simp only [if_neg hba2, g2p1]
  generalize hg3 : ({ g2 with
      Board := ((NewBoard.MakeMove 4 "X").1.MakeMove 0 "O").1
      CurrentTurn := some a } : Game) = g3 at e3
  have g3s : g3.Status = GameStatusActive := by rw [← hg3]; exact g2s
  have g3p1 : g3.Player1 = some a := by rw [← hg3]; exact g2p1
  have g3p2 : g3.Player2 = some b := by rw [← hg3]; exact g2p2
  have g3t : g3.CurrentTurn = some a := by rw [← hg3]
  have g3b : g3.Board = ((NewBoard.MakeMove 4 "X").1.MakeMove 0 "O").1 := by rw [← hg3]
  -- A plays 8
  have e4 : GameService.MakeMove h2 14 14 g3 (some a) 8 =
      ({ g3 with
          Board := (((NewBoard.MakeMove 4 "X").1.MakeMove 0 "O").1.MakeMove 8 "X").1,
          CurrentTurn := some b }, Outcome.ok) := by
    rw [GameService.MakeMove_passed h2 14 14 g3 a 8 (by rw [hsa]; decide),
      Game.MakeMove_continue h2 14 g3 a a a 8
        (((NewBoard.MakeMove 4 "X").1.MakeMove 0 "O").1.MakeMove 8 "X").1
        g3s g3t rfl (Game.isPlayerInGame_of_turn h2 g3 a a (Or.inl g3p1) rfl)
        (by rw [hsa, g3b]; decide) (by decide) (by decide) g3p1]
    simp only [if_true, g3p2]
  generalize hg4 : ({ g3 with
      Board := (((NewBoard.MakeMove 4 "X").1.MakeMove 0 "O").1.MakeMove 8 "X").1,
      CurrentTurn := some b } : Game) = g4 at e4
  have g4s : g4.Status = GameStatusActive := by rw [← hg4]; exact g3s
  have g4p2 : g4.Player2 = some b := by rw [← hg4]; exact g3p2
  have g4t : g4.CurrentTurn = some b := by rw [← hg4]
  have g4b : g4.Board =
      (((NewBoard.MakeMove 4 "X").1.MakeMove 0 "O").1.MakeMove 8 "X").1 := by rw [← hg4]
  have erun : GameService.run h1 (NewGame stamp created (some a)) (scenarioCalls a b) =
      ((h2, g4), [Outcome.ok, Outcome.ok, Outcome.ok, Outcome.ok]) := by
    simp only [scenarioCalls, GameService.run, GameService.step, e1, e2, e3, e4]
  rw [erun]
  refine ⟨?_, rfl, g4s, g4t, ?_, ?_⟩
  · rw [← hh1]; rfl
  · show GameService.MakeMove h2 stamped now g4 (some a) 0 = _
    rw [GameService.MakeMove_passed h2 stamped now g4 a 0 (by rw [hsa]; decide)]
    exact Game.MakeMove_wrong_turn h2 now g4 b a 0 g4s g4t hba2
  · show GameService.MakeMove h2 stamped now g4 (some b) 0 = _
    rw [GameService.MakeMove_passed h2 stamped now g4 b 0 (by rw [hsb]; decide),
      Game.MakeMove_board_not_ok h2 now g4 b b 0 g4s g4t rfl
        (Game.isPlayerInGame_of_turn h2 g4 b b (Or.inr g4p2) rfl)
        (by rw [hsb, g4b]; decide)]
    rw [hsb, g4b]
    congr 1

/-- Witness for C12 amended, with alice as A and bob as B: the four calls
succeed, then alice's attempt at position 0 is out of turn and bob's attempt at
position 0 finds the cell occupied. -/
theorem C12_scenario_occupied_cell_witness :
    (GameService.run (Function.update sampleHeap 0 { sampleHeap 0 with Symbol := "X" })
      (NewGame "20240101120000" 10 (some 0)) (scenarioCalls 0 1)).2 =
      [Outcome.ok, Outcome.ok, Outcome.ok, Outcome.ok] ∧
    (GameService.MakeMove
        (GameService.run (Function.update sampleHeap 0 { sampleHeap 0 with Symbol := "X" })
          (NewGame "20240101120000" 10 (some 0)) (scenarioCalls 0 1)).1.1 15 15
        (GameService.run (Function.update sampleHeap 0 { sampleHeap 0 with Symbol := "X" })
          (NewGame "20240101120000" 10 (some 0)) (scenarioCalls 0 1)).1.2 (some 0) 0).2 =
      Outcome.error "not your turn" ∧
    (GameService.MakeMove
        (GameService.run (Function.update sampleHeap 0 { sampleHeap 0 with Symbol := "X" })
          (NewGame "20240101120000" 10 (some 0)) (scenarioCalls 0 1)).1.1 15 15
        (GameService.run (Function.update sampleHeap 0 { sampleHeap 0 with Symbol := "X" })
          (NewGame "20240101120000" 10 (some 0)) (scenarioCalls 0 1)).1.2 (some 1) 0).2 =
      Outcome.error "position already occupied" :=
  ⟨(C12_scenario_occupied_cell sampleHeap 0 1 "20240101120000" 10 15 15 (by decide)).2.1,
    by rw [(C12_scenario_occupied_cell sampleHeap 0 1 "20240101120000" 10 15 15
      (by decide)).2.2.2.2.1],
    by rw [(C12_scenario_occupied_cell sampleHeap 0 1 "20240101120000" 10 15 15
      (by decide)).2.2.2.2.2]⟩

/-! ## Symbols of the players -/

/-- What `GameService.CreateGame` returns for a player that is not nil. -/
theorem GameService.CreateGame_some (h : Heap) (stamp : String) (now : Nat) (a : PlayerRef) :
    GameService.CreateGame h stamp now (some a) =
      some (Function.update h a { h a with Symbol := "X" }, NewGame stamp now (some a)) :=
  rfl

/-- Joining one's own game through the service, with the very player object
that created it: the join is refused, and the symbol of that object is "O"
afterwards. -/
theorem GameService.JoinGame_own_game (h : Heap) (stamp : String) (created now : Nat)
    (a : PlayerRef) (hx : (h a).Symbol = "X") :
    (GameService.JoinGame h now (NewGame stamp created (some a)) (some a)).2 =
        (NewGame stamp created (some a), Outcome.error "player cannot join their own game") ∧
      ((GameService.JoinGame h now (NewGame stamp created (some a)) (some a)).1 a).Symbol =
        "O" ∧
      (h a).Symbol ≠ "O" := by
  rw [GameService.JoinGame_open h now _ a rfl]
  refine ⟨?_, assign_Symbol h a "O", by rw [hx]; decide⟩
  exact Game.JoinGame_self _ now (NewGame stamp created (some a)) a a rfl rfl rfl

/-- C15, the code at the failing input. For any player object `a`: after
`GameService.CreateGame` has given it symbol "X" and made it Player1 of a new
game, `GameService.JoinGame` on that game with the same object returns the
self-join error and leaves the game unchanged, yet the symbol of Player1 is "O"
afterwards. Evaluated for alice: her game is Waiting with Player2 unset and her
symbol is "X" after `CreateGame`, and "O" after her refused join. -/
theorem C15_self_join_overwrites_symbol_of_Player1 :
    (∀ (h : Heap) (stamp : String) (created now : Nat) (a : PlayerRef),
      GameService.CreateGame h stamp created (some a) =
        some (Function.update h a { h a with Symbol := "X" },
          NewGame stamp created (some a)) ∧
      (NewGame stamp created (some a)).Player1 = some a ∧
      (Function.update h a { h a with Symbol := "X" } a).Symbol = "X" ∧
      (GameService.JoinGame (Function.update h a { h a with Symbol := "X" }) now
          (NewGame stamp created (some a)) (some a)).2 =
        (NewGame stamp created (some a),
          Outcome.error "player cannot join their own game") ∧
      ((GameService.JoinGame (Function.update h a { h a with Symbol := "X" }) now
          (NewGame stamp created (some a)) (some a)).1 a).Symbol = "O") ∧
    (GameService.CreateGame sampleHeap "20240101120000" 10 (some 0)).map
        (fun s => (s.2.Status, s.2.Player1, s.2.Player2, (s.1 0).Symbol,
          (GameService.JoinGame s.1 11 s.2 (some 0)).2.2,
          (GameService.JoinGame s.1 11 s.2 (some 0)).2.1.Player1,
          ((GameService.JoinGame s.1 11 s.2 (some 0)).1 0).Symbol)) =
      some (GameStatusWaiting, some 0, none, "X",
        Outcome.error "player cannot join their own game", some 0, "O") := by
  constructor
  · intro h stamp created now a
    have hx : (Function.update h a { h a with Symbol := "X" } a).Symbol = "X" :=
      assign_Symbol h a "X"
    obtain ⟨e1, e2, _⟩ := GameService.JoinGame_own_game
      (Function.update h a { h a with Symbol := "X" }) stamp created now a hx
    exact ⟨GameService.CreateGame_some h stamp created a, rfl, hx, e1, e2⟩
  · rfl

/-! ## The hub mutex -/

theorem RWMutex.Lock_writer (m mu : RWMutex) (hl : m.Lock = some mu) : mu.writer = true := by
  unfold RWMutex.Lock at hl
  split at hl
  · exact absurd hl (by simp)
  · have := Option.some.inj hl
    rw [← this]

theorem RWMutex.RLock_of_writer (m : RWMutex) (hw : m.writer = true) : m.RLock = none := by
  unfold RWMutex.RLock
  rw [if_pos hw]

theorem RWMutex.RLock_of_free (m : RWMutex) (hw : m.writer = false) :
    m.RLock = some { m with readers := m.readers + 1 } := by
  unfold RWMutex.RLock
  rw [if_neg (by simp [hw])]

theorem RWMutex.RUnlock_RLock (m : RWMutex) :
    ({ m with readers := m.readers + 1 } : RWMutex).RUnlock = m := by
  cases m
  simp [RWMutex.RUnlock]

theorem World.withMu_withMu (w : World) (m1 m2 : RWMutex) :
    (w.withMu m1).withMu m2 = w.withMu m2 := rfl

theorem World.withMu_self (w : World) : w.withMu w.hub.mu = w := rfl

/-- Called by a goroutine that holds the write lock, `broadcastToGame` waits for
the read lock for ever and touches nothing. -/
theorem Hub.broadcastToGame_of_writer (j : Codec) (w : World) (gameID : String)
    (message : Payload) (hw : w.hub.mu.writer = true) :
    Hub.broadcastToGame j w gameID message = (w, Exit.blocked) := by
  unfold Hub.broadcastToGame
  rw [RWMutex.RLock_of_writer _ hw]

/-- `registerClient` never returns: either it waits for the write lock, or it
gets it and then waits inside `broadcastToGame` for the read lock while holding
the write lock itself. -/
theorem Hub.registerClient_blocked (j : Codec) (now : Nat) (w : World) (client : ClientRef) :
    (Hub.registerClient j now w client).2 = Exit.blocked := by
  unfold Hub.registerClient
  cases hl : w.hub.mu.Lock with
  | none => rfl
  | some mu =>
    simp only []
    rw [Hub.broadcastToGame_of_writer j _ _ _ (RWMutex.Lock_writer _ mu hl)]

/-- No `Send` channel is touched by `registerClient`. -/
theorem Hub.registerClient_Send (j : Codec) (now : Nat) (w : World) (client : ClientRef) :
    (Hub.registerClient j now w client).1.Send = w.Send := by
  unfold Hub.registerClient
  cases hl : w.hub.mu.Lock with
  | none => rfl
  | some mu =>
    simp only []
    rw [Hub.broadcastToGame_of_writer j _ _ _ (RWMutex.Lock_writer _ mu hl)]

/-- C16, the code at the failing input. For every hub state and every client,
`registerClient` does not return and no queue receives anything. Evaluated for
N = 1 on the hub of `NewHub` with every queue empty: `registerClient` for ann
takes the write lock, puts ann under "g1", and waits in `broadcastToGame` for
the read lock of the mutex it holds. Ann's queue holds no join message; the
write lock stays held, so `GetClientCount` and `GetActiveGames` wait as well,
and so does the next `registerClient`. -/
theorem C16_registerClient_never_returns :
    (∀ (j : Codec) (now : Nat) (w : World) (client : ClientRef),
      (Hub.registerClient j now w client).2 = Exit.blocked ∧
      (Hub.registerClient j now w client).1.Send = w.Send) ∧
    (Hub.registerClient sampleCodec 20 sampleStart 0).2 = Exit.blocked ∧
    (Hub.registerClient sampleCodec 20 sampleStart 0).1.members "g1" = [0] ∧
    ((Hub.registerClient sampleCodec 20 sampleStart 0).1.Send 0).buf = [] ∧
    (Hub.registerClient sampleCodec 20 sampleStart 0).1.hub.mu.writer = true ∧
    Hub.GetClientCount (Hub.registerClient sampleCodec 20 sampleStart 0).1 "g1" = none ∧
    Hub.GetActiveGames (Hub.registerClient sampleCodec 20 sampleStart 0).1 = none ∧
    (Hub.registerClient sampleCodec 21
      (Hub.registerClient sampleCodec 20 sampleStart 0).1 1).2 = Exit.blocked ∧
    ((Hub.registerClient sampleCodec 21
      (Hub.registerClient sampleCodec 20 sampleStart 0).1 1).1.Send 0).buf = [] := by
  refine ⟨fun j now w client =>
    ⟨Hub.registerClient_blocked j now w client, Hub.registerClient_Send j now w client⟩, ?_⟩
  decide

theorem RWMutex.Lock_of_free (m : RWMutex) (hw : m.writer = false) (hr : m.readers = 0) :
    m.Lock = some { m with writer := true } := by
  unfold RWMutex.Lock
  rw [if_neg (by simp [hw, hr])]

theorem RWMutex.Unlock_Lock (m : RWMutex) (hw : m.writer = false) :
    ({ m with writer := true } : RWMutex).Unlock = m := by
  cases m
  simp only [RWMutex.Unlock] at *
  simp [hw]

/-- A client that is not registered under its session: `unregisterClient`
returns and leaves the hub, the queues and the clients as they were. -/
theorem Hub.unregisterClient_absent (j : Codec) (now : Nat) (w : World) (client : ClientRef)
    (hw : w.hub.mu.writer = false) (hr : w.hub.mu.readers = 0)
    (habs : client ∉ w.members (w.client client).GameID) :
    Hub.unregisterClient j now w client = (w, Exit.returned) := by
  unfold Hub.unregisterClient
  rw [RWMutex.Lock_of_free _ hw hr]
  simp only [Client.GetGameID]
  unfold World.members at habs
  cases hlk : w.hub.clients.lookup (w.client client).GameID with
  | none =>
    simp only [World.withMu_withMu]
    rw [RWMutex.Unlock_Lock _ hw]
    rfl
  | some clients =>
    rw [hlk] at habs
    simp only [] at habs
    simp only [if_neg habs, World.withMu_withMu]
    rw [RWMutex.Unlock_Lock _ hw]
    rfl

/-- A registered client with an open queue: `unregisterClient` takes the write
lock, deletes the client, closes its queue, and then waits for ever in
`broadcastToGame`. -/
theorem Hub.unregisterClient_registered (j : Codec) (now : Nat) (w : World)
    (client : ClientRef) (hw : w.hub.mu.writer = false) (hr : w.hub.mu.readers = 0)
    (hreg : client ∈ w.members (w.client client).GameID)
    (hopen : (w.Send client).closed = false) :
    (Hub.unregisterClient j now w client).2 = Exit.blocked := by
  unfold Hub.unregisterClient
  rw [RWMutex.Lock_of_free _ hw hr]
  simp only [Client.GetGameID]
  unfold World.members at hreg
  cases hlk : w.hub.clients.lookup (w.client client).GameID with
  | none => rw [hlk] at hreg; exact absurd hreg (by simp)
  | some clients =>
    rw [hlk] at hreg
    simp only [] at hreg
    have hsend : ((w.withMu { w.hub.mu with writer := true }).deleteClient
        (w.client client).GameID client).Send client = w.Send client := by
      unfold World.deleteClient World.withMu
      simp only [hlk]
    have hmu : (((w.withMu { w.hub.mu with writer := true }).deleteClient
        (w.client client).GameID client).withSend client
          { w.Send client with closed := true }).hub.mu.writer = true := by
      unfold World.deleteClient World.withMu World.withSend
      simp only [hlk]
    simp only [if_pos hreg, hsend, hopen, Bool.false_eq_true, if_false]
    rw [Hub.broadcastToGame_of_writer j _ _ _ hmu]

/-- C17, the code at the failing input. For every hub state in which nobody
holds the mutex and every client registered under its session with an open
queue, `unregisterClient` does not return. Evaluated where ann and ben are
registered under "g1" and cat alone under "g2", all queues empty and open:
`unregisterClient` for ann removes her and closes her queue, but ben's queue
receives no leave message; `unregisterClient` for cat removes her, and the entry
for "g2" stays, with no client. -/
theorem C17_unregisterClient_never_returns :
    (∀ (j : Codec) (now : Nat) (w : World) (client : ClientRef),
      w.hub.mu.writer = false → w.hub.mu.readers = 0 →
      client ∈ w.members (w.client client).GameID → (w.Send client).closed = false →
      (Hub.unregisterClient j now w client).2 = Exit.blocked) ∧
    sampleRegistered.members "g1" = [1, 0] ∧ sampleRegistered.members "g2" = [2] ∧
    (Hub.unregisterClient sampleCodec 20 sampleRegistered 0).2 = Exit.blocked ∧
    (Hub.unregisterClient sampleCodec 20 sampleRegistered 0).1.members "g1" = [1] ∧
    ((Hub.unregisterClient sampleCodec 20 sampleRegistered 0).1.Send 0).closed = true ∧
    ((Hub.unregisterClient sampleCodec 20 sampleRegistered 0).1.Send 1).buf = [] ∧
    (Hub.unregisterClient sampleCodec 20 sampleRegistered 2).2 = Exit.blocked ∧
    (Hub.unregisterClient sampleCodec 20 sampleRegistered 2).1.members "g2" = [] ∧
    (Hub.unregisterClient sampleCodec 20 sampleRegistered 2).1.hub.clients.keys =
      ["g2", "g1"] := by
  refine ⟨fun j now w client hw hr hreg hopen =>
    Hub.unregisterClient_registered j now w client hw hr hreg hopen, ?_⟩
  decide

/-! ## The broadcast loop -/

theorem World.members_nodup (w : World) (gameID : String) : (w.members gameID).Nodup := by
  unfold World.members
  cases w.hub.clients.lookup gameID with
  | none => exact List.nodup_nil
  | some clients => exact clients.keys_nodup

theorem World.members_deleteClient (w : World) (gameID : String) (c : ClientRef) :
    (w.deleteClient gameID c).members gameID = (w.members gameID).erase c := by
  unfold World.deleteClient World.members
  cases hlk : w.hub.clients.lookup gameID with
  | none => simp [hlk]
  | some clients => simp [AList.lookup_insert, AList.keys_erase]

theorem World.lookup_deleteClient_ne (w : World) (gameID s : String) (c : ClientRef)
    (hs : s ≠ gameID) :
    (w.deleteClient gameID c).hub.clients.lookup s = w.hub.clients.lookup s := by
  unfold World.deleteClient
  cases w.hub.clients.lookup gameID with
  | none => rfl
  | some clients => exact AList.lookup_insert_ne hs

theorem World.deleteClient_rest (w : World) (gameID : String) (c : ClientRef) :
    (w.deleteClient gameID c).Send = w.Send ∧ (w.deleteClient gameID c).client = w.client ∧
      (w.deleteClient gameID c).hub.mu = w.hub.mu ∧
      (w.deleteClient gameID c).hub.Unregister = w.hub.Unregister := by
  unfold World.deleteClient
  cases w.hub.clients.lookup gameID with
  | none => exact ⟨rfl, rfl, rfl, rfl⟩
  | some clients => exact ⟨rfl, rfl, rfl, rfl⟩

theorem Hub.broadcastLoop_cons_closed (gameID : String) (jsonData : Bytes) (c : ClientRef)
    (rest : List ClientRef) (w : World) (hc : (w.Send c).closed = true) :
    Hub.broadcastLoop gameID jsonData (c :: rest) w =
      (w, Exit.panicked "send on closed channel") := by
  rw [Hub.broadcastLoop, if_pos hc]

theorem Hub.broadcastLoop_cons_room (gameID : String) (jsonData : Bytes) (c : ClientRef)
    (rest : List ClientRef) (w : World) (hc : (w.Send c).closed = false)
    (hroom : (w.Send c).buf.length < sendCapacity) :
    Hub.broadcastLoop gameID jsonData (c :: rest) w =
      Hub.broadcastLoop gameID jsonData rest
        (w.withSend c { w.Send c with buf := (w.Send c).buf ++ [jsonData] }) := by
  rw [Hub.broadcastLoop, if_neg (by simp [hc]), if_pos hroom]

theorem Hub.broadcastLoop_cons_full (gameID : String) (jsonData : Bytes) (c : ClientRef)
    (rest : List ClientRef) (w : World) (hc : (w.Send c).closed = false)
    (hfull : ¬ (w.Send c).buf.length < sendCapacity) :
    Hub.broadcastLoop gameID jsonData (c :: rest) w =
      Hub.broadcastLoop gameID jsonData rest
        ((w.withSend c { w.Send c with closed := true }).deleteClient gameID c) := by
  rw [Hub.broadcastLoop, if_neg (by simp [hc]), if_neg hfull]

/-- What the loop leaves alone, however it ends: the queues of the clients it
does not visit, the entries of the other sessions, the client objects, the mutex
and the pending unregistrations. -/
theorem Hub.broadcastLoop_frame (gameID : String) (jsonData : Bytes) :
    ∀ (l : List ClientRef) (w : World),
      (∀ d, d ∉ l → (Hub.broadcastLoop gameID jsonData l w).1.Send d = w.Send d) ∧
      (∀ s, s ≠ gameID →
        (Hub.broadcastLoop gameID jsonData l w).1.hub.clients.lookup s =
          w.hub.clients.lookup s) ∧
      (Hub.broadcastLoop gameID jsonData l w).1.client = w.client ∧
      (Hub.broadcastLoop gameID jsonData l w).1.hub.mu = w.hub.mu ∧
      (Hub.broadcastLoop gameID jsonData l w).1.hub.Unregister = w.hub.Unregister := by
  intro l
  induction l with
  | nil => intro w; exact ⟨fun _ _ => rfl, fun _ _ => rfl, rfl, rfl, rfl⟩
  | cons c rest ih =>
    intro w
    by_cases hc : (w.Send c).closed = true
    · rw [Hub.broadcastLoop_cons_closed gameID jsonData c rest w hc]
      exact ⟨fun _ _ => rfl, fun _ _ => rfl, rfl, rfl, rfl⟩
    have hc2 : (w.Send c).closed = false := by simpa using hc
    by_cases hroom : (w.Send c).buf.length < sendCapacity
    · rw [Hub.broadcastLoop_cons_room gameID jsonData c rest w hc2 hroom]
      obtain ⟨h1, h2, h3, h4, h5⟩ :=
        ih (w.withSend c { w.Send c with buf := (w.Send c).buf ++ [jsonData] })
      refine ⟨fun d hd => ?_, fun s hs => ?_, h3, h4, h5⟩
      · rw [h1 d (fun hm => hd (List.mem_cons_of_mem c hm))]
        exact Function.update_noteq (fun e => hd (by rw [e]; exact List.mem_cons_self c rest))
          _ _
      · rw [h2 s hs]; rfl
    · rw [Hub.broadcastLoop_cons_full gameID jsonData c rest w hc2 hroom]
      obtain ⟨h1, h2, h3, h4, h5⟩ :=
        ih ((w.withSend c { w.Send c with closed := true }).deleteClient gameID c)
      obtain ⟨d1, d2, d3, d4⟩ :=
        World.deleteClient_rest (w.withSend c { w.Send c with closed := true }) gameID c
      refine ⟨fun d hd => ?_, fun s hs => ?_, ?_, ?_, ?_⟩
      · rw [h1 d (fun hm => hd (List.mem_cons_of_mem c hm)), d1]
        exact Function.update_noteq (fun e => hd (by rw [e]; exact List.mem_cons_self c rest))
          _ _
      · rw [h2 s hs, World.lookup_deleteClient_ne _ gameID s c hs]; rfl
      · rw [h3, d2]; rfl
      · rw [h4, d3]; rfl
      · rw [h5, d4]; rfl

/-- The loop over clients whose queues are all open, each visited once: it
returns; a client with room gets the frame at the end of its queue and stays
registered; a client without room has its queue closed and is deleted from the
session. -/
theorem Hub.broadcastLoop_open (gameID : String) (jsonData : Bytes) :
    ∀ (l : List ClientRef) (w : World), l.Nodup →
      (∀ d ∈ l, (w.Send d).closed = false) →
      (Hub.broadcastLoop gameID jsonData l w).2 = Exit.returned ∧
      (∀ d ∈ l, (w.Send d).buf.length < sendCapacity →
        (Hub.broadcastLoop gameID jsonData l w).1.Send d =
          { w.Send d with buf := (w.Send d).buf ++ [jsonData] }) ∧
      (∀ d ∈ l, ¬ (w.Send d).buf.length < sendCapacity →
        (Hub.broadcastLoop gameID jsonData l w).1.Send d =
          { w.Send d with closed := true }) ∧
      (∀ d, d ∈ (Hub.broadcastLoop gameID jsonData l w).1.members gameID ↔
        d ∈ w.members gameID ∧ ¬ (d ∈ l ∧ ¬ (w.Send d).buf.length < sendCapacity)) := by
  intro l
  induction l with
  | nil =>
    intro w _ _
    exact ⟨rfl, fun d hd => absurd hd (List.not_mem_nil d),
      fun d hd => absurd hd (List.not_mem_nil d),
      fun d => ⟨fun hm => ⟨hm, fun hx => absurd hx.1 (List.not_mem_nil d)⟩, fun hm => hm.1⟩⟩
  | cons c rest ih =>
    intro w hnd hopen
    have hcr : c ∉ rest := (List.nodup_cons.mp hnd).1
    have hndr : rest.Nodup := (List.nodup_cons.mp hnd).2
    have hc2 : (w.Send c).closed = false := hopen c (List.mem_cons_self c rest)
    by_cases hroom : (w.Send c).buf.length < sendCapacity
    · rw [Hub.broadcastLoop_cons_room gameID jsonData c rest w hc2 hroom]
      have hsame : ∀ d, d ≠ c →
          (w.withSend c { w.Send c with buf := (w.Send c).buf ++ [jsonData] }).Send d =
            w.Send d := fun d hd => Function.update_noteq hd _ _
      have hopen2 : ∀ d ∈ rest,
          ((w.withSend c { w.Send c with buf := (w.Send c).buf ++ [jsonData] }).Send d).closed =
            false := fun d hd => by
        rw [hsame d (fun e => hcr (e ▸ hd))]
        exact hopen d (List.mem_cons_of_mem c hd)
      obtain ⟨i1, i2, i3, i4⟩ :=
        ih (w.withSend c { w.Send c with buf := (w.Send c).buf ++ [jsonData] }) hndr hopen2
      have hfr := (Hub.broadcastLoop_frame gameID jsonData rest
        (w.withSend c { w.Send c with buf := (w.Send c).buf ++ [jsonData] })).1 c hcr
      refine ⟨i1, fun d hd hr => ?_, fun d hd hr => ?_, fun d => ?_⟩
      · rcases List.mem_cons.mp hd with e | hm
        · subst e
          rw [hfr]
          exact Function.update_same _ _ _
        · have hdc : d ≠ c := fun e => hcr (e ▸ hm)
          rw [i2 d hm (by rw [hsame d hdc]; exact hr), hsame d hdc]
      · rcases List.mem_cons.mp hd with e | hm
        · subst e; exact absurd hroom hr
        · have hdc : d ≠ c := fun e => hcr (e ▸ hm)
          rw [i3 d hm (by rw [hsame d hdc]; exact hr), hsame d hdc]
      · rw [i4 d]
        have hmem : (w.withSend c
            { w.Send c with buf := (w.Send c).buf ++ [jsonData] }).members gameID =
              w.members gameID := rfl
        rw [hmem]
        constructor
        · rintro ⟨hm, hn⟩
          refine ⟨hm, fun hx => ?_⟩
          rcases List.mem_cons.mp hx.1 with e | hr
          · subst e; exact hx.2 hroom
          · have hdc : d ≠ c := fun e => hcr (e ▸ hr)
            exact hn ⟨hr, by rw [hsame d hdc]; exact hx.2⟩
        · rintro ⟨hm, hn⟩
          refine ⟨hm, fun hx => ?_⟩
          have hdc : d ≠ c := fun e => hcr (e ▸ hx.1)
          exact hn ⟨List.mem_cons_of_mem c hx.1, by rw [← hsame d hdc]; exact hx.2⟩
    · rw [Hub.broadcastLoop_cons_full gameID jsonData c rest w hc2 hroom]
      obtain ⟨d1, _, _, _⟩ :=
        World.deleteClient_rest (w.withSend c { w.Send c with closed := true }) gameID c
      have hsame : ∀ d, d ≠ c →
          ((w.withSend c { w.Send c with closed := true }).deleteClient gameID c).Send d =
            w.Send d := fun d hd => by
        rw [d1]; exact Function.update_noteq hd _ _
      have hopen2 : ∀ d ∈ rest,
          (((w.withSend c { w.Send c with closed := true }).deleteClient gameID c).Send
            d).closed = false := fun d hd => by
        rw [hsame d (fun e => hcr (e ▸ hd))]
        exact hopen d (List.mem_cons_of_mem c hd)
      obtain ⟨i1, i2, i3, i4⟩ :=
        ih ((w.withSend c { w.Send c with closed := true }).deleteClient gameID c) hndr hopen2
      have hfr := (Hub.broadcastLoop_frame gameID jsonData rest
        ((w.withSend c { w.Send c with closed := true }).deleteClient gameID c)).1 c hcr
      refine ⟨i1, fun d hd hr => ?_, fun d hd hr => ?_, fun d => ?_⟩
      · rcases List.mem_cons.mp hd with e | hm
        · subst e; exact absurd hr hroom
        · have hdc : d ≠ c := fun e => hcr (e ▸ hm)
          rw [i2 d hm (by rw [hsame d hdc]; exact hr), hsame d hdc]
      · rcases List.mem_cons.mp hd with e | hm
        · subst e
          rw [hfr, d1]
          exact Function.update_same _ _ _
        · have hdc : d ≠ c := fun e => hcr (e ▸ hm)
          rw [i3 d hm (by rw [hsame d hdc]; exact hr), hsame d hdc]
      · rw [i4 d, World.members_deleteClient]
        have hmem : (w.withSend c { w.Send c with closed := true }).members gameID =
            w.members gameID := rfl
        rw [hmem, (World.members_nodup w gameID).mem_erase_iff]
        constructor
        · rintro ⟨⟨hdc, hm⟩, hn⟩
          refine ⟨hm, fun hx => ?_⟩
          rcases List.mem_cons.mp hx.1 with e | hr
          · exact hdc e
          · exact hn ⟨hr, by rw [hsame d hdc]; exact hx.2⟩
        · rintro ⟨hm, hn⟩
          have hdc : d ≠ c := fun e => hn ⟨e ▸ List.mem_cons_self c rest, e ▸ hroom⟩
          refine ⟨⟨hdc, hm⟩, fun hx => ?_⟩
          exact hn ⟨List.mem_cons_of_mem c hx.1, by rw [← hsame d hdc]; exact hx.2⟩

/-! ## `Hub.broadcastToGame` -/

theorem World.withMu_RUnlock_RLock (w : World) :
    (w.withMu { w.hub.mu with readers := w.hub.mu.readers + 1 }).withMu
      ({ w.hub.mu with readers := w.hub.mu.readers + 1 } : RWMutex).RUnlock = w := by
  rw [World.withMu_withMu, RWMutex.RUnlock_RLock]
  rfl

/-- With no entry for the session, `broadcastToGame` leaves the world as it
was. -/
theorem Hub.broadcastToGame_no_session (j : Codec) (w : World) (gameID : String)
    (message : Payload) (hno : w.hub.clients.lookup gameID = none) :
    (Hub.broadcastToGame j w gameID message).1 = w ∧
      (w.hub.mu.writer = false →
        (Hub.broadcastToGame j w gameID message).2 = Exit.returned) := by
  by_cases hw : w.hub.mu.writer = true
  · rw [Hub.broadcastToGame_of_writer j w gameID message hw]
    exact ⟨rfl, fun hf => absurd hw (by simp [hf])⟩
  · have hf : w.hub.mu.writer = false := by simpa using hw
    have he : Hub.broadcastToGame j w gameID message = (w, Exit.returned) := by
      unfold Hub.broadcastToGame
      rw [RWMutex.RLock_of_free _ hf]
      simp only [hno]
      rw [World.withMu_RUnlock_RLock w]
    rw [he]
    exact ⟨rfl, fun _ => rfl⟩

/-- What `broadcastToGame` leaves alone, however it ends. -/
theorem Hub.broadcastToGame_frame (j : Codec) (w : World) (gameID : String)
    (message : Payload) :
    (∀ d, d ∉ w.members gameID → (Hub.broadcastToGame j w gameID message).1.Send d = w.Send d) ∧
      (∀ s, s ≠ gameID →
        (Hub.broadcastToGame j w gameID message).1.hub.clients.lookup s =
          w.hub.clients.lookup s) ∧
      (Hub.broadcastToGame j w gameID message).1.client = w.client ∧
      (Hub.broadcastToGame j w gameID message).1.hub.mu = w.hub.mu ∧
      (Hub.broadcastToGame j w gameID message).1.hub.Unregister = w.hub.Unregister := by
  by_cases hw : w.hub.mu.writer = true
  · rw [Hub.broadcastToGame_of_writer j w gameID message hw]
    exact ⟨fun _ _ => rfl, fun _ _ => rfl, rfl, rfl, rfl⟩
  have hf : w.hub.mu.writer = false := by simpa using hw
  have hlk : w.hub.clients.lookup gameID = none ∨
      ∃ clients, w.hub.clients.lookup gameID = some clients := by
    cases w.hub.clients.lookup gameID <;> simp
  rcases hlk with hno | ⟨clients, hsome⟩
  · rw [(Hub.broadcastToGame_no_session j w gameID message hno).1]
    exact ⟨fun _ _ => rfl, fun _ _ => rfl, rfl, rfl, rfl⟩
  have hmem : w.members gameID = clients.keys := by
    unfold World.members; rw [hsome]
  unfold Hub.broadcastToGame
  rw [RWMutex.RLock_of_free _ hf]
  simp only [hsome]
  cases j.Marshal message with
  | none =>
    simp only []
    rw [World.withMu_RUnlock_RLock w]
    exact ⟨fun _ _ => rfl, fun _ _ => rfl, rfl, rfl, rfl⟩
  | some jsonData =>
    simp only []
    obtain ⟨h1, h2, h3, h4, h5⟩ := Hub.broadcastLoop_frame gameID jsonData clients.keys
      (w.withMu { w.hub.mu with readers := w.hub.mu.readers + 1 })
    refine ⟨fun d hd => ?_, fun s hs => ?_, ?_, ?_, ?_⟩
    · rw [hmem] at hd
      exact h1 d hd
    · exact h2 s hs
    · exact h3
    · show RWMutex.RUnlock _ = _
      rw [h4]
      exact RWMutex.RUnlock_RLock w.hub.mu
    · exact h5

/-- The broadcast of an encodable value to a session whose queues are all open,
nobody holding the write lock: the call returns; a client with room gets the
frame at the end of its queue and stays registered; a client without room has
its queue closed and is deleted from the session. -/
theorem Hub.broadcastToGame_open (j : Codec) (w : World) (gameID : String)
    (message : Payload) (jsonData : Bytes) (hf : w.hub.mu.writer = false)
    (henc : j.Marshal message = some jsonData)
    (hopen : ∀ d ∈ w.members gameID, (w.Send d).closed = false) :
    (Hub.broadcastToGame j w gameID message).2 = Exit.returned ∧
      (∀ d ∈ w.members gameID, (w.Send d).buf.length < sendCapacity →
        (Hub.broadcastToGame j w gameID message).1.Send d =
          { w.Send d with buf := (w.Send d).buf ++ [jsonData] }) ∧
      (∀ d ∈ w.members gameID, ¬ (w.Send d).buf.length < sendCapacity →
        (Hub.broadcastToGame j w gameID message).1.Send d =
          { w.Send d with closed := true }) ∧
      (∀ d, d ∈ (Hub.broadcastToGame j w gameID message).1.members gameID ↔
        d ∈ w.members gameID ∧ (w.Send d).buf.length < sendCapacity) := by
  have hlk : w.hub.clients.lookup gameID = none ∨
      ∃ clients, w.hub.clients.lookup gameID = some clients := by
    cases w.hub.clients.lookup gameID <;> simp
  rcases hlk with hno | ⟨clients, hsome⟩
  · have hmem : w.members gameID = [] := by
      unfold World.members; rw [hno]
    obtain ⟨e1, e2⟩ := Hub.broadcastToGame_no_session j w gameID message hno
    rw [e1, hmem]
    exact ⟨e2 hf, fun d hd => absurd hd (List.not_mem_nil d),
      fun d hd => absurd hd (List.not_mem_nil d),
      fun d => ⟨fun hm => absurd hm (List.not_mem_nil d), fun hm => hm.1⟩⟩
  have hmem : w.members gameID = clients.keys := by
    unfold World.members; rw [hsome]
  rw [hmem] at hopen
  obtain ⟨i1, i2, i3, i4⟩ := Hub.broadcastLoop_open gameID jsonData clients.keys
    (w.withMu { w.hub.mu with readers := w.hub.mu.readers + 1 }) clients.keys_nodup hopen
  have hstep : Hub.broadcastToGame j w gameID message =
      (((Hub.broadcastLoop gameID jsonData clients.keys
          (w.withMu { w.hub.mu with readers := w.hub.mu.readers + 1 })).1.withMu
        (Hub.broadcastLoop gameID jsonData clients.keys
          (w.withMu { w.hub.mu with readers := w.hub.mu.readers + 1 })).1.hub.mu.RUnlock),
        (Hub.broadcastLoop gameID jsonData clients.keys
          (w.withMu { w.hub.mu with readers := w.hub.mu.readers + 1 })).2) := by
    unfold Hub.broadcastToGame
    rw [RWMutex.RLock_of_free _ hf]
    simp only [hsome, henc]
  rw [hstep, hmem]
  refine ⟨i1, fun d hd hr => i2 d hd hr, fun d hd hr => i3 d hd hr, fun d => ?_⟩
  have hm2 : (w.withMu { w.hub.mu with readers := w.hub.mu.readers + 1 }).members gameID =
      clients.keys := hmem
  have hi := i4 d
  rw [hm2] at hi
  constructor
  · intro hd
    have := hi.mp hd
    refine ⟨this.1, ?_⟩
    by_contra hr
    exact this.2 ⟨this.1, hr⟩
  · rintro ⟨hd, hr⟩
    exact hi.mpr ⟨hd, fun hx => hx.2 hr⟩

/-- C18: `broadcastMessage(m)` changes nothing but the queues and the membership
of the clients registered under `m.GameID`. When there is no entry for
`m.GameID` the whole world is as it was. Otherwise, however the call ends: a
client registered under another session id, and not under `m.GameID` as well,
is still registered there and keeps its queue, which holds of every client
registered under another session id when clients are registered under their own
game id; the entry of every other session is as it was; every client not
registered under `m.GameID` keeps its queue; and the client objects, the mutex
and the pending unregistrations are as they were. -/
theorem C18_broadcastMessage_frame (j : Codec) (w : World) (m : Message) :
    (w.hub.clients.lookup m.GameID = none → (Hub.broadcastMessage j w m).1 = w) ∧
    (∀ s c, s ≠ m.GameID → c ∈ w.members s → c ∉ w.members m.GameID →
      c ∈ (Hub.broadcastMessage j w m).1.members s ∧
      (Hub.broadcastMessage j w m).1.Send c = w.Send c) ∧
    (w.RegisteredByGameID → ∀ s c, s ≠ m.GameID → c ∈ w.members s →
      c ∈ (Hub.broadcastMessage j w m).1.members s ∧
      (Hub.broadcastMessage j w m).1.Send c = w.Send c) ∧
    (∀ s, s ≠ m.GameID →
      (Hub.broadcastMessage j w m).1.hub.clients.lookup s = w.hub.clients.lookup s) ∧
    (∀ c, c ∉ w.members m.GameID → (Hub.broadcastMessage j w m).1.Send c = w.Send c) ∧
    (Hub.broadcastMessage j w m).1.client = w.client ∧
    (Hub.broadcastMessage j w m).1.hub.mu = w.hub.mu ∧
    (Hub.broadcastMessage j w m).1.hub.Unregister = w.hub.Unregister := by
  unfold Hub.broadcastMessage
  obtain ⟨h1, h2, h3, h4, h5⟩ :=
    Hub.broadcastToGame_frame j w m.GameID (Payload.message m)
  have hmem : ∀ s, s ≠ m.GameID →
      (Hub.broadcastToGame j w m.GameID (Payload.message m)).1.members s = w.members s := by
    intro s hs
    unfold World.members
    rw [h2 s hs]
  refine ⟨fun hno => (Hub.broadcastToGame_no_session j w m.GameID _ hno).1,
    fun s c hs hc hn => ⟨by rw [hmem s hs]; exact hc, h1 c hn⟩,
    fun hreg s c hs hc => ⟨by rw [hmem s hs]; exact hc, h1 c (fun hm => ?_)⟩,
    h2, h1, h3, h4, h5⟩
  exact hs ((hreg s c hc).symm.trans (hreg m.GameID c hm))

/-- Witness for C18: a message for "g1" leaves cat, registered under "g2",
registered and with her queue as it was; a message for "g9", a session without
entry, leaves the world as it was. -/
theorem C18_broadcastMessage_frame_witness :
    (2 ∈ (Hub.broadcastMessage sampleCodec sampleRegistered
        (NewMessage 20 MessageTypeSystem "hello" "System" "g1")).1.members "g2" ∧
      (Hub.broadcastMessage sampleCodec sampleRegistered
        (NewMessage 20 MessageTypeSystem "hello" "System" "g1")).1.Send 2 =
        sampleRegistered.Send 2) ∧
    (Hub.broadcastMessage sampleCodec sampleRegistered
      (NewMessage 20 MessageTypeSystem "hello" "System" "g9")).1 = sampleRegistered :=
  ⟨(C18_broadcastMessage_frame sampleCodec sampleRegistered
      (NewMessage 20 MessageTypeSystem "hello" "System" "g1")).2.1 "g2" 2 (by decide)
      (by decide) (by decide),
    (C18_broadcastMessage_frame sampleCodec sampleRegistered
      (NewMessage 20 MessageTypeSystem "hello" "System" "g9")).1 (by decide)⟩

/-- C19: a broadcast of an encodable value to a session, nobody holding the
write lock, in which the queue of client `c` is open and holds 256 messages
while the queues of the other clients of the session are open and have room:
the call returns, `c` is no longer in the client set of the session, the queue
of `c` is closed with its content as it was, and every other client of the
session has the frame appended to its queue and is still registered. -/
theorem C19_broadcast_drops_full_client (j : Codec) (w : World) (gameID : String)
    (message : Payload) (jsonData : Bytes) (c : ClientRef)
    (hf : w.hub.mu.writer = false) (henc : j.Marshal message = some jsonData)
    (hc : c ∈ w.members gameID) (hcopen : (w.Send c).closed = false)
    (hcfull : (w.Send c).buf.length = 256)
    (hothers : ∀ d ∈ w.members gameID, d ≠ c →
      (w.Send d).closed = false ∧ (w.Send d).buf.length < 256) :
    (Hub.broadcastToGame j w gameID message).2 = Exit.returned ∧
    c ∉ (Hub.broadcastToGame j w gameID message).1.members gameID ∧
    (Hub.broadcastToGame j w gameID message).1.Send c = { w.Send c with closed := true } ∧
    (∀ d ∈ w.members gameID, d ≠ c →
      (Hub.broadcastToGame j w gameID message).1.Send d =
        { w.Send d with buf := (w.Send d).buf ++ [jsonData] } ∧
      d ∈ (Hub.broadcastToGame j w gameID message).1.members gameID) := by
  have hopen : ∀ d ∈ w.members gameID, (w.Send d).closed = false := by
    intro d hd
    by_cases hdc : d = c
    · rw [hdc]; exact hcopen
    · exact (hothers d hd hdc).1
  have hnoroom : ¬ (w.Send c).buf.length < sendCapacity := by
    rw [hcfull]; decide
  obtain ⟨h1, h2, h3, h4⟩ :=
    Hub.broadcastToGame_open j w gameID message jsonData hf henc hopen
  refine ⟨h1, fun hm => hnoroom ((h4 c).mp hm).2, h3 c hc hnoroom, fun d hd hdc => ?_⟩
  have hroom : (w.Send d).buf.length < sendCapacity := (hothers d hd hdc).2
  exact ⟨h2 d hd hroom, (h4 d).mpr ⟨hd, hroom⟩⟩

set_option maxRecDepth 100000 in
/-- Witness for C19: ann's queue holds 256 messages, ben's is empty; a join
message broadcast to "g1" closes ann's queue and removes her from the session,
and ben's queue holds the frame. -/
theorem C19_broadcast_drops_full_client_witness :
    0 ∉ (Hub.broadcastToGame sampleCodec (sampleRegistered.withSend 0 fullChan) "g1"
      (Payload.join (NewJoinMessage 20 "ann" "g1" 2))).1.members "g1" ∧
    ((Hub.broadcastToGame sampleCodec (sampleRegistered.withSend 0 fullChan) "g1"
      (Payload.join (NewJoinMessage 20 "ann" "g1" 2))).1.Send 0).closed = true ∧
    ((Hub.broadcastToGame sampleCodec (sampleRegistered.withSend 0 fullChan) "g1"
      (Payload.join (NewJoinMessage 20 "ann" "g1" 2))).1.Send 1).buf = ["join/ann/2"] :=
  ⟨(C19_broadcast_drops_full_client sampleCodec (sampleRegistered.withSend 0 fullChan) "g1"
      (Payload.join (NewJoinMessage 20 "ann" "g1" 2)) "join/ann/2" 0 (by decide) (by decide)
      (by decide) (by decide) (by decide) (by decide)).2.1,
    by
      rw [(C19_broadcast_drops_full_client sampleCodec (sampleRegistered.withSend 0 fullChan)
        "g1" (Payload.join (NewJoinMessage 20 "ann" "g1" 2)) "join/ann/2" 0 (by decide)
        (by decide) (by decide) (by decide) (by decide) (by decide)).2.2.1],
    by
      rw [((C19_broadcast_drops_full_client sampleCodec (sampleRegistered.withSend 0 fullChan)
        "g1" (Payload.join (NewJoinMessage 20 "ann" "g1" 2)) "join/ann/2" 0 (by decide)
        (by decide) (by decide) (by decide) (by decide) (by decide)).2.2.2 1 (by decide)
        (by decide)).1]
      decide⟩

/-! ## Chat messages -/

theorem Client.SendMessage_room (w : World) (c : ClientRef) (message : Bytes)
    (hopen : (w.Send c).closed = false) (hroom : (w.Send c).buf.length < sendCapacity) :
    Client.SendMessage w c message =
      (w.withSend c { w.Send c with buf := (w.Send c).buf ++ [message] }, Exit.returned) := by
  unfold Client.SendMessage
  rw [if_neg (by simp [hopen]), if_pos hroom]

theorem Hub.HandleMessage_chat (j : Codec) (now : Nat) (w : World) (client : ClientRef)
    (raw : Bytes) (decoded : Message) (hdec : j.Unmarshal raw = some decoded)
    (hchat : decoded.MsgType = MessageTypeChat) :
    Hub.HandleMessage j now w client raw =
      Hub.handleChatMessage j now w client
        { decoded with
            Username := (w.client client).GetUsername
            GameID := (w.client client).GetGameID
            Timestamp := now } := by
  unfold Hub.HandleMessage
  rw [hdec]
  simp only [hchat, if_true]

/-- C20 as stated fails: ann, registered under "g1" with ben, sends a chat
message whose content is 67 characters long, each of three bytes, 201 bytes in
all. The content has at most 200 characters, yet the message is rejected: ben's
queue receives nothing, and ann's queue receives the encoding of the `Message`
embedded in the error message. -/
theorem C20_short_in_characters_yet_rejected :
    (String.mk (List.replicate 67 '€')).length = 67 ∧
    (String.mk (List.replicate 67 '€')).utf8ByteSize = 201 ∧
    sampleCodec.Unmarshal (String.mk (List.replicate 67 '€')) =
      some { MsgType := MessageTypeChat, Content := String.mk (List.replicate 67 '€'),
             Username := "forged", GameID := "forged", Timestamp := 0, Data := none } ∧
    sampleRegistered.members "g1" = [1, 0] ∧
    ((Hub.HandleMessage sampleCodec 20 sampleRegistered 0
      (String.mk (List.replicate 67 '€'))).1.Send 1).buf = [] ∧
    ((Hub.HandleMessage sampleCodec 20 sampleRegistered 0
      (String.mk (List.replicate 67 '€'))).1.Send 0).buf =
      ["message/error/Message too long"] := by
  decide

/-- C20, amended: for every client `c` and every decoded message of type chat,
`HandleMessage` rejects the message exactly when its content is longer than 200
bytes. In that case, when the queue of `c` is open and holds fewer than 256
frames, the call returns, the encoding `ToJSON` gives of the error message built
with "MESSAGE_TOO_LONG" and "Message too long" is appended to the queue of `c`,
and no other queue and nothing in the hub changes. When the content has at most
200 bytes, nobody holds the write lock and the queues of the session of `c` are
open, the call returns and every client registered under the session of `c`
whose queue holds fewer than 256 frames has appended to its queue the encoding
of a chat message with the same content, the username of `c` and the session id
of `c`. -/
theorem C20_HandleMessage_chat_length (j : Codec) (now : Nat) (w : World) (c : ClientRef)
    (raw : Bytes) (decoded : Message) (hdec : j.Unmarshal raw = some decoded)
    (hchat : decoded.MsgType = MessageTypeChat) :
    (decoded.Content.utf8ByteSize > 200 →
      ∀ jsonData,
        (NewErrorMessage now "MESSAGE_TOO_LONG" "Message too long"
          (w.client c).GameID).toMessage.ToJSON j = some jsonData →
        (w.Send c).closed = false → (w.Send c).buf.length < 256 →
        (Hub.HandleMessage j now w c raw).2 = Exit.returned ∧
        (Hub.HandleMessage j now w c raw).1.Send c =
          { w.Send c with buf := (w.Send c).buf ++ [jsonData] } ∧
        (∀ d, d ≠ c → (Hub.HandleMessage j now w c raw).1.Send d = w.Send d) ∧
        (Hub.HandleMessage j now w c raw).1.hub = w.hub) ∧
    (decoded.Content.utf8ByteSize ≤ 200 →
      ∀ jsonData,
        j.Marshal (Payload.chat (NewChatMessage now decoded.Content (w.client c).Username
          (w.client c).GameID false)) = some jsonData →
        w.hub.mu.writer = false →
        (∀ d ∈ w.members (w.client c).GameID, (w.Send d).closed = false) →
        (Hub.HandleMessage j now w c raw).2 = Exit.returned ∧
        (∀ d ∈ w.members (w.client c).GameID, (w.Send d).buf.length < 256 →
          (Hub.HandleMessage j now w c raw).1.Send d =
            { w.Send d with buf := (w.Send d).buf ++ [jsonData] })) := by
  rw [Hub.HandleMessage_chat j now w c raw decoded hdec hchat]
  constructor
  · intro hlong jsonData henc hopen hroom
    have hstep : Hub.handleChatMessage j now w c
        { decoded with
            Username := (w.client c).GetUsername
            GameID := (w.client c).GetGameID
            Timestamp := now } =
        (w.withSend c { w.Send c with buf := (w.Send c).buf ++ [jsonData] },
          Exit.returned) := by
      unfold Hub.handleChatMessage Hub.replyError
      simp only [if_pos hlong, Client.GetGameID]
      rw [henc]
      exact Client.SendMessage_room w c jsonData hopen hroom
    rw [hstep]
    exact ⟨rfl, Function.update_same _ _ _, fun d hd => Function.update_noteq hd _ _, rfl⟩
  · intro hshort jsonData henc hf hopen
    have hstep : Hub.handleChatMessage j now w c
        { decoded with
            Username := (w.client c).GetUsername
            GameID := (w.client c).GetGameID
            Timestamp := now } =
        Hub.broadcastToGame j w (w.client c).GameID
          (Payload.chat (NewChatMessage now decoded.Content (w.client c).Username
            (w.client c).GameID false)) := by
      unfold Hub.handleChatMessage
      simp only [if_neg (not_lt.mpr hshort), Client.GetGameID, Client.GetUsername]
    rw [hstep]
    obtain ⟨h1, h2, _, _⟩ := Hub.broadcastToGame_open j w (w.client c).GameID _ jsonData hf
      henc hopen
    exact ⟨h1, fun d hd hr => h2 d hd hr⟩

/-- Witness for C20 amended: ann's chat message "hello" reaches ben's queue as a
chat frame; her message of 201 bytes is answered on her own queue and ben's
queue is as it was. -/
theorem C20_HandleMessage_chat_length_witness :
    ((Hub.HandleMessage sampleCodec 20 sampleRegistered 0 "hello").1.Send 1).buf =
      ["chat/hello"] ∧
    ((Hub.HandleMessage sampleCodec 20 sampleRegistered 0
      (String.mk (List.replicate 67 '€'))).1.Send 0).buf =
      ["message/error/Message too long"] ∧
    (Hub.HandleMessage sampleCodec 20 sampleRegistered 0
      (String.mk (List.replicate 67 '€'))).1.Send 1 = sampleRegistered.Send 1 :=
  ⟨by
      rw [((C20_HandleMessage_chat_length sampleCodec 20 sampleRegistered 0 "hello"
        { MsgType := MessageTypeChat, Content := "hello", Username := "forged",
          GameID := "forged", Timestamp := 0, Data := none } (by decide) (by decide)).2
        (by decide) "chat/hello" (by decide) (by decide) (by decide)).2 1 (by decide)
        (by decide)]
      decide,
    by
      rw [((C20_HandleMessage_chat_length sampleCodec 20 sampleRegistered 0
        (String.mk (List.replicate 67 '€'))
        { MsgType := MessageTypeChat, Content := String.mk (List.replicate 67 '€'),
          Username := "forged", GameID := "forged", Timestamp := 0, Data := none }
        (by decide) (by decide)).1 (by decide) "message/error/Message too long" (by decide)
        (by decide) (by decide)).2.1]
      decide,
    ((C20_HandleMessage_chat_length sampleCodec 20 sampleRegistered 0
      (String.mk (List.replicate 67 '€'))
      { MsgType := MessageTypeChat, Content := String.mk (List.replicate 67 '€'),
        Username := "forged", GameID := "forged", Timestamp := 0, Data := none }
      (by decide) (by decide)).1 (by decide) "message/error/Message too long" (by decide)
      (by decide) (by decide)).2.2.1 1 (by decide)⟩

/-! ## Cells are written once -/

/-- A call of `Board.MakeMove` leaves every non-empty cell as it is. -/
theorem Board.MakeMove_keeps (b : Board) (p : Int) (s : String) (i j : Fin 3)
    (hne : b.cells i j ≠ "") : (b.MakeMove p s).1.cells i j = b.cells i j := by
  by_cases h : p < 0 ∨ p > 8
  · rw [Board.MakeMove_out_of_range b p s h]
  · by_cases hs : s ≠ "X" ∧ s ≠ "O"
    · rw [Board.MakeMove_bad_symbol b p s h hs]
    · by_cases hc : b.cells (rowOf p h) (colOf p h) = ""
      · rw [Board.MakeMove_free b p s h hs hc]
        simp only []
        by_cases hij : i = rowOf p h ∧ j = colOf p h
        · exact absurd (by rw [hij.1, hij.2]; exact hc) hne
        · rw [if_neg hij]
      · rw [Board.MakeMove_occupied b p s h hs hc]

theorem Board.run_of_nil (b : Board) : b.run [] = b := rfl

theorem Board.run_of_cons (b : Board) (c : Int × String) (calls : List (Int × String)) :
    b.run (c :: calls) = (b.MakeMove c.1 c.2).1.run calls := rfl

theorem Board.run_of_append (b : Board) (calls later : List (Int × String)) :
    b.run (calls ++ later) = (b.run calls).run later := by
  unfold Board.run
  rw [List.foldl_append]

theorem Board.run_keeps (b : Board) (calls : List (Int × String)) (i j : Fin 3)
    (hne : b.cells i j ≠ "") : (b.run calls).cells i j = b.cells i j := by
  induction calls generalizing b with
  | nil => rfl
  | cons c rest ih =>
    rw [Board.run_of_cons]
    have hstep := Board.MakeMove_keeps b c.1 c.2 i j hne
    rw [ih _ (by rw [hstep]; exact hne), hstep]

/-- C24: over every sequence of `Board.MakeMove` calls from the empty board,
successful or failing, with any positions and symbols, a cell that is non-empty
after some of the calls holds the same value after every later call. -/
theorem C24_Board_cell_written_once (calls later : List (Int × String)) (i j : Fin 3)
    (hne : (NewBoard.run calls).cells i j ≠ "") :
    (NewBoard.run (calls ++ later)).cells i j = (NewBoard.run calls).cells i j := by
  rw [Board.run_of_append]
  exact Board.run_keeps _ later i j hne

/-- Witness for C24: the centre holds "X" after the first call and still holds
it after a call that tries to write "O" there, a call elsewhere and a call out
of range. -/
theorem C24_Board_cell_written_once_witness :
    (NewBoard.run ([(4, "X")] ++ [(4, "O"), (0, "O"), (9, "X")])).cells 1 1 =
      (NewBoard.run [(4, "X")]).cells 1 1 ∧
    (NewBoard.run [(4, "X")]).cells 1 1 = "X" :=
  ⟨C24_Board_cell_written_once [(4, "X")] [(4, "O"), (0, "O"), (9, "X")] 1 1 (by decide),
    by decide⟩

/-! ## The mark of a move -/

/-- A successful `Board.MakeMove` is in range, with a valid symbol, on an empty
cell, and writes the symbol there. -/
theorem Board.MakeMove_accepted (b : Board) (p : Int) (s : String)
    (hok : (b.MakeMove p s).2 = Outcome.ok) :
    ∃ h : ¬ (p < 0 ∨ p > 8), ¬ (s ≠ "X" ∧ s ≠ "O") ∧ b.cells (rowOf p h) (colOf p h) = "" ∧
      b.MakeMove p s =
        ({ cells := fun i j => if i = rowOf p h ∧ j = colOf p h then s else b.cells i j },
          Outcome.ok) := by
  by_cases h : p < 0 ∨ p > 8
  · rw [Board.MakeMove_out_of_range b p s h] at hok; exact absurd hok (by simp)
  · by_cases hs : s ≠ "X" ∧ s ≠ "O"
    · rw [Board.MakeMove_bad_symbol b p s h hs] at hok; exact absurd hok (by simp)
    · by_cases hc : b.cells (rowOf p h) (colOf p h) = ""
      · exact ⟨h, hs, hc, Board.MakeMove_free b p s h hs hc⟩
      · rw [Board.MakeMove_occupied b p s h hs hc] at hok; exact absurd hok (by simp)

theorem Board.MakeMove_ok_cell (b : Board) (p : Int) (s : String)
    (hok : (b.MakeMove p s).2 = Outcome.ok) :
    (b.MakeMove p s).1.GetCell (Int.tdiv p 3) (Int.tmod p 3) = s := by
  obtain ⟨h, _, _, he⟩ := Board.MakeMove_accepted b p s hok
  rw [Board.GetCell_target _ p h, he]
  simp

/-- A successful `Game.MakeMove`: the caller has the id of CurrentTurn, and the
new board is the old one after `Board.MakeMove` with the caller's symbol, which
succeeded. -/
theorem Game.MakeMove_of_ok (h : Heap) (now : Nat) (g : Game) (player : Option PlayerRef)
    (position : Int) (hok : (g.MakeMove h now player position).2 = Outcome.ok) :
    ∃ c p, g.Status = GameStatusActive ∧ g.CurrentTurn = some c ∧ player = some p ∧
      (h c).ID = (h p).ID ∧ g.isPlayerInGame h p = true ∧
      (g.Board.MakeMove position (h p).Symbol).2 = Outcome.ok ∧
      (g.MakeMove h now player position).1.Board =
        (g.Board.MakeMove position (h p).Symbol).1 := by
  rcases Game.MakeMove_cases h now g player position with ⟨_, hne⟩ |
    ⟨c, p, b, hs, hc, hp, hid, hin, hb, hcase⟩
  · exact absurd hok hne
  refine ⟨c, p, hs, hc, hp, hid, hin, by rw [hb], ?_⟩
  rw [hb]
  rcases hcase with ⟨_, hr⟩ | ⟨_, _, hr⟩ | ⟨_, _, _, _, hr⟩ | ⟨_, _, _, hr⟩ <;> rw [hr]

/-- C25: the mark a successful `Game.MakeMove` writes is the Symbol field of the
player object the caller passes, and the caller is matched to the turn by id
alone. For every successful call the caller's id is that of CurrentTurn and the
target cell holds the caller's Symbol afterwards. In the Active game of alice
and bob, alice (Player1, holding "X") to move, a caller-supplied player object
with alice's id and Symbol "O" moves successfully through `Game.MakeMove` and
through `GameService.MakeMove`, and the centre cell holds "O". -/
theorem C25_move_writes_symbol_of_caller :
    (∀ (h : Heap) (now : Nat) (g : Game) (p : PlayerRef) (position : Int),
      (g.MakeMove h now (some p) position).2 = Outcome.ok →
      (∃ c, g.CurrentTurn = some c ∧ (h c).ID = (h p).ID) ∧
      (g.MakeMove h now (some p) position).1.Board.GetCell (Int.tdiv position 3)
        (Int.tmod position 3) = (h p).Symbol) ∧
    sampleActive.Status = GameStatusActive ∧
    sampleActive.Player1 = some 0 ∧ sampleActive.CurrentTurn = some 0 ∧
    (forgedHeap 0).Symbol = "X" ∧
    (forgedHeap 3).ID = (forgedHeap 0).ID ∧ (forgedHeap 3).Symbol = "O" ∧
    (sampleActive.MakeMove forgedHeap 13 (some 3) 4).2 = Outcome.ok ∧
    (sampleActive.MakeMove forgedHeap 13 (some 3) 4).1.Board.GetCell 1 1 = "O" ∧
    (GameService.MakeMove forgedHeap 12 13 sampleActive (some 3) 4).2 = Outcome.ok ∧
    (GameService.MakeMove forgedHeap 12 13 sampleActive (some 3) 4).1.Board.GetCell 1 1 =
      "O" := by
  refine ⟨fun h now g p position hok => ?_, ?_⟩
  · obtain ⟨c, q, _, hc, hp, hid, _, hbok, hboard⟩ :=
      Game.MakeMove_of_ok h now g (some p) position hok
    have hq : q = p := (Option.some.inj hp).symm
    subst hq
    refine ⟨⟨c, hc, hid⟩, ?_⟩
    rw [hboard]
    exact Board.MakeMove_ok_cell g.Board position (h q).Symbol hbok
  · decide

/-- Witness for C25: the general statement at the forged move. -/
theorem C25_move_writes_symbol_of_caller_witness :
    (sampleActive.MakeMove forgedHeap 13 (some 3) 4).1.Board.GetCell (Int.tdiv 4 3)
      (Int.tmod 4 3) = (forgedHeap 3).Symbol ∧ (forgedHeap 3).Symbol = "O" :=
  ⟨(C25_move_writes_symbol_of_caller.1 forgedHeap 13 sampleActive 3 4 (by decide)).2,
    by decide⟩

/-! ## Counting cells -/

theorem Board.count_eq (b : Board) (s : String) :
    b.count s =
      (if b.cells 0 0 = s then 1 else 0) + (if b.cells 0 1 = s then 1 else 0) +
      (if b.cells 0 2 = s then 1 else 0) + (if b.cells 1 0 = s then 1 else 0) +
      (if b.cells 1 1 = s then 1 else 0) + (if b.cells 1 2 = s then 1 else 0) +
      (if b.cells 2 0 = s then 1 else 0) + (if b.cells 2 1 = s then 1 else 0) +
      (if b.cells 2 2 = s then 1 else 0) := by
  simp only [Board.count, idx3, List.map_cons, List.map_nil, List.sum_cons, List.sum_nil]
  omega

theorem GameService.TotalMoves_eq (g : Game) :
    GameService.TotalMoves g =
      (if g.Board.cells 0 0 = "" then 0 else 1) + (if g.Board.cells 0 1 = "" then 0 else 1) +
      (if g.Board.cells 0 2 = "" then 0 else 1) + (if g.Board.cells 1 0 = "" then 0 else 1) +
      (if g.Board.cells 1 1 = "" then 0 else 1) + (if g.Board.cells 1 2 = "" then 0 else 1) +
      (if g.Board.cells 2 0 = "" then 0 else 1) + (if g.Board.cells 2 1 = "" then 0 else 1) +
      (if g.Board.cells 2 2 = "" then 0 else 1) := by
  have hl : ∀ (p : Fin 3 → Bool), (idx3.filter p).length =
      (if p 0 = true then 1 else 0) + (if p 1 = true then 1 else 0) +
        (if p 2 = true then 1 else 0) := by
    intro p
    simp only [idx3, List.filter]
    cases p 0 <;> cases p 1 <;> cases p 2 <;> rfl
  simp only [GameService.TotalMoves, hl, Board.GetCell_coe]
  simp only [idx3, List.map_cons, List.map_nil, List.sum_cons, List.sum_nil, bne_iff_ne, ne_eq,
    ite_not]
  omega

/-- Writing `s` in one cell moves that cell from the count of its old content to
the count of `s`. -/
theorem Board.count_update (b : Board) (row col : Fin 3) (s t : String) :
    ({ cells := fun i j => if i = row ∧ j = col then s else b.cells i j } : Board).count t +
        (if b.cells row col = t then 1 else 0) =
      b.count t + (if s = t then 1 else 0) := by
  rw [Board.count_eq, Board.count_eq]
  fin_cases row <;> fin_cases col <;> simp <;> omega

/-- A successful `Board.MakeMove` takes one cell from the empty ones and adds it
to those of its symbol, the count of any other content staying the same. -/
theorem Board.count_of_ok (b : Board) (p : Int) (s : String)
    (hok : (b.MakeMove p s).2 = Outcome.ok) :
    (s = "X" ∨ s = "O") ∧
      (b.MakeMove p s).1.count "" + 1 = b.count "" ∧
      (b.MakeMove p s).1.count s = b.count s + 1 ∧
      (∀ t, t ≠ "" → t ≠ s → (b.MakeMove p s).1.count t = b.count t) := by
  obtain ⟨h, hs, hc, he⟩ := Board.MakeMove_accepted b p s hok
  have hsym : s = "X" ∨ s = "O" := by
    by_cases hx : s = "X"
    · exact Or.inl hx
    · by_cases ho : s = "O"
      · exact Or.inr ho
      · exact absurd ⟨hx, ho⟩ hs
  have hse : s ≠ "" := by
    rcases hsym with e | e <;> rw [e] <;> decide
  rw [he]
  refine ⟨hsym, ?_, ?_, fun t ht hts => ?_⟩
  · have := Board.count_update b (rowOf p h) (colOf p h) s ""
    rw [hc, if_pos rfl, if_neg hse] at this
    exact this
  · have := Board.count_update b (rowOf p h) (colOf p h) s s
    rw [hc, if_neg (fun e => hse e.symm), if_pos rfl] at this
    exact this
  · have := Board.count_update b (rowOf p h) (colOf p h) s t
    rw [hc, if_neg (fun e => ht e.symm), if_neg (fun e => hts e.symm)] at this
    exact this

theorem Board.IsFull_iff (b : Board) : b.IsFull = true ↔ b.count "" = 0 := by
  rw [Board.count_eq]
  simp only [Board.IsFull, idx3, List.any_cons, List.any_nil, Bool.or_false]
  generalize b.cells 0 0 = a00
  generalize b.cells 0 1 = a01
  generalize b.cells 0 2 = a02
  generalize b.cells 1 0 = a10
  generalize b.cells 1 1 = a11
  generalize b.cells 1 2 = a12
  generalize b.cells 2 0 = a20
  generalize b.cells 2 1 = a21
  generalize b.cells 2 2 = a22
  simp only [Nat.add_eq_zero_iff, ite_eq_right_iff, one_ne_zero, imp_false]
  simp
  tauto

theorem Board.count_empty_of_blank (b : Board) (hb : ∀ i j, b.cells i j = "") :
    b.count "" = 9 ∧ b.count "X" = 0 ∧ b.count "O" = 0 := by
  rw [Board.count_eq, Board.count_eq, Board.count_eq]
  simp only [hb]
  decide

/-! ## Nine moves at most -/

theorem successes_cons (x : Outcome) (xs : List Outcome) :
    successes (x :: xs) = successes xs + (if x = Outcome.ok then 1 else 0) := by
  unfold successes
  rw [List.count_cons]
  by_cases hx : x = Outcome.ok
  · simp [hx]
  · simp [hx]

/-- What a successful join tells of the game joined. -/
theorem Game.JoinGame_ok_inv (h : Heap) (now : Nat) (g : Game) (b : PlayerRef)
    (hok : (g.JoinGame h now (some b)).2 = Outcome.ok) :
    ∃ a, g.Player1 = some a ∧ g.Status = GameStatusWaiting ∧ (h a).ID ≠ (h b).ID ∧
      (g.JoinGame h now (some b)).1 =
        { g with
            Player2 := some b
            Status := GameStatusActive
            CurrentTurn := g.Player1
            StartedAt := some now } := by
  by_cases hs : g.Status = GameStatusWaiting
  swap
  · rw [Game.JoinGame_not_waiting h now g (some b) hs] at hok; exact absurd hok (by simp)
  have hp1 : g.Player1 = none ∨ ∃ a, g.Player1 = some a := by
    cases g.Player1 <;> simp
  rcases hp1 with h1 | ⟨a, h1⟩
  · rw [Game.JoinGame_nil h now g (some b) hs (Or.inl h1)] at hok; exact absurd hok (by simp)
  by_cases hid : (h a).ID = (h b).ID
  · rw [Game.JoinGame_self h now g a b hs h1 hid] at hok; exact absurd hok (by simp)
  · exact ⟨a, h1, hs, hid, by rw [Game.JoinGame_ok h now g a b hs h1 hid]⟩

/-- A successful `Game.MakeMove` takes one cell from the empty ones. -/
theorem Game.MakeMove_ok_empties (h : Heap) (now : Nat) (g : Game)
    (player : Option PlayerRef) (position : Int)
    (hok : (g.MakeMove h now player position).2 = Outcome.ok) :
    (g.MakeMove h now player position).1.Board.count "" + 1 = g.Board.count "" := by
  obtain ⟨_, p, _, _, _, _, _, hbok, hboard⟩ := Game.MakeMove_of_ok h now g player position hok
  rw [hboard]
  exact (Board.count_of_ok g.Board position (h p).Symbol hbok).2.1

/-- One call on a game that is Active or Finished and has its Player1: the empty
cells and the successful calls so far still add up to nine, and a game without
empty cell is Finished. -/
theorem Game.step_nine (h : Heap) (g : Game) (c : Call) (n : Nat)
    (h1 : g.Player1 ≠ none)
    (hst : g.Status = GameStatusActive ∨ g.Status = GameStatusFinished)
    (hsum : g.Board.count "" + n = 9)
    (hend : g.Board.count "" = 0 → g.Status = GameStatusFinished) :
    (g.step h c).1.Player1 ≠ none ∧
      ((g.step h c).1.Status = GameStatusActive ∨
        (g.step h c).1.Status = GameStatusFinished) ∧
      (((g.step h c).2 = Outcome.ok ∧ (g.step h c).1.Board.count "" + (n + 1) = 9) ∨
        ((g.step h c).2 ≠ Outcome.ok ∧ (g.step h c).1.Board.count "" + n = 9)) ∧
      ((g.step h c).1.Board.count "" = 0 → (g.step h c).1.Status = GameStatusFinished) := by
  cases c with
  | JoinGame player2 now =>
    simp only [Game.step]
    have hnw : g.Status ≠ GameStatusWaiting := by
      rcases hst with e | e <;> rw [e] <;> decide
    rw [Game.JoinGame_not_waiting h now g player2 hnw]
    exact ⟨h1, hst, Or.inr ⟨by simp, hsum⟩, hend⟩
  | MakeMove player position now =>
    simp only [Game.step]
    rcases Game.MakeMove_cases h now g player position with ⟨hsame, hne⟩ |
      ⟨c, p, b, hs, hc, hp, hid, hin, hb, hcase⟩
    · rw [hsame]
      exact ⟨h1, hst, Or.inr ⟨hne, hsum⟩, hend⟩
    have hcnt : b.count "" + 1 = g.Board.count "" := by
      have := (Board.count_of_ok g.Board position (h p).Symbol (by rw [hb])).2.1
      rw [hb] at this
      exact this
    rcases hcase with ⟨_, hr⟩ | ⟨_, _, hr⟩ | ⟨_, hf, a, _, hr⟩ | ⟨_, _, hn, _⟩
    · rw [hr]
      exact ⟨h1, Or.inr rfl, Or.inl ⟨rfl, by show b.count "" + (n + 1) = 9; omega⟩,
        fun _ => rfl⟩
    · rw [hr]
      exact ⟨h1, Or.inr rfl, Or.inl ⟨rfl, by show b.count "" + (n + 1) = 9; omega⟩,
        fun _ => rfl⟩
    · rw [hr]
      refine ⟨h1, Or.inl hs, Or.inl ⟨rfl, by show b.count "" + (n + 1) = 9; omega⟩,
        fun hz => ?_⟩
      have hfull : b.IsFull = true := (Board.IsFull_iff b).mpr hz
      rw [hf] at hfull
      exact absurd hfull (by decide)
    · exact absurd hn h1

theorem Game.run_nine (h : Heap) (calls : List Call) :
    ∀ (g : Game) (n : Nat), g.Player1 ≠ none →
      (g.Status = GameStatusActive ∨ g.Status = GameStatusFinished) →
      g.Board.count "" + n = 9 →
      (g.Board.count "" = 0 → g.Status = GameStatusFinished) →
      (g.run h calls).Board.count "" + (n + successes (Game.outcomes h g calls)) = 9 ∧
        ((g.run h calls).Board.count "" = 0 → (g.run h calls).Status = GameStatusFinished) := by
  induction calls with
  | nil =>
    intro g n _ _ hsum hend
    exact ⟨by simpa [Game.outcomes, successes, Game.run_nil] using hsum, hend⟩
  | cons c rest ih =>
    intro g n h1 hst hsum hend
    obtain ⟨k1, k2, k3, k4⟩ := Game.step_nine h g c n h1 hst hsum hend
    rw [Game.run_cons, Game.outcomes, successes_cons]
    rcases k3 with ⟨hok, hs1⟩ | ⟨hno, hs0⟩
    · obtain ⟨r1, r2⟩ := ih (g.step h c).1 (n + 1) k1 k2 hs1 k4
      refine ⟨?_, r2⟩
      rw [if_pos hok]
      omega
    · obtain ⟨r1, r2⟩ := ih (g.step h c).1 n k1 k2 hs0 k4
      refine ⟨?_, r2⟩
      rw [if_neg hno]
      omega

/-- C27: a game made Active by a successful join on an empty board ends within
nine moves. Over any sequence of calls after the join, the empty cells of the
board and the successful calls add up to nine, so at most 9 calls succeed; each
successful `Game.MakeMove` takes exactly one cell from the empty ones; and once
9 calls have succeeded the Status is Finished. -/
theorem C27_Game_ends_within_nine_moves (h : Heap) (now : Nat) (g0 : Game) (b : PlayerRef)
    (calls : List Call) (hblank : ∀ i j, g0.Board.cells i j = "")
    (hjoin : (g0.JoinGame h now (some b)).2 = Outcome.ok) :
    ((g0.JoinGame h now (some b)).1.run h calls).Board.count "" +
        successes (Game.outcomes h (g0.JoinGame h now (some b)).1 calls) = 9 ∧
    successes (Game.outcomes h (g0.JoinGame h now (some b)).1 calls) ≤ 9 ∧
    (successes (Game.outcomes h (g0.JoinGame h now (some b)).1 calls) = 9 →
      ((g0.JoinGame h now (some b)).1.run h calls).Status = GameStatusFinished) ∧
    (∀ (player : Option PlayerRef) (position : Int) (later : Nat),
      (((g0.JoinGame h now (some b)).1.run h calls).MakeMove h later player position).2 =
        Outcome.ok →
      (((g0.JoinGame h now (some b)).1.run h calls).MakeMove h later player
        position).1.Board.count "" + 1 =
        ((g0.JoinGame h now (some b)).1.run h calls).Board.count "") := by
  obtain ⟨a, hp1, _, _, hg⟩ := Game.JoinGame_ok_inv h now g0 b hjoin
  have hcount : (g0.JoinGame h now (some b)).1.Board.count "" = 9 := by
    rw [hg]; exact (Board.count_empty_of_blank g0.Board hblank).1
  obtain ⟨r1, r2⟩ := Game.run_nine h calls (g0.JoinGame h now (some b)).1 0
    (by rw [hg]; simp [hp1]) (Or.inl (by rw [hg])) (by omega)
    (fun hz => by omega)
  refine ⟨by omega, by omega, fun h9 => r2 (by omega), fun player position later hok => ?_⟩
  exact Game.MakeMove_ok_empties h later _ player position hok

/-- Witness for C27: a game played to a full board without a line has nine
successful calls among its ten, and is Finished. -/
theorem C27_Game_ends_within_nine_moves_witness :
    successes (Game.outcomes sampleHeap
      ((NewGame "20240101120000" 10 (some 0)).JoinGame sampleHeap 11 (some 1)).1
      (alternate [0, 1, 2, 4] ++ Call.MakeMove (some 0) 4 12 :: alternate [3, 5, 7, 6, 8])) = 9 ∧
    (((NewGame "20240101120000" 10 (some 0)).JoinGame sampleHeap 11 (some 1)).1.run
      sampleHeap (alternate [0, 1, 2, 4] ++ Call.MakeMove (some 0) 4 12 :: alternate [3, 5, 7, 6, 8])).Status = GameStatusFinished :=
  ⟨by decide,
    (C27_Game_ends_within_nine_moves sampleHeap 11 (NewGame "20240101120000" 10 (some 0)) 1
      (alternate [0, 1, 2, 4] ++ Call.MakeMove (some 0) 4 12 :: alternate [3, 5, 7, 6, 8]) (by decide) (by decide)).2.2.1 (by decide)⟩

/-! ## Alternate moves through the service -/

theorem GameService.TotalMoves_add_empty (g : Game) :
    GameService.TotalMoves g + g.Board.count "" = 9 := by
  rw [GameService.TotalMoves_eq, Board.count_eq]
  have hcell : ∀ c : String, (if c = "" then 0 else 1) + (if c = "" then 1 else 0) = 1 := by
    intro c
    by_cases hc : c = ""
    · simp [hc]
    · simp [hc]
  have h00 := hcell (g.Board.cells 0 0)
  have h01 := hcell (g.Board.cells 0 1)
  have h02 := hcell (g.Board.cells 0 2)
  have h10 := hcell (g.Board.cells 1 0)
  have h11 := hcell (g.Board.cells 1 1)
  have h12 := hcell (g.Board.cells 1 2)
  have h20 := hcell (g.Board.cells 2 0)
  have h21 := hcell (g.Board.cells 2 1)
  have h22 := hcell (g.Board.cells 2 2)
  omega

/-- One move through the service by `a` or `b`, holding "X" and "O": the game
stays as alternate moves keep it, and the empty cells and the successful calls
still add up to nine. -/
theorem GameService.MakeMove_alternating (h : Heap) (a b p : PlayerRef) (stamped now : Nat)
    (g : Game) (position : Int) (k : Nat)
    (hab : (h a).ID ≠ (h b).ID) (hsa : (h a).Symbol = "X") (hsb : (h b).Symbol = "O")
    (hp : p = a ∨ p = b) (hg : g.Alternating a b) (hk : g.Board.count "" + k = 9) :
    (GameService.MakeMove h stamped now g (some p) position).1.Alternating a b ∧
      (((GameService.MakeMove h stamped now g (some p) position).2 = Outcome.ok ∧
          (GameService.MakeMove h stamped now g (some p) position).1.Board.count "" + (k + 1) =
            9) ∨
        ((GameService.MakeMove h stamped now g (some p) position).2 ≠ Outcome.ok ∧
          (GameService.MakeMove h stamped now g (some p) position).1.Board.count "" + k =
            9)) := by
  by_cases hv : validateMove position (h p).Symbol = Outcome.ok
  swap
  · rw [GameService.MakeMove_rejected h stamped now g p position hv]
    exact ⟨hg, Or.inr ⟨hv, hk⟩⟩
  rw [GameService.MakeMove_passed h stamped now g p position hv]
  rcases Game.MakeMove_cases h now g (some p) position with ⟨hsame, hne⟩ |
    ⟨c, q, bd, hs, hc, hq, hid, _, hb, hcase⟩
  · rw [hsame]
    exact ⟨hg, Or.inr ⟨hne, hk⟩⟩
  have hqp : q = p := (Option.some.inj hq).symm
  subst hqp
  obtain ⟨g1, g2, hturn⟩ := hg
  have hact : (g.CurrentTurn = some a ∧ g.Board.count "X" = g.Board.count "O") ∨
      (g.CurrentTurn = some b ∧ g.Board.count "X" = g.Board.count "O" + 1) := by
    rcases hturn with ⟨_, ht⟩ | ⟨hf, _⟩
    · exact ht
    · rw [hf] at hs; exact absurd hs (by decide)
  have hok : (g.Board.MakeMove position (h q).Symbol).2 = Outcome.ok := by rw [hb]
  obtain ⟨_, hce, hcs, hco⟩ := Board.count_of_ok g.Board position (h q).Symbol hok
  rw [hb] at hce hcs hco
  simp only [] at hce hcs hco
  -- the mover is the player whose turn it is, and the counts after the move
  have hafter : (c = a ∧ bd.count "X" = bd.count "O" + 1) ∨
      (c = b ∧ bd.count "X" = bd.count "O") := by
    rcases hact with ⟨hta, hcnt⟩ | ⟨htb, hcnt⟩
    · have hca : c = a := Option.some.inj (hc.symm.trans hta)
      have hqa : q = a := by
        rcases hp with e | e
        · exact e
        · rw [hca, e] at hid; exact absurd hid hab
      left
      refine ⟨hca, ?_⟩
      rw [hqa, hsa] at hcs hco
      rw [hcs, hco "O" (by decide) (by decide)]
      omega
    · have hcb : c = b := Option.some.inj (hc.symm.trans htb)
      have hqb : q = b := by
        rcases hp with e | e
        · rw [hcb, e] at hid; exact absurd hid.symm hab
        · exact e
      right
      refine ⟨hcb, ?_⟩
      rw [hqb, hsb] at hcs hco
      rw [hcs, hco "X" (by decide) (by decide)]
      omega
  have hfin : bd.count "X" = bd.count "O" ∨ bd.count "X" = bd.count "O" + 1 := by
    rcases hafter with ⟨_, e⟩ | ⟨_, e⟩
    · exact Or.inr e
    · exact Or.inl e
  rcases hcase with ⟨_, hr⟩ | ⟨_, _, hr⟩ | ⟨_, _, a1, h1, hr⟩ | ⟨_, _, hn, _⟩
  · rw [hr]
    exact ⟨⟨g1, g2, Or.inr ⟨rfl, hfin⟩⟩,
      Or.inl ⟨rfl, by show bd.count "" + (k + 1) = 9; omega⟩⟩
  · rw [hr]
    exact ⟨⟨g1, g2, Or.inr ⟨rfl, hfin⟩⟩,
      Or.inl ⟨rfl, by show bd.count "" + (k + 1) = 9; omega⟩⟩
  · rw [hr]
    have ha1 : a1 = a := Option.some.inj (h1.symm.trans g1)
    refine ⟨⟨g1, g2, Or.inl ⟨hs, ?_⟩⟩,
      Or.inl ⟨rfl, by show bd.count "" + (k + 1) = 9; omega⟩⟩
    rcases hafter with ⟨hca, e⟩ | ⟨hcb, e⟩
    · right
      refine ⟨?_, e⟩
      show (if (h c).ID = (h a1).ID then g.Player2 else g.Player1) = some b
      rw [hca, ha1, if_pos rfl]
      exact g2
    · left
      refine ⟨?_, e⟩
      show (if (h c).ID = (h a1).ID then g.Player2 else g.Player1) = some a
      rw [hcb, ha1, if_neg (fun e => hab e.symm)]
      exact g1
  · rw [hn] at g1; exact absurd g1 (by simp)

theorem GameService.run_alternating (h : Heap) (a b : PlayerRef)
    (hab : (h a).ID ≠ (h b).ID) (hsa : (h a).Symbol = "X") (hsb : (h b).Symbol = "O")
    (calls : List ServiceCall) :
    ∀ (g : Game) (k : Nat),
      (∀ c ∈ calls, ∃ p position stamped now,
        c = ServiceCall.MakeMove (some p) position stamped now ∧ (p = a ∨ p = b)) →
      g.Alternating a b → g.Board.count "" + k = 9 →
      (GameService.run h g calls).1.2.Alternating a b ∧
        (GameService.run h g calls).1.2.Board.count "" +
          (k + successes (GameService.run h g calls).2) = 9 := by
  induction calls with
  | nil =>
    intro g k _ hg hk
    exact ⟨hg, by simpa [GameService.run, successes] using hk⟩
  | cons c rest ih =>
    intro g k hcalls hg hk
    obtain ⟨p, position, stamped, now, hc, hp⟩ := hcalls c (List.mem_cons_self c rest)
    have hrest : ∀ d ∈ rest, ∃ p position stamped now,
        d = ServiceCall.MakeMove (some p) position stamped now ∧ (p = a ∨ p = b) :=
      fun d hd => hcalls d (List.mem_cons_of_mem c hd)
    obtain ⟨m1, m2⟩ := GameService.MakeMove_alternating h a b p stamped now g position k
      hab hsa hsb hp hg hk
    subst hc
    simp only [GameService.run, GameService.step]
    rw [successes_cons]
    rcases m2 with ⟨hok, hs1⟩ | ⟨hno, hs0⟩
    · obtain ⟨r1, r2⟩ := ih _ (k + 1) hrest m1 hs1
      refine ⟨r1, ?_⟩
      rw [if_pos hok]
      omega
    · obtain ⟨r1, r2⟩ := ih _ k hrest m1 hs0
      refine ⟨r1, ?_⟩
      rw [if_neg hno]
      omega

/-- C26: for every game created by `GameService.CreateGame` for `a`, joined
through `GameService.JoinGame` by `b`, a player with a different id, and then
moved only through `GameService.MakeMove` by `a` and `b`: the join succeeds; the
number of "X" cells equals the number of "O" cells or exceeds it by exactly one;
while Status is Active, CurrentTurn is Player1 iff the two counts are equal and
Player2 iff "X" leads by one; and the `TotalMoves` of `GetGameStatistics` is the
number of `MakeMove` calls that succeeded. -/
theorem C26_alternate_moves_counts (h : Heap) (a b : PlayerRef) (stamp : String)
    (created joined : Nat) (calls : List ServiceCall) (hab : (h a).ID ≠ (h b).ID)
    (hcalls : ∀ c ∈ calls, ∃ p position stamped now,
      c = ServiceCall.MakeMove (some p) position stamped now ∧ (p = a ∨ p = b)) :
    GameService.CreateGame h stamp created (some a) =
      some (Function.update h a { h a with Symbol := "X" }, NewGame stamp created (some a)) ∧
    (GameService.JoinGame (Function.update h a { h a with Symbol := "X" }) joined
      (NewGame stamp created (some a)) (some b)).2.2 = Outcome.ok ∧
    ((GameService.run
        (GameService.JoinGame (Function.update h a { h a with Symbol := "X" }) joined
          (NewGame stamp created (some a)) (some b)).1
        (GameService.JoinGame (Function.update h a { h a with Symbol := "X" }) joined
          (NewGame stamp created (some a)) (some b)).2.1 calls).1.2.Board.count "X" =
        (GameService.run
          (GameService.JoinGame (Function.update h a { h a with Symbol := "X" }) joined
            (NewGame stamp created (some a)) (some b)).1
          (GameService.JoinGame (Function.update h a { h a with Symbol := "X" }) joined
            (NewGame stamp created (some a)) (some b)).2.1 calls).1.2.Board.count "O" ∨
      (GameService.run
        (GameService.JoinGame (Function.update h a { h a with Symbol := "X" }) joined
          (NewGame stamp created (some a)) (some b)).1
        (GameService.JoinGame (Function.update h a { h a with Symbol := "X" }) joined
          (NewGame stamp created (some a)) (some b)).2.1 calls).1.2.Board.count "X" =
        (GameService.run
          (GameService.JoinGame (Function.update h a { h a with Symbol := "X" }) joined
            (NewGame stamp created (some a)) (some b)).1
          (GameService.JoinGame (Function.update h a { h a with Symbol := "X" }) joined
            (NewGame stamp created (some a)) (some b)).2.1 calls).1.2.Board.count "O" + 1) ∧
    ((GameService.run
        (GameService.JoinGame (Function.update h a { h a with Symbol := "X" }) joined
          (NewGame stamp created (some a)) (some b)).1
        (GameService.JoinGame (Function.update h a { h a with Symbol := "X" }) joined
          (NewGame stamp created (some a)) (some b)).2.1 calls).1.2.Status =
        GameStatusActive →
      ((GameService.run
          (GameService.JoinGame (Function.update h a { h a with Symbol := "X" }) joined
            (NewGame stamp created (some a)) (some b)).1
          (GameService.JoinGame (Function.update h a { h a with Symbol := "X" }) joined
            (NewGame stamp created (some a)) (some b)).2.1 calls).1.2.CurrentTurn =
          (GameService.run
            (GameService.JoinGame (Function.update h a { h a with Symbol := "X" }) joined
              (NewGame stamp created (some a)) (some b)).1
            (GameService.JoinGame (Function.update h a { h a with Symbol := "X" }) joined
              (NewGame stamp created (some a)) (some b)).2.1 calls).1.2.Player1 ↔
        (GameService.run
          (GameService.JoinGame (Function.update h a { h a with Symbol := "X" }) joined
            (NewGame stamp created (some a)) (some b)).1
          (GameService.JoinGame (Function.update h a { h a with Symbol := "X" }) joined
            (NewGame stamp created (some a)) (some b)).2.1 calls).1.2.Board.count "X" =
          (GameService.run
            (GameService.JoinGame (Function.update h a { h a with Symbol := "X" }) joined
              (NewGame stamp created (some a)) (some b)).1
            (GameService.JoinGame (Function.update h a { h a with Symbol := "X" }) joined
              (NewGame stamp created (some a)) (some b)).2.1 calls).1.2.Board.count "O") ∧
      ((GameService.run
          (GameService.JoinGame (Function.update h a { h a with Symbol := "X" }) joined
            (NewGame stamp created (some a)) (some b)).1
          (GameService.JoinGame (Function.update h a { h a with Symbol := "X" }) joined
            (NewGame stamp created (some a)) (some b)).2.1 calls).1.2.CurrentTurn =
          (GameService.run
            (GameService.JoinGame (Function.update h a { h a with Symbol := "X" }) joined
              (NewGame stamp created (some a)) (some b)).1
            (GameService.JoinGame (Function.update h a { h a with Symbol := "X" }) joined
              (NewGame stamp created (some a)) (some b)).2.1 calls).1.2.Player2 ↔
        (GameService.run
          (GameService.JoinGame (Function.update h a { h a with Symbol := "X" }) joined
            (NewGame stamp created (some a)) (some b)).1
          (GameService.JoinGame (Function.update h a { h a with Symbol := "X" }) joined
            (NewGame stamp created (some a)) (some b)).2.1 calls).1.2.Board.count "X" =
          (GameService.run
            (GameService.JoinGame (Function.update h a { h a with Symbol := "X" }) joined
              (NewGame stamp created (some a)) (some b)).1
            (GameService.JoinGame (Function.update h a { h a with Symbol := "X" }) joined
              (NewGame stamp created (some a)) (some b)).2.1 calls).1.2.Board.count "O" +
            1)) ∧
    GameService.TotalMoves
        (GameService.run
          (GameService.JoinGame (Function.update h a { h a with Symbol := "X" }) joined
            (NewGame stamp created (some a)) (some b)).1
          (GameService.JoinGame (Function.update h a { h a with Symbol := "X" }) joined
            (NewGame stamp created (some a)) (some b)).2.1 calls).1.2 =
      successes
        (GameService.run
          (GameService.JoinGame (Function.update h a { h a with Symbol := "X" }) joined
            (NewGame stamp created (some a)) (some b)).1
          (GameService.JoinGame (Function.update h a { h a with Symbol := "X" }) joined
            (NewGame stamp created (some a)) (some b)).2.1 calls).2 := by
  have hne : a ≠ b := fun e => hab (by rw [e])
  generalize hh1 : Function.update h a { h a with Symbol := "X" } = h1
  generalize hh2 : Function.update h1 b { h1 b with Symbol := "O" } = h2
  have hid1 : ∀ q, (h1 q).ID = (h q).ID := fun q => by rw [← hh1]; exact assign_ID h a q "X"
  have hid2 : ∀ q, (h2 q).ID = (h q).ID := fun q => by
    rw [← hh2, assign_ID h1 b q "O"]; exact hid1 q
  have hsa : (h2 a).Symbol = "X" := by
    rw [← hh2, Function.update_noteq hne, ← hh1]; exact assign_Symbol h a "X"
  have hsb : (h2 b).Symbol = "O" := by rw [← hh2]; exact assign_Symbol h1 b "O"
  have hab2 : (h2 a).ID ≠ (h2 b).ID := by rw [hid2 a, hid2 b]; exact hab
  have e1 : GameService.JoinGame h1 joined (NewGame stamp created (some a)) (some b) =
      (h2, { NewGame stamp created (some a) with
              Player2 := some b
              Status := GameStatusActive
              CurrentTurn := some a
              StartedAt := some joined }, Outcome.ok) := by
    rw [GameService.JoinGame_open h1 joined _ b rfl, hh2,
      Game.JoinGame_ok h2 joined (NewGame stamp created (some a)) a b rfl rfl hab2]
    rfl
  generalize hg1 : ({ NewGame stamp created (some a) with
      Player2 := some b
      Status := GameStatusActive
      CurrentTurn := some a
      StartedAt := some joined } : Game) = g1 at e1
  have hblank := Board.count_empty_of_blank NewBoard (fun _ _ => rfl)
  have g1b : g1.Board = NewBoard := by rw [← hg1]; rfl
  have halt : Game.Alternating a b g1 := by
    refine ⟨by rw [← hg1]; rfl, by rw [← hg1], Or.inl ⟨by rw [← hg1], Or.inl ⟨by rw [← hg1], ?_⟩⟩⟩
    rw [g1b, hblank.2.1, hblank.2.2]
  obtain ⟨⟨p1, p2, hturn⟩, hsum⟩ := GameService.run_alternating h2 a b hab2 hsa hsb calls g1 0
    hcalls halt (by rw [g1b, hblank.1])
  have htot := GameService.TotalMoves_add_empty (GameService.run h2 g1 calls).1.2
  refine ⟨by rw [← hh1]; rfl, by rw [e1], ?_⟩
  rw [e1]
  simp only []
  refine ⟨?_, fun hact => ?_, by omega⟩
  · rcases hturn with ⟨_, ⟨_, e⟩ | ⟨_, e⟩⟩ | ⟨_, e⟩
    · exact Or.inl e
    · exact Or.inr e
    · exact e
  · rw [p1, p2]
    rcases hturn with ⟨_, ⟨ht, e⟩ | ⟨ht, e⟩⟩ | ⟨hf, _⟩
    · rw [ht, e]
      exact ⟨⟨fun _ => rfl, fun _ => rfl⟩,
        ⟨fun hx => absurd (Option.some.inj hx) hne, fun hx => by omega⟩⟩
    · rw [ht, e]
      exact ⟨⟨fun hx => absurd (Option.some.inj hx).symm hne, fun hx => by omega⟩,
        ⟨fun _ => rfl, fun _ => rfl⟩⟩
    · rw [hf] at hact; exact absurd hact (by decide)

/-- Witness for C26, with alice and bob: after alice's move at 4, bob's refused
move at 4 and bob's move at 0, two calls have succeeded and `TotalMoves` is 2,
with one "X" and one "O" on the board. -/
theorem C26_alternate_moves_counts_witness :
    GameService.TotalMoves
        (GameService.run
          (GameService.JoinGame (Function.update sampleHeap 0 { sampleHeap 0 with Symbol := "X" })
            11 (NewGame "20240101120000" 10 (some 0)) (some 1)).1
          (GameService.JoinGame (Function.update sampleHeap 0 { sampleHeap 0 with Symbol := "X" })
            11 (NewGame "20240101120000" 10 (some 0)) (some 1)).2.1
          [ServiceCall.MakeMove (some 0) 4 12 12, ServiceCall.MakeMove (some 1) 4 13 13,
            ServiceCall.MakeMove (some 1) 0 14 14]).1.2 =
      successes
        (GameService.run
          (GameService.JoinGame (Function.update sampleHeap 0 { sampleHeap 0 with Symbol := "X" })
            11 (NewGame "20240101120000" 10 (some 0)) (some 1)).1
          (GameService.JoinGame (Function.update sampleHeap 0 { sampleHeap 0 with Symbol := "X" })
            11 (NewGame "20240101120000" 10 (some 0)) (some 1)).2.1
          [ServiceCall.MakeMove (some 0) 4 12 12, ServiceCall.MakeMove (some 1) 4 13 13,
            ServiceCall.MakeMove (some 1) 0 14 14]).2 ∧
    successes
        (GameService.run
          (GameService.JoinGame (Function.update sampleHeap 0 { sampleHeap 0 with Symbol := "X" })
            11 (NewGame "20240101120000" 10 (some 0)) (some 1)).1
          (GameService.JoinGame (Function.update sampleHeap 0 { sampleHeap 0 with Symbol := "X" })
            11 (NewGame "20240101120000" 10 (some 0)) (some 1)).2.1
          [ServiceCall.MakeMove (some 0) 4 12 12, ServiceCall.MakeMove (some 1) 4 13 13,
            ServiceCall.MakeMove (some 1) 0 14 14]).2 = 2 :=
  ⟨(C26_alternate_moves_counts sampleHeap 0 1 "20240101120000" 10 11
      [ServiceCall.MakeMove (some 0) 4 12 12, ServiceCall.MakeMove (some 1) 4 13 13,
        ServiceCall.MakeMove (some 1) 0 14 14] (by decide)
      (by
        intro c hc
        simp only [List.mem_cons, List.mem_singleton, List.not_mem_nil, or_false] at hc
        rcases hc with e | e | e
        · exact ⟨0, 4, 12, 12, e, Or.inl rfl⟩
        · exact ⟨1, 4, 13, 13, e, Or.inr rfl⟩
        · exact ⟨1, 0, 14, 14, e, Or.inr rfl⟩)).2.2.2.2,
    by decide⟩

/-! ## Dispatch: which handler runs, and what it hands on -/

theorem Hub.HandleMessage_malformed (j : Codec) (now : Nat) (w : World) (client : ClientRef)
    (raw : Bytes) (hdec : j.Unmarshal raw = none) :
    Hub.HandleMessage j now w client raw =
      Hub.replyError j now w client "INVALID_JSON" "Invalid message format" := by
  unfold Hub.HandleMessage
  rw [hdec]

theorem Hub.HandleMessage_gameMove (j : Codec) (now : Nat) (w : World) (client : ClientRef)
    (raw : Bytes) (decoded : Message) (hdec : j.Unmarshal raw = some decoded)
    (hmove : decoded.MsgType = MessageTypeGameMove) :
    Hub.HandleMessage j now w client raw =
      Hub.broadcastToGame j w (w.client client).GameID
        (Payload.gameMove
          (NewGameMoveMessage now 0 "X" (w.client client).Username (w.client client).GameID)) := by
  unfold Hub.HandleMessage
  rw [hdec]
  simp only []
  rw [if_neg (by rw [hmove]; decide), if_pos hmove]
  rfl

theorem Hub.handleJoinMessage_free (j : Codec) (now : Nat) (w : World) (client : ClientRef)
    (msg : Message) (hf : w.hub.mu.writer = false) :
    Hub.handleJoinMessage j now w client msg =
      Hub.broadcastToGame j w (w.client client).GameID
        (Payload.join
          (NewJoinMessage now (w.client client).Username (w.client client).GameID
            (w.members (w.client client).GameID).length)) := by
  unfold Hub.handleJoinMessage
  rw [RWMutex.RLock_of_free _ hf]
  simp only []
  rw [World.withMu_RUnlock_RLock w]
  rfl

theorem Hub.handleLeaveMessage_free (j : Codec) (now : Nat) (w : World) (client : ClientRef)
    (msg : Message) (hf : w.hub.mu.writer = false) :
    Hub.handleLeaveMessage j now w client msg =
      Hub.broadcastToGame j w (w.client client).GameID
        (Payload.leave
          (NewLeaveMessage now (w.client client).Username (w.client client).GameID
            (w.members (w.client client).GameID).length)) := by
  unfold Hub.handleLeaveMessage
  rw [RWMutex.RLock_of_free _ hf]
  simp only []
  rw [World.withMu_RUnlock_RLock w]
  rfl

theorem Hub.handleJoinMessage_of_writer (j : Codec) (now : Nat) (w : World)
    (client : ClientRef) (msg : Message) (hw : w.hub.mu.writer = true) :
    Hub.handleJoinMessage j now w client msg = (w, Exit.blocked) := by
  unfold Hub.handleJoinMessage
  rw [RWMutex.RLock_of_writer _ hw]

theorem Hub.handleLeaveMessage_of_writer (j : Codec) (now : Nat) (w : World)
    (client : ClientRef) (msg : Message) (hw : w.hub.mu.writer = true) :
    Hub.handleLeaveMessage j now w client msg = (w, Exit.blocked) := by
  unfold Hub.handleLeaveMessage
  rw [RWMutex.RLock_of_writer _ hw]

theorem Hub.HandleMessage_join (j : Codec) (now : Nat) (w : World) (client : ClientRef)
    (raw : Bytes) (decoded : Message) (hdec : j.Unmarshal raw = some decoded)
    (hjoin : decoded.MsgType = MessageTypeJoin) :
    Hub.HandleMessage j now w client raw =
      Hub.handleJoinMessage j now w client
        { decoded with
            Username := (w.client client).GetUsername
            GameID := (w.client client).GetGameID
            Timestamp := now } := by
  unfold Hub.HandleMessage
  rw [hdec]
  simp only []
  rw [if_neg (by rw [hjoin]; decide), if_neg (by rw [hjoin]; decide), if_pos hjoin]

theorem Hub.HandleMessage_leave (j : Codec) (now : Nat) (w : World) (client : ClientRef)
    (raw : Bytes) (decoded : Message) (hdec : j.Unmarshal raw = some decoded)
    (hleave : decoded.MsgType = MessageTypeLeave) :
    Hub.HandleMessage j now w client raw =
      Hub.handleLeaveMessage j now w client
        { decoded with
            Username := (w.client client).GetUsername
            GameID := (w.client client).GetGameID
            Timestamp := now } := by
  unfold Hub.HandleMessage
  rw [hdec]
  simp only []
  rw [if_neg (by rw [hleave]; decide), if_neg (by rw [hleave]; decide),
    if_neg (by rw [hleave]; decide), if_pos hleave]

theorem Hub.HandleMessage_other (j : Codec) (now : Nat) (w : World) (client : ClientRef)
    (raw : Bytes) (decoded : Message) (hdec : j.Unmarshal raw = some decoded)
    (h1 : decoded.MsgType ≠ MessageTypeChat) (h2 : decoded.MsgType ≠ MessageTypeGameMove)
    (h3 : decoded.MsgType ≠ MessageTypeJoin) (h4 : decoded.MsgType ≠ MessageTypeLeave) :
    Hub.HandleMessage j now w client raw =
      Hub.replyError j now w client "UNKNOWN_TYPE" "Unknown message type" := by
  unfold Hub.HandleMessage
  rw [hdec]
  simp only []
  rw [if_neg h1, if_neg h2, if_neg h3, if_neg h4]

/-- However a dispatch goes, it is a reply to the sender alone, or a broadcast
to the sender's session, or a wait on the mutex that changes nothing. -/
theorem Hub.HandleMessage_cases (j : Codec) (now : Nat) (w : World) (client : ClientRef)
    (raw : Bytes) :
    (∃ code content, Hub.HandleMessage j now w client raw =
        Hub.replyError j now w client code content) ∨
      (∃ payload, Hub.HandleMessage j now w client raw =
        Hub.broadcastToGame j w (w.client client).GameID payload) ∨
      Hub.HandleMessage j now w client raw = (w, Exit.blocked) := by
  have hd : j.Unmarshal raw = none ∨ ∃ decoded, j.Unmarshal raw = some decoded := by
    cases j.Unmarshal raw <;> simp
  rcases hd with hno | ⟨decoded, hdec⟩
  · exact Or.inl ⟨_, _, Hub.HandleMessage_malformed j now w client raw hno⟩
  by_cases h1 : decoded.MsgType = MessageTypeChat
  · rw [Hub.HandleMessage_chat j now w client raw decoded hdec h1]
    unfold Hub.handleChatMessage
    by_cases hlen : decoded.Content.utf8ByteSize > 200
    · exact Or.inl ⟨_, _, by rw [if_pos hlen]⟩
    · exact Or.inr (Or.inl ⟨_, by rw [if_neg hlen]; rfl⟩)
  by_cases h2 : decoded.MsgType = MessageTypeGameMove
  · exact Or.inr (Or.inl ⟨_, Hub.HandleMessage_gameMove j now w client raw decoded hdec h2⟩)
  by_cases hw : w.hub.mu.writer = true
  · by_cases h3 : decoded.MsgType = MessageTypeJoin
    · rw [Hub.HandleMessage_join j now w client raw decoded hdec h3]
      exact Or.inr (Or.inr (Hub.handleJoinMessage_of_writer j now w client _ hw))
    by_cases h4 : decoded.MsgType = MessageTypeLeave
    · rw [Hub.HandleMessage_leave j now w client raw decoded hdec h4]
      exact Or.inr (Or.inr (Hub.handleLeaveMessage_of_writer j now w client _ hw))
    exact Or.inl ⟨_, _, Hub.HandleMessage_other j now w client raw decoded hdec h1 h2 h3 h4⟩
  have hf : w.hub.mu.writer = false := by simpa using hw
  by_cases h3 : decoded.MsgType = MessageTypeJoin
  · rw [Hub.HandleMessage_join j now w client raw decoded hdec h3]
    exact Or.inr (Or.inl ⟨_, Hub.handleJoinMessage_free j now w client _ hf⟩)
  by_cases h4 : decoded.MsgType = MessageTypeLeave
  · rw [Hub.HandleMessage_leave j now w client raw decoded hdec h4]
    exact Or.inr (Or.inl ⟨_, Hub.handleLeaveMessage_free j now w client _ hf⟩)
  exact Or.inl ⟨_, _, Hub.HandleMessage_other j now w client raw decoded hdec h1 h2 h3 h4⟩

/-- What `Client.SendMessage` leaves alone: the mapping, the mutex, the client
objects, and every other queue. -/
theorem Client.SendMessage_frame (w : World) (c : ClientRef) (message : Bytes) :
    (Client.SendMessage w c message).1.hub.clients = w.hub.clients ∧
      (Client.SendMessage w c message).1.hub.mu = w.hub.mu ∧
      (Client.SendMessage w c message).1.client = w.client ∧
      (∀ d, d ≠ c → (Client.SendMessage w c message).1.Send d = w.Send d) := by
  unfold Client.SendMessage
  split
  · exact ⟨rfl, rfl, rfl, fun _ _ => rfl⟩
  split
  · exact ⟨rfl, rfl, rfl, fun d hd => by simp [World.withSend, Function.update_noteq hd]⟩
  · exact ⟨rfl, rfl, rfl, fun d hd => by simp [World.withSend, Function.update_noteq hd]⟩

/-- What the reply to the sender leaves alone. -/
theorem Hub.replyError_frame (j : Codec) (now : Nat) (w : World) (client : ClientRef)
    (errorCode content : String) :
    (Hub.replyError j now w client errorCode content).1.hub.clients = w.hub.clients ∧
      (Hub.replyError j now w client errorCode content).1.hub.mu = w.hub.mu ∧
      (Hub.replyError j now w client errorCode content).1.client = w.client ∧
      (∀ d, d ≠ client →
        (Hub.replyError j now w client errorCode content).1.Send d = w.Send d) := by
  unfold Hub.replyError
  simp only []
  split
  · exact Client.SendMessage_frame w client _
  · exact ⟨rfl, rfl, rfl, fun _ _ => rfl⟩

/-! ## A game_move input is answered with a fixed notification -/

/-- C29: for every client and every input that decodes to a message of type
game_move, whatever the decoded message carries, `HandleMessage` is the
broadcast to the sender's session of the game_move notification built by
`NewGameMoveMessage` with position 0 and symbol "X": its username is the
sender's, its game id the sender's session, its content empty and its type
game_move. When nobody holds the write lock, the notification encodes and the
queues of the session are open, the call returns and every client of the session
with room in its queue gets the encoded notification at the end of its queue. -/
theorem C29_game_move_broadcast_is_fixed (j : Codec) (now : Nat) (w : World) (c : ClientRef)
    (raw : Bytes) (decoded : Message) (hdec : j.Unmarshal raw = some decoded)
    (hmove : decoded.MsgType = MessageTypeGameMove) :
    Hub.HandleMessage j now w c raw =
        Hub.broadcastToGame j w (w.client c).GameID
          (Payload.gameMove
            (NewGameMoveMessage now 0 "X" (w.client c).Username (w.client c).GameID)) ∧
      (NewGameMoveMessage now 0 "X" (w.client c).Username (w.client c).GameID).Position = 0 ∧
      (NewGameMoveMessage now 0 "X" (w.client c).Username (w.client c).GameID).Symbol = "X" ∧
      (NewGameMoveMessage now 0 "X" (w.client c).Username (w.client c).GameID).Username =
        (w.client c).Username ∧
      (NewGameMoveMessage now 0 "X" (w.client c).Username (w.client c).GameID).Content = "" ∧
      (NewGameMoveMessage now 0 "X" (w.client c).Username (w.client c).GameID).GameID =
        (w.client c).GameID ∧
      (NewGameMoveMessage now 0 "X" (w.client c).Username (w.client c).GameID).MsgType =
        MessageTypeGameMove ∧
      (∀ jsonData, w.hub.mu.writer = false →
        j.Marshal (Payload.gameMove
          (NewGameMoveMessage now 0 "X" (w.client c).Username (w.client c).GameID)) =
            some jsonData →
        (∀ d ∈ w.members (w.client c).GameID, (w.Send d).closed = false) →
        (Hub.HandleMessage j now w c raw).2 = Exit.returned ∧
          ∀ d ∈ w.members (w.client c).GameID, (w.Send d).buf.length < sendCapacity →
            (Hub.HandleMessage j now w c raw).1.Send d =
              { w.Send d with buf := (w.Send d).buf ++ [jsonData] }) := by
  have he := Hub.HandleMessage_gameMove j now w c raw decoded hdec hmove
  refine ⟨he, rfl, rfl, rfl, rfl, rfl, rfl, ?_⟩
  intro jsonData hf henc hopen
  rw [he]
  obtain ⟨o1, o2, _, _⟩ := Hub.broadcastToGame_open j w (w.client c).GameID _ jsonData hf henc hopen
  exact ⟨o1, o2⟩

/-- C29 at a concrete input: ann, registered under "g1" with ben, sends an input
that decodes to a game_move message with content "b2" and forged identity
fields. -/
theorem C29_game_move_broadcast_is_fixed_witness :
    forgingCodec.Unmarshal "move/eve" =
        some { MsgType := MessageTypeGameMove, Content := "b2", Username := "eve",
               GameID := "g9", Timestamp := 99, Data := none } ∧
      (sampleRegistered.client 0).Username = "ann" ∧
      (sampleRegistered.client 0).GameID = "g1" ∧
      Hub.HandleMessage forgingCodec 20 sampleRegistered 0 "move/eve" =
        Hub.broadcastToGame forgingCodec sampleRegistered "g1"
          (Payload.gameMove (NewGameMoveMessage 20 0 "X" "ann" "g1")) ∧
      ((Hub.HandleMessage forgingCodec 20 sampleRegistered 0 "move/eve").1.Send 1).buf =
        ["game_move/X"] :=
  ⟨by decide, by decide, by decide,
    (C29_game_move_broadcast_is_fixed forgingCodec 20 sampleRegistered 0 "move/eve"
      { MsgType := MessageTypeGameMove, Content := "b2", Username := "eve",
        GameID := "g9", Timestamp := 99, Data := none } (by decide) (by decide)).1,
    by decide⟩

/-! ## Dispatch does not read the identity fields of the input -/

theorem Hub.handleChatMessage_content (j : Codec) (now : Nat) (w : World) (client : ClientRef)
    (m1 m2 : Message) (hc : m1.Content = m2.Content) :
    Hub.handleChatMessage j now w client m1 = Hub.handleChatMessage j now w client m2 := by
  unfold Hub.handleChatMessage
  rw [hc]

/-- Two inputs that decode to messages of the same type and content are
dispatched alike. -/
theorem Hub.HandleMessage_congr (j : Codec) (now : Nat) (w : World) (c : ClientRef)
    (raw1 raw2 : Bytes) (d1 d2 : Message) (h1 : j.Unmarshal raw1 = some d1)
    (h2 : j.Unmarshal raw2 = some d2) (htype : d1.MsgType = d2.MsgType)
    (hcontent : d1.Content = d2.Content) :
    Hub.HandleMessage j now w c raw1 = Hub.HandleMessage j now w c raw2 := by
  by_cases t1 : d1.MsgType = MessageTypeChat
  · rw [Hub.HandleMessage_chat j now w c raw1 d1 h1 t1,
      Hub.HandleMessage_chat j now w c raw2 d2 h2 (htype ▸ t1)]
    exact Hub.handleChatMessage_content j now w c _ _ hcontent
  by_cases t2 : d1.MsgType = MessageTypeGameMove
  · rw [Hub.HandleMessage_gameMove j now w c raw1 d1 h1 t2,
      Hub.HandleMessage_gameMove j now w c raw2 d2 h2 (htype ▸ t2)]
  by_cases t3 : d1.MsgType = MessageTypeJoin
  · rw [Hub.HandleMessage_join j now w c raw1 d1 h1 t3,
      Hub.HandleMessage_join j now w c raw2 d2 h2 (htype ▸ t3)]
    rfl
  by_cases t4 : d1.MsgType = MessageTypeLeave
  · rw [Hub.HandleMessage_leave j now w c raw1 d1 h1 t4,
      Hub.HandleMessage_leave j now w c raw2 d2 h2 (htype ▸ t4)]
    rfl
  rw [Hub.HandleMessage_other j now w c raw1 d1 h1 t1 t2 t3 t4,
    Hub.HandleMessage_other j now w c raw2 d2 h2 (htype ▸ t1) (htype ▸ t2) (htype ▸ t3)
      (htype ▸ t4)]

/-- C23 as stated fails: ann, registered under "g1" with ben, sends an input that
decodes to a message of type system. Nothing is delivered to ben, of ann's own
session; ann alone gets a frame, the encoding of the `Message` embedded in the
error message, whose username is "System" and not "ann". -/
theorem C23_unknown_type_answered_as_System :
    forgingCodec.Unmarshal "sys/eve" =
        some { MsgType := MessageTypeSystem, Content := "hi", Username := "eve",
               GameID := "g9", Timestamp := 99, Data := none } ∧
      sampleRegistered.members "g1" = [1, 0] ∧
      (sampleRegistered.client 0).Username = "ann" ∧
      ((Hub.HandleMessage forgingCodec 20 sampleRegistered 0 "sys/eve").1.Send 1).buf = [] ∧
      ((Hub.HandleMessage forgingCodec 20 sampleRegistered 0 "sys/eve").1.Send 0).buf =
        ["message/error/Unknown message type"] ∧
      forgingCodec.Marshal
          (Payload.message (NewErrorMessage 20 "UNKNOWN_TYPE" "Unknown message type" "g1").toMessage) =
        some "message/error/Unknown message type" ∧
      (NewErrorMessage 20 "UNKNOWN_TYPE" "Unknown message type" "g1").Username = "System" := by
  refine ⟨by decide, by decide, by decide, by decide, by decide, by decide, by decide⟩

/-- C23, amended: for every client `c` and any two inputs that decode to messages
of the same type and content, whatever their username, game id, timestamp and
data fields, `HandleMessage` at the same clock reading gives the same world and
ends the same way. For the four dispatched types it is the broadcast to `c`'s
session of a value built from `c`'s username and `c`'s game id: a chat message
with the decoded content when the content has at most 200 bytes; the fixed
game_move notification; and, when nobody holds the write lock, a join or leave
message with the number of clients of the session. A broadcast to `c`'s session
leaves the queue of every client outside that session as it was. For an
over-long chat message and for every other type the call is the reply to `c`
alone, built by `NewErrorMessage`, whose username is "System". -/
theorem C23_dispatch_ignores_identity_fields (j : Codec) (now : Nat) (w : World)
    (c : ClientRef) (raw1 raw2 : Bytes) (d1 d2 : Message)
    (h1 : j.Unmarshal raw1 = some d1) (h2 : j.Unmarshal raw2 = some d2)
    (htype : d1.MsgType = d2.MsgType) (hcontent : d1.Content = d2.Content) :
    Hub.HandleMessage j now w c raw1 = Hub.HandleMessage j now w c raw2 ∧
      (d1.MsgType = MessageTypeChat → d1.Content.utf8ByteSize ≤ 200 →
        Hub.HandleMessage j now w c raw1 =
          Hub.broadcastToGame j w (w.client c).GameID
            (Payload.chat
              (NewChatMessage now d1.Content (w.client c).Username (w.client c).GameID false))) ∧
      (d1.MsgType = MessageTypeGameMove →
        Hub.HandleMessage j now w c raw1 =
          Hub.broadcastToGame j w (w.client c).GameID
            (Payload.gameMove
              (NewGameMoveMessage now 0 "X" (w.client c).Username (w.client c).GameID))) ∧
      (d1.MsgType = MessageTypeJoin → w.hub.mu.writer = false →
        Hub.HandleMessage j now w c raw1 =
          Hub.broadcastToGame j w (w.client c).GameID
            (Payload.join
              (NewJoinMessage now (w.client c).Username (w.client c).GameID
                (w.members (w.client c).GameID).length))) ∧
      (d1.MsgType = MessageTypeLeave → w.hub.mu.writer = false →
        Hub.HandleMessage j now w c raw1 =
          Hub.broadcastToGame j w (w.client c).GameID
            (Payload.leave
              (NewLeaveMessage now (w.client c).Username (w.client c).GameID
                (w.members (w.client c).GameID).length))) ∧
      (∀ content,
        (NewChatMessage now content (w.client c).Username (w.client c).GameID false).Username =
            (w.client c).Username ∧
          (NewChatMessage now content (w.client c).Username (w.client c).GameID false).GameID =
            (w.client c).GameID ∧
          (NewChatMessage now content (w.client c).Username (w.client c).GameID false).Content =
            content) ∧
      ((NewGameMoveMessage now 0 "X" (w.client c).Username (w.client c).GameID).Username =
          (w.client c).Username ∧
        (NewGameMoveMessage now 0 "X" (w.client c).Username (w.client c).GameID).GameID =
          (w.client c).GameID) ∧
      (∀ count,
        (NewJoinMessage now (w.client c).Username (w.client c).GameID count).Username =
            (w.client c).Username ∧
          (NewJoinMessage now (w.client c).Username (w.client c).GameID count).GameID =
            (w.client c).GameID ∧
          (NewLeaveMessage now (w.client c).Username (w.client c).GameID count).Username =
            (w.client c).Username ∧
          (NewLeaveMessage now (w.client c).Username (w.client c).GameID count).GameID =
            (w.client c).GameID) ∧
      (∀ payload d, d ∉ w.members (w.client c).GameID →
        (Hub.broadcastToGame j w (w.client c).GameID payload).1.Send d = w.Send d) ∧
      (d1.MsgType = MessageTypeChat → d1.Content.utf8ByteSize > 200 →
        Hub.HandleMessage j now w c raw1 =
          Hub.replyError j now w c "MESSAGE_TOO_LONG" "Message too long") ∧
      (d1.MsgType ≠ MessageTypeChat → d1.MsgType ≠ MessageTypeGameMove →
        d1.MsgType ≠ MessageTypeJoin → d1.MsgType ≠ MessageTypeLeave →
        Hub.HandleMessage j now w c raw1 =
          Hub.replyError j now w c "UNKNOWN_TYPE" "Unknown message type") ∧
      (∀ code content, (NewErrorMessage now code content (w.client c).GameID).Username =
        "System") := by
  refine ⟨Hub.HandleMessage_congr j now w c raw1 raw2 d1 d2 h1 h2 htype hcontent, ?_, ?_, ?_, ?_,
    fun _ => ⟨rfl, rfl, rfl⟩, ⟨rfl, rfl⟩, fun _ => ⟨rfl, rfl, rfl, rfl⟩, ?_, ?_, ?_,
    fun _ _ => rfl⟩
  · intro t hlen
    rw [Hub.HandleMessage_chat j now w c raw1 d1 h1 t]
    unfold Hub.handleChatMessage
    rw [if_neg (by simpa using hlen)]
    rfl
  · intro t
    exact Hub.HandleMessage_gameMove j now w c raw1 d1 h1 t
  · intro t hf
    rw [Hub.HandleMessage_join j now w c raw1 d1 h1 t]
    exact Hub.handleJoinMessage_free j now w c _ hf
  · intro t hf
    rw [Hub.HandleMessage_leave j now w c raw1 d1 h1 t]
    exact Hub.handleLeaveMessage_free j now w c _ hf
  · intro payload d hd
    exact (Hub.broadcastToGame_frame j w (w.client c).GameID payload).1 d hd
  · intro t hlen
    rw [Hub.HandleMessage_chat j now w c raw1 d1 h1 t]
    unfold Hub.handleChatMessage
    rw [if_pos hlen]
  · intro t1 t2 t3 t4
    exact Hub.HandleMessage_other j now w c raw1 d1 h1 t1 t2 t3 t4

/-- C23 at a concrete input: ann, registered under "g1" with ben, sends two
inputs that decode to chat messages with the content "hi", one under her own
name and session, one under the name "eve", the session "g9" and another
timestamp. Both runs are the same, and ben's queue gets the chat frame. -/
theorem C23_dispatch_ignores_identity_fields_witness :
    forgingCodec.Unmarshal "chat/ann" =
        some { MsgType := MessageTypeChat, Content := "hi", Username := "ann",
               GameID := "g1", Timestamp := 1, Data := none } ∧
      forgingCodec.Unmarshal "chat/eve" =
        some { MsgType := MessageTypeChat, Content := "hi", Username := "eve",
               GameID := "g9", Timestamp := 99, Data := none } ∧
      Hub.HandleMessage forgingCodec 20 sampleRegistered 0 "chat/ann" =
        Hub.HandleMessage forgingCodec 20 sampleRegistered 0 "chat/eve" ∧
      ((Hub.HandleMessage forgingCodec 20 sampleRegistered 0 "chat/eve").1.Send 1).buf =
        ["chat/hi"] ∧
      ((Hub.HandleMessage forgingCodec 20 sampleRegistered 0 "chat/eve").1.Send 2).buf = [] :=
  ⟨by decide, by decide,
    (C23_dispatch_ignores_identity_fields forgingCodec 20 sampleRegistered 0 "chat/ann"
      "chat/eve"
      { MsgType := MessageTypeChat, Content := "hi", Username := "ann",
        GameID := "g1", Timestamp := 1, Data := none }
      { MsgType := MessageTypeChat, Content := "hi", Username := "eve",
        GameID := "g9", Timestamp := 99, Data := none }
      (by decide) (by decide) rfl rfl).1,
    by decide, by decide⟩

/-! ## Dispatch and the mapping -/

/-- While every client in the list has an open queue with room, the loop of
`broadcastToGame` leaves the hub as it was. -/
theorem Hub.broadcastLoop_room (gameID : String) (jsonData : Bytes) :
    ∀ (l : List ClientRef) (w : World), l.Nodup →
      (∀ d ∈ l, (w.Send d).closed = false ∧ (w.Send d).buf.length < sendCapacity) →
      (Hub.broadcastLoop gameID jsonData l w).1.hub = w.hub := by
  intro l
  induction l with
  | nil => intro w _ _; rfl
  | cons c rest ih =>
    intro w hnd hroom
    obtain ⟨hc, hr⟩ := List.nodup_cons.mp hnd
    obtain ⟨hopen, hlen⟩ := hroom c (List.mem_cons_self c rest)
    rw [Hub.broadcastLoop_cons_room gameID jsonData c rest w hopen hlen]
    rw [ih _ hr]
    · rfl
    · intro d hd
      have hne : d ≠ c := fun e => hc (e ▸ hd)
      have hs : (w.withSend c { w.Send c with buf := (w.Send c).buf ++ [jsonData] }).Send d =
          w.Send d := by
        simp [World.withSend, Function.update_noteq hne]
      rw [hs]
      exact hroom d (List.mem_cons_of_mem c hd)

/-- While every client of the session has an open queue with room,
`broadcastToGame` leaves the mapping as it was. -/
theorem Hub.broadcastToGame_room (j : Codec) (w : World) (gameID : String)
    (message : Payload)
    (hroom : ∀ d ∈ w.members gameID,
      (w.Send d).closed = false ∧ (w.Send d).buf.length < sendCapacity) :
    (Hub.broadcastToGame j w gameID message).1.hub.clients = w.hub.clients := by
  by_cases hw : w.hub.mu.writer = true
  · rw [Hub.broadcastToGame_of_writer j w gameID message hw]
  have hf : w.hub.mu.writer = false := by simpa using hw
  have hlk : w.hub.clients.lookup gameID = none ∨
      ∃ clients, w.hub.clients.lookup gameID = some clients := by
    cases w.hub.clients.lookup gameID <;> simp
  rcases hlk with hno | ⟨clients, hsome⟩
  · rw [(Hub.broadcastToGame_no_session j w gameID message hno).1]
  have hmem : w.members gameID = clients.keys := by
    unfold World.members; rw [hsome]
  rw [hmem] at hroom
  unfold Hub.broadcastToGame
  rw [RWMutex.RLock_of_free _ hf]
  simp only [hsome]
  cases j.Marshal message with
  | none =>
    simp only []
    rw [World.withMu_RUnlock_RLock w]
  | some jsonData =>
    simp only []
    have hh := Hub.broadcastLoop_room gameID jsonData clients.keys
      (w.withMu { w.hub.mu with readers := w.hub.mu.readers + 1 }) clients.keys_nodup hroom
    show (Hub.broadcastLoop gameID jsonData clients.keys
      (w.withMu { w.hub.mu with readers := w.hub.mu.readers + 1 })).1.hub.clients = _
    rw [hh]
    rfl

set_option maxRecDepth 1000000 in
/-- C21 fails. Ann and ben are registered under "g1", nobody holds the mutex,
and ben's queue holds 256 frames. Ann sends a chat message: `HandleMessage`
returns, and ben is no longer in the mapping, though no register, unregister or
broadcast event took place and nothing waits on the `Unregister` channel: the
handler calls `broadcastToGame`, which deletes a client whose queue is full from
the inner map. What holds of every dispatch: the sessions other than the
sender's keep their entries; input that does not decode leaves the mapping as it
was; and so does any input while every client of the sender's session has an
open queue with room. -/
theorem C21_dispatch_deletes_full_client :
    (sampleRegistered.withSend 1 fullChan).hub.mu = { writer := false, readers := 0 } ∧
      (sampleRegistered.withSend 1 fullChan).members "g1" = [1, 0] ∧
      ((sampleRegistered.withSend 1 fullChan).Send 1).buf.length = 256 ∧
      (Hub.HandleMessage sampleCodec 20 (sampleRegistered.withSend 1 fullChan) 0 "hello").2 =
        Exit.returned ∧
      (Hub.HandleMessage sampleCodec 20 (sampleRegistered.withSend 1 fullChan) 0
        "hello").1.members "g1" = [0] ∧
      (Hub.HandleMessage sampleCodec 20 (sampleRegistered.withSend 1 fullChan) 0
        "hello").1.hub.clients ≠ (sampleRegistered.withSend 1 fullChan).hub.clients ∧
      (Hub.HandleMessage sampleCodec 20 (sampleRegistered.withSend 1 fullChan) 0
        "hello").1.hub.Unregister = [] ∧
      (∀ (j : Codec) (now : Nat) (w : World) (c : ClientRef) (raw : Bytes) (s : String),
        s ≠ (w.client c).GameID →
        (Hub.HandleMessage j now w c raw).1.hub.clients.lookup s = w.hub.clients.lookup s) ∧
      (∀ (j : Codec) (now : Nat) (w : World) (c : ClientRef) (raw : Bytes),
        j.Unmarshal raw = none →
        (Hub.HandleMessage j now w c raw).1.hub.clients = w.hub.clients) ∧
      (∀ (j : Codec) (now : Nat) (w : World) (c : ClientRef) (raw : Bytes),
        (∀ d ∈ w.members (w.client c).GameID,
          (w.Send d).closed = false ∧ (w.Send d).buf.length < sendCapacity) →
        (Hub.HandleMessage j now w c raw).1.hub.clients = w.hub.clients) := by
  refine ⟨by decide, by decide, by decide, by decide, by decide, ?_, by decide,
    ?_, ?_, ?_⟩
  · intro h
    have hm : (Hub.HandleMessage sampleCodec 20 (sampleRegistered.withSend 1 fullChan) 0
        "hello").1.members "g1" = (sampleRegistered.withSend 1 fullChan).members "g1" := by
      unfold World.members
      rw [h]
    exact absurd hm (by decide)
  · intro j now w c raw s hs
    rcases Hub.HandleMessage_cases j now w c raw with ⟨code, content, he⟩ | ⟨payload, he⟩ | he
    · rw [he, (Hub.replyError_frame j now w c code content).1]
    · rw [he]
      exact (Hub.broadcastToGame_frame j w (w.client c).GameID payload).2.1 s hs
    · rw [he]
  · intro j now w c raw hno
    rw [Hub.HandleMessage_malformed j now w c raw hno]
    exact (Hub.replyError_frame j now w c _ _).1
  · intro j now w c raw hroom
    rcases Hub.HandleMessage_cases j now w c raw with ⟨code, content, he⟩ | ⟨payload, he⟩ | he
    · rw [he, (Hub.replyError_frame j now w c code content).1]
    · rw [he]
      exact Hub.broadcastToGame_room j w (w.client c).GameID payload hroom
    · rw [he]

set_option maxRecDepth 1000000 in
/-- C22 fails. From the hub at start, with no client registered, 258 calls of
`Client.SendMessage` on ann's queue, which nobody drains: the first 256 fill the
queue, the 257th closes it and puts ann on the `Unregister` channel, and the
258th sends on the closed queue and panics. And where ann is registered under
"g1", nobody holds the mutex and her queue is full: after one `SendMessage`
closes the queue, `unregisterClient` for ann closes it a second time and panics,
and a broadcast to "g1" in between sends on the closed queue and panics. -/
theorem C22_queue_closed_twice_and_sent_on_closed :
    ((sampleStart.run sampleCodec (List.replicate 256 (HubStep.send 0 "x"))).Send 0).closed =
        false ∧
      ((sampleStart.run sampleCodec (List.replicate 256 (HubStep.send 0 "x"))).Send 0).buf.length =
        256 ∧
      ((sampleStart.run sampleCodec (List.replicate 257 (HubStep.send 0 "x"))).Send 0).closed =
        true ∧
      (sampleStart.run sampleCodec (List.replicate 257 (HubStep.send 0 "x"))).hub.Unregister =
        [0] ∧
      (World.exits sampleCodec sampleStart (List.replicate 258 (HubStep.send 0 "x"))).getLast? =
        some (Exit.panicked "send on closed channel") ∧
      (sampleRegistered.withSend 0 fullChan).members "g1" = [1, 0] ∧
      (Client.SendMessage (sampleRegistered.withSend 0 fullChan) 0 "x").2 = Exit.returned ∧
      ((Client.SendMessage (sampleRegistered.withSend 0 fullChan) 0 "x").1.Send 0).closed =
        true ∧
      (Hub.unregisterClient sampleCodec 21
        (Client.SendMessage (sampleRegistered.withSend 0 fullChan) 0 "x").1 0).2 =
        Exit.panicked "close of closed channel" ∧
      (Hub.broadcastMessage sampleCodec
        (Client.SendMessage (sampleRegistered.withSend 0 fullChan) 0 "x").1
        (NewMessage 20 MessageTypeSystem "hi" "System" "g1")).2 =
        Exit.panicked "send on closed channel" := by
  refine ⟨by decide, by decide, by decide, by decide, by decide, by decide, by decide,
    by decide, by decide, by decide⟩

/-! ## The sessions of the registry over the runs of the hub -/

theorem RWMutex.Lock_of_writer (m : RWMutex) (hw : m.writer = true) : m.Lock = none := by
  unfold RWMutex.Lock
  rw [if_pos (Or.inl hw)]

theorem World.Held_congr (w w2 : World) (hc : w2.hub.clients = w.hub.clients)
    (hm : w2.hub.mu = w.hub.mu) (hw : w.Held) : w2.Held := by
  unfold World.Held World.Populated World.members at *
  rw [hc, hm]
  exact hw

theorem World.members_of_empty (w : World) (he : w.hub.clients = ∅) (s : String) :
    w.members s = [] := by
  unfold World.members
  rw [he]
  rfl

/-- Called when nobody holds the mutex, `registerClient` puts the client in the
mapping and waits for ever while holding the write lock. -/
theorem Hub.registerClient_of_free (j : Codec) (now : Nat) (w : World) (client : ClientRef)
    (hw : w.hub.mu.writer = false) (hr : w.hub.mu.readers = 0) :
    (Hub.registerClient j now w client).1.hub.mu.writer = true ∧
      (Hub.registerClient j now w client).1.hub.clients =
        w.hub.clients.insert (w.client client).GameID
          ((match w.hub.clients.lookup (w.client client).GameID with
            | some clients => clients
            | none => (∅ : ClientSet)).insert client true) := by
  unfold Hub.registerClient
  rw [RWMutex.Lock_of_free _ hw hr]
  simp only []
  rw [Hub.broadcastToGame_of_writer j _ _ _ rfl]
  exact ⟨rfl, rfl⟩

theorem Hub.registerClient_of_writer (j : Codec) (now : Nat) (w : World) (client : ClientRef)
    (hw : w.hub.mu.writer = true) :
    Hub.registerClient j now w client = (w, Exit.blocked) := by
  unfold Hub.registerClient
  rw [RWMutex.Lock_of_writer _ hw]

theorem Hub.unregisterClient_of_writer (j : Codec) (now : Nat) (w : World)
    (client : ClientRef) (hw : w.hub.mu.writer = true) :
    Hub.unregisterClient j now w client = (w, Exit.blocked) := by
  unfold Hub.unregisterClient
  rw [RWMutex.Lock_of_writer _ hw]

theorem Hub.broadcastToGame_Held (j : Codec) (w : World) (gameID : String)
    (message : Payload) (hw : w.Held) : (Hub.broadcastToGame j w gameID message).1.Held := by
  rcases hw with ⟨hf, hr, he⟩ | ⟨ht, hp⟩
  · have hno : w.hub.clients.lookup gameID = none := by rw [he]; rfl
    rw [(Hub.broadcastToGame_no_session j w gameID message hno).1]
    exact Or.inl ⟨hf, hr, he⟩
  · rw [Hub.broadcastToGame_of_writer j w gameID message ht]
    exact Or.inr ⟨ht, hp⟩

/-- Every step keeps the alternative: an empty mapping and a free mutex, or a
held write lock and no empty session. -/
theorem World.step_Held (j : Codec) (w : World) (s : HubStep) (hw : w.Held) :
    (w.step j s).1.Held := by
  cases s with
  | register client now =>
    show (Hub.registerClient j now w client).1.Held
    rcases hw with ⟨hf, hr, he⟩ | ⟨ht, hp⟩
    · obtain ⟨i1, i2⟩ := Hub.registerClient_of_free j now w client hf hr
      refine Or.inr ⟨i1, ?_⟩
      unfold World.Populated World.members
      rw [i2, he]
      intro s hs
      have hs2 : s = (w.client client).GameID := by
        simpa [AList.keys_insert] using hs
      rw [hs2, AList.lookup_insert]
      simp [AList.keys_insert]
    · rw [Hub.registerClient_of_writer j now w client ht]
      exact Or.inr ⟨ht, hp⟩
  | unregister client now =>
    show (Hub.unregisterClient j now w client).1.Held
    rcases hw with ⟨hf, hr, he⟩ | ⟨ht, hp⟩
    · rw [Hub.unregisterClient_absent j now w client hf hr
        (by rw [World.members_of_empty w he]; exact List.not_mem_nil _)]
      exact Or.inl ⟨hf, hr, he⟩
    · rw [Hub.unregisterClient_of_writer j now w client ht]
      exact Or.inr ⟨ht, hp⟩
  | broadcast message =>
    exact Hub.broadcastToGame_Held j w message.GameID (Payload.message message) hw
  | dispatch client message now =>
    show (Hub.HandleMessage j now w client message).1.Held
    rcases Hub.HandleMessage_cases j now w client message with
      ⟨code, content, he⟩ | ⟨payload, he⟩ | he
    · rw [he]
      obtain ⟨f1, f2, _, _⟩ := Hub.replyError_frame j now w client code content
      exact World.Held_congr w _ f1 f2 hw
    · rw [he]
      exact Hub.broadcastToGame_Held j w _ payload hw
    · rw [he]
      exact hw
  | send client message =>
    show (Client.SendMessage w client message).1.Held
    obtain ⟨f1, f2, _, _⟩ := Client.SendMessage_frame w client message
    exact World.Held_congr w _ f1 f2 hw

theorem World.run_Held (j : Codec) (steps : List HubStep) :
    ∀ w : World, w.Held → (w.run j steps).Held := by
  induction steps with
  | nil => intro w hw; exact hw
  | cons s rest ih =>
    intro w hw
    exact ih _ (World.step_Held j w s hw)

theorem World.Held_Populated (w : World) (hw : w.Held) : w.Populated := by
  rcases hw with ⟨_, _, he⟩ | ⟨_, hp⟩
  · intro s hs
    rw [he] at hs
    exact absurd hs (by simp)
  · exact hp

/-- Where every session of the mapping has a client, `GetActiveGames` lists no
session whose `GetClientCount` is 0. -/
theorem World.Populated_counts (w : World) (hp : w.Populated) (l : List String)
    (hl : Hub.GetActiveGames w = some l) (s : String) (hs : s ∈ l) :
    Hub.GetClientCount w s ≠ some 0 := by
  unfold Hub.GetActiveGames at hl
  unfold Hub.GetClientCount
  cases hm : w.hub.mu.RLock with
  | none => simp
  | some mu =>
    rw [hm] at hl
    simp only [Option.some.injEq] at hl
    rw [← hl] at hs
    have hne := hp s hs
    unfold World.members at hne
    cases hlk : w.hub.clients.lookup s with
    | none =>
      rw [hlk] at hne
      exact absurd rfl hne
    | some clients =>
      rw [hlk] at hne
      intro h0
      have h1 : (clients.keys.length : Int) = 0 := Option.some.inj h0
      have : clients.keys.length = 0 := by exact_mod_cast h1
      exact hne (List.length_eq_zero.mp this)

/-- C28: in every world reached from one whose hub is that of `NewHub` by
register, unregister, broadcast and dispatch steps and `Client.SendMessage`
calls, every session id in the mapping has at least one client, so
`GetActiveGames` lists no session whose `GetClientCount` is 0. What keeps it:
the first `registerClient` takes the write lock and never gives it back, so in
such a world the mapping is empty whenever nobody holds the write lock, and no
later step gets past the mutex to take a client out. -/
theorem C28_no_empty_session_is_reached (j : Codec) (w : World) (steps : List HubStep)
    (hstart : w.hub = NewHub) :
    (w.run j steps).Populated ∧
      (∀ l, Hub.GetActiveGames (w.run j steps) = some l →
        ∀ s ∈ l, Hub.GetClientCount (w.run j steps) s ≠ some 0) ∧
      ((w.run j steps).hub.mu.writer = false → (w.run j steps).hub.clients = ∅) := by
  have h0 : w.Held := Or.inl ⟨by rw [hstart]; rfl, by rw [hstart]; rfl, by rw [hstart]; rfl⟩
  have hh := World.run_Held j steps w h0
  refine ⟨World.Held_Populated _ hh, fun l hl s hs =>
    World.Populated_counts _ (World.Held_Populated _ hh) l hl s hs, fun hf => ?_⟩
  rcases hh with ⟨_, _, he⟩ | ⟨ht, _⟩
  · exact he
  · rw [hf] at ht
    exact absurd ht (by decide)

/-- C28 at a concrete run: from the hub at start, ann and ben are registered,
ann sends a chat message, ann is unregistered, and a system message is
broadcast to "g1". The first step puts ann under "g1" and waits for ever; the
later ones wait for the mutex. -/
theorem C28_no_empty_session_is_reached_witness :
    sampleStart.hub = NewHub ∧
      (sampleStart.run sampleCodec
        [HubStep.register 0 10, HubStep.register 1 11, HubStep.dispatch 0 "hello" 12,
          HubStep.unregister 0 13,
          HubStep.broadcast (NewMessage 14 MessageTypeSystem "hi" "System" "g1")]).Populated ∧
      (sampleStart.run sampleCodec
        [HubStep.register 0 10, HubStep.register 1 11, HubStep.dispatch 0 "hello" 12,
          HubStep.unregister 0 13,
          HubStep.broadcast (NewMessage 14 MessageTypeSystem "hi" "System" "g1")]).hub.clients.keys =
        ["g1"] ∧
      (sampleStart.run sampleCodec
        [HubStep.register 0 10, HubStep.register 1 11, HubStep.dispatch 0 "hello" 12,
          HubStep.unregister 0 13,
          HubStep.broadcast (NewMessage 14 MessageTypeSystem "hi" "System" "g1")]).members "g1" =
        [0] ∧
      World.exits sampleCodec sampleStart
        [HubStep.register 0 10, HubStep.register 1 11, HubStep.dispatch 0 "hello" 12,
          HubStep.unregister 0 13,
          HubStep.broadcast (NewMessage 14 MessageTypeSystem "hi" "System" "g1")] =
        [Exit.blocked, Exit.blocked, Exit.blocked, Exit.blocked, Exit.blocked] :=
  ⟨rfl,
    (C28_no_empty_session_is_reached sampleCodec sampleStart
      [HubStep.register 0 10, HubStep.register 1 11, HubStep.dispatch 0 "hello" 12,
        HubStep.unregister 0 13,
        HubStep.broadcast (NewMessage 14 MessageTypeSystem "hi" "System" "g1")] rfl).1,
    by decide, by decide, by decide⟩

set_option maxRecDepth 1000000 in
/-- Outside the runs of the hub: where cat alone is registered under "g2",
nobody holds the mutex and cat's queue is full, a broadcast to "g2" takes cat
out and leaves the entry of "g2" in the mapping, with no client. -/
theorem Hub.broadcastMessage_leaves_empty_entry :
    (sampleRegistered.withSend 2 fullChan).members "g2" = [2] ∧
      Hub.GetActiveGames
          (Hub.broadcastMessage sampleCodec (sampleRegistered.withSend 2 fullChan)
            (NewMessage 14 MessageTypeSystem "hi" "System" "g2")).1 =
        some ["g2", "g1"] ∧
      Hub.GetClientCount
          (Hub.broadcastMessage sampleCodec (sampleRegistered.withSend 2 fullChan)
            (NewMessage 14 MessageTypeSystem "hi" "System" "g2")).1 "g2" =
        some 0 := by
  refine ⟨by decide, by decide, by decide⟩

end domain
